import Mathlib

/-!
# Coffee Finder: per-shop local store, nearby-shop fetchers and offline cache

A shallow embedding of the parts of the repository that the specification's
testable properties talk about:

* `src/src/pages/MapPage.js`: the note and photo operations of the detail
  panel, the capture flow, the local-storage key scheme and `fetchCoffeeShops`;
* `src/src/pages/LandingPage.js`: `fetchNearbyCoffeeShops`;
* `src/public/custom-service-worker.js`: the `install`, `fetch` and `activate`
  listeners.

React state is an explicit record, `localStorage` and the cache storage are
explicit values, and everything the platform decides (the clock, the network,
`JSON.stringify` / `JSON.parse`, the storage quota) is an argument of the
function that uses it or a component of the state it runs on.
-/

namespace CoffeeFinder

/-! ## Platform strings -/

/-- The string a template literal produces for an integer-valued number:
plain decimal digits with a leading `-` for negatives (the form the platform
uses for every integer of magnitude below `10^21`). -/
def numberToString : Int → String
  | Int.ofNat m => Nat.repr m
  | Int.negSucc m => "-" ++ Nat.repr (m + 1)

/-- The method `String.prototype.startsWith`: `p` is a prefix of `s`. -/
def startsWith (s p : String) : Bool := p.data.isPrefixOf s.data

/-- The code points `String.prototype.trim` strips: the WhiteSpace and
LineTerminator productions of the language standard. -/
def isWhiteSpace (c : Char) : Bool :=
  [0x09, 0x0A, 0x0B, 0x0C, 0x0D, 0x20, 0xA0, 0x1680, 0x2028, 0x2029,
    0x202F, 0x205F, 0x3000, 0xFEFF].contains c.toNat
    || (0x2000 ≤ c.toNat && c.toNat ≤ 0x200A)

/-- The method `String.prototype.trim`. -/
def trim (s : String) : String :=
  ⟨((s.data.dropWhile isWhiteSpace).reverse.dropWhile isWhiteSpace).reverse⟩

/-- The expression `value || fallback` for a value that is a string or `null`:
`null` and the empty string are falsy. -/
def orDefault (value : Option String) (fallback : String) : String :=
  match value with
  | some s => if s = "" then fallback else s
  | none => fallback

/-! ## Data model -/

/-- A note of a shop: `{ id, text, date }` plus `edited` once it was edited.
`id` is a `Date.now()` reading, `date` and `edited` are ISO timestamps. -/
structure Note where
  id : Nat
  text : String
  date : String
  edited : Option String := none
  deriving DecidableEq, Repr

/-- A photo of a shop: `{ id, url, date }` plus `edited` once it was retaken.
`url` is the inline image payload. -/
structure Photo where
  id : Nat
  url : String
  date : String
  edited : Option String := none
  deriving DecidableEq, Repr

/-- A latitude or longitude. The source passes these numbers through without
inspecting them; they are kept here in millionths of a degree. -/
abbrev Coord := Int

/-- The tags map of a map-data element, in key order. -/
abbrev Tags := List (String × String)

/-- One entry of the `elements` array of a map-data response. `tags` is `none`
when the element carries no tags map. -/
structure Element where
  id : Int
  lat : Coord
  lon : Coord
  tags : Option Tags
  deriving DecidableEq, Repr

/-- What `await response.json()` gives: the body is not JSON (the promise
rejects), or it is a JSON value whose `elements` member is an array
(`some`) or is missing or not an array (`none`). -/
inductive Body where
  | notJson
  | value (elements : Option (List Element))
  deriving DecidableEq, Repr

/-- What `await fetch(...)` of the map-data endpoint gives: the promise rejects
(no connectivity), or it resolves with a response whose `ok` flag tells whether
the status is a success status. -/
inductive FetchOutcome where
  | rejected (reason : String)
  | resolved (ok : Bool) (body : Body)
  deriving DecidableEq, Repr

/-- The failures of the map-data request as the landing page sees them: the
network call rejects, the body is not parseable JSON, or it has no `elements`
array. -/
def FetchOutcome.failed : FetchOutcome → Bool
  | .rejected _ => true
  | .resolved _ .notJson => true
  | .resolved _ (.value none) => true
  | .resolved _ (.value (some _)) => false

/-- The failures of the map-data request on the map page: those of the landing
page, and a response whose status is not a success status. -/
def FetchOutcome.failedOnMapPage : FetchOutcome → Bool
  | .resolved false _ => true
  | outcome => outcome.failed

/-! ## JSON and local storage -/

/-- The platform's `JSON.stringify` and `JSON.parse` on sequences of entries.
`parse` gives `none` where `JSON.parse` throws. -/
structure JsonCodec (α : Type) where
  stringify : List α → String
  parse : String → Option (List α)

/-- What the platform guarantees about `JSON` on plain data: the empty array
is written `[]`, no array is written as the empty string, and parsing what was
written gives the value back. -/
def JsonCodec.Lawful {α : Type} (J : JsonCodec α) : Prop :=
  J.stringify [] = "[]" ∧ (∀ xs, J.stringify xs ≠ "") ∧
    ∀ xs, J.parse (J.stringify xs) = some xs

/-- The content of `localStorage`: `getItem` gives `null` (`none`) for an
absent key. -/
abbrev Storage := String → Option String

/-- The platform's storage quota: `quota ls key value` tells whether the store
with content `ls` has room for `setItem(key, value)`. The page cannot change
it. -/
abbrev Quota := Storage → String → String → Bool

/-- The call `localStorage.getItem(key)`. -/
def Storage.getItem (ls : Storage) (key : String) : Option String := ls key

/-- The content of the store once `key` holds `value`. -/
def Storage.insert (ls : Storage) (key value : String) : Storage :=
  fun k => if k = key then some value else ls k

/-- The call `localStorage.setItem(key, value)`: it throws (QuotaExceededError)
and leaves the store as it was when the quota has no room for the write. -/
def Storage.setItem (quota : Quota) (ls : Storage) (key value : String) :
    Except String Storage :=
  if quota ls key value then .ok (ls.insert key value) else .error "QuotaExceededError"

/-- The template literal with the shop identifier and the suffix `_notes`. -/
def notesKey (id : Int) : String := "shop_" ++ numberToString id ++ "_notes"

/-- The template literal with the shop identifier and the suffix `_photos`. -/
def photosKey (id : Int) : String := "shop_" ++ numberToString id ++ "_photos"

/-- The expression `JSON.parse(localStorage.getItem(key) || '[]')`. -/
def readStored {α : Type} (J : JsonCodec α) (ls : Storage) (key : String) :
    Option (List α) :=
  J.parse (orDefault (ls.getItem key) "[]")

/-! ## Map page (`MapPage.js`) -/

/-- A shop record as `fetchCoffeeShops` builds it. -/
structure ShopRecord where
  id : Int
  name : String
  lat : Coord
  lng : Coord
  address : String
  phone : String
  website : String
  opening_hours : String
  notes : List Note
  photos : List Photo
  deriving DecidableEq, Repr

/-- The `snackbar` state. -/
structure Snackbar where
  isOpen : Bool := false
  message : String := ""
  severity : String := "info"
  deriving DecidableEq, Repr

/-- The `slideshow` state. -/
structure Slideshow where
  isOpen : Bool := false
  currentIndex : Nat := 0
  deriving DecidableEq, Repr

/-- A camera stream as `getUserMedia` gives it: its tracks, by identifier. -/
structure MediaStream where
  tracks : List Nat
  deriving DecidableEq, Repr

/-- The state the map page works on: the component's `useState` cells, with
their initial values, the content of `localStorage` and the quota of the store
(unlimited unless said otherwise). `videoMounted` tells whether
`videoRef.current` is set (the video element is rendered exactly while the
capture UI is shown) and `stoppedTracks` lists the camera tracks on which
`stop()` was called. -/
structure MapPageState where
  localStorage : Storage := fun _ => none
  quota : Quota := fun _ _ _ => true
  selectedShop : Option ShopRecord := none
  coffeeShops : List ShopRecord := []
  loading : Bool := true
  error : Option String := none
  snackbar : Snackbar := {}
  editingNoteId : Option Nat := none
  editedNoteText : String := ""
  showCamera : Bool := false
  photos : List Photo := []
  notes : List Note := []
  newNote : String := ""
  editingPhotoId : Option Nat := none
  slideshow : Slideshow := {}
  stream : Option MediaStream := none
  videoMounted : Bool := false
  stoppedTracks : List Nat := []

/-- How an event handler ends: `.ok s` when it ran to its end, `.error s` when
it threw (reading `selectedShop.id` with no shop selected is a TypeError, and
`localStorage.setItem` throws on a store without room); `s` holds the state
updates made up to that point, which React applies all the same. -/
abbrev Handled := Except MapPageState MapPageState

/-- The state a handler leaves, whether it ran to its end or threw. -/
def Handled.state : Handled → MapPageState
  | .ok s => s
  | .error s => s

/-- The function `addNote(text)`; `now` is the `Date.now()` reading and `iso` the
`new Date().toISOString()` reading. -/
def addNote (J : JsonCodec Note) (now : Nat) (iso : String) (text : String)
    (s : MapPageState) : Handled :=
  let newNote : Note := { id := now, text := text, date := iso }
  let updatedNotes := s.notes ++ [newNote]
  let s1 := { s with notes := updatedNotes }
  match s.selectedShop with
  | none => .error s1
  | some selectedShop =>
    match s1.localStorage.setItem s.quota (notesKey selectedShop.id)
        (J.stringify updatedNotes) with
    | .error _ => .error s1
    | .ok written =>
      .ok { s1 with
        localStorage := written
        snackbar := { isOpen := true, message := "Note added successfully!",
                      severity := "success" } }

/-- The function `updateNote(noteId, newText)`; `iso` is the
`new Date().toISOString()` reading. -/
def updateNote (J : JsonCodec Note) (iso : String) (noteId : Nat) (newText : String)
    (s : MapPageState) : Handled :=
  let updatedNotes := s.notes.map fun note =>
    if note.id = noteId then { note with text := newText, edited := some iso } else note
  let s1 := { s with notes := updatedNotes }
  match s.selectedShop with
  | none => .error s1
  | some selectedShop =>
    match s1.localStorage.setItem s.quota (notesKey selectedShop.id)
        (J.stringify updatedNotes) with
    | .error _ => .error s1
    | .ok written =>
      .ok { s1 with
        localStorage := written
        snackbar := { isOpen := true, message := "Note updated successfully!",
                      severity := "success" } }

/-- The function `deleteNote(noteId)`. -/
def deleteNote (J : JsonCodec Note) (noteId : Nat) (s : MapPageState) : Handled :=
  let updatedNotes := s.notes.filter fun note => note.id ≠ noteId
  let s1 := { s with notes := updatedNotes }
  match s.selectedShop with
  | none => .error s1
  | some selectedShop =>
    match s1.localStorage.setItem s.quota (notesKey selectedShop.id)
        (J.stringify updatedNotes) with
    | .error _ => .error s1
    | .ok written =>
      .ok { s1 with
        localStorage := written
        snackbar := { isOpen := true, message := "Note deleted successfully!",
                      severity := "success" } }

/-- The function `deletePhoto(photoId)`. -/
def deletePhoto (J : JsonCodec Photo) (photoId : Nat) (s : MapPageState) : Handled :=
  let updatedPhotos := s.photos.filter fun photo => photo.id ≠ photoId
  let s1 := { s with photos := updatedPhotos }
  match s.selectedShop with
  | none => .error s1
  | some selectedShop =>
    match s1.localStorage.setItem s.quota (photosKey selectedShop.id)
        (J.stringify updatedPhotos) with
    | .error _ => .error s1
    | .ok written =>
      .ok { s1 with
        localStorage := written
        snackbar := { isOpen := true, message := "Photo deleted successfully!",
                      severity := "success" } }

/-- The `onClick` of the Add Note button. -/
def addNoteClick (J : JsonCodec Note) (now : Nat) (iso : String)
    (s : MapPageState) : Handled :=
  if trim s.newNote ≠ "" then
    match addNote J now iso (trim s.newNote) s with
    | .ok s1 => .ok { s1 with newNote := "" }
    | .error s1 => .error s1
  else
    .ok s

/-- One call of a note operation of the detail panel, with the clock readings
it makes. -/
inductive NoteOp where
  | add (now : Nat) (iso : String) (text : String)
  | update (iso : String) (noteId : Nat) (newText : String)
  | delete (noteId : Nat)
  deriving DecidableEq, Repr

/-- Runs one note operation. -/
def NoteOp.run (J : JsonCodec Note) (op : NoteOp) (s : MapPageState) : Handled :=
  match op with
  | .add now iso text => addNote J now iso text s
  | .update iso noteId newText => updateNote J iso noteId newText s
  | .delete noteId => deleteNote J noteId s

/-- Runs a sequence of note operations, each on the state the previous one
left, also when the previous one threw: the page stays mounted. -/
def runNoteOps (J : JsonCodec Note) : List NoteOp → MapPageState → MapPageState
  | [], s => s
  | op :: ops, s => runNoteOps J ops (op.run J s).state

/-- Whether every operation of a sequence of note operations runs to its end:
none throws. -/
def noteOpsComplete (J : JsonCodec Note) : List NoteOp → MapPageState → Bool
  | [], _ => true
  | op :: ops, s =>
    match op.run J s with
    | .ok s1 => noteOpsComplete J ops s1
    | .error _ => false

/-! ### Loading the selected shop -/

/-- The effect that runs when `selectedShop` changes: reads the photos and the
notes of the shop from `localStorage`. It throws (SyntaxError) when a stored
value is not valid JSON, the photos being read first. -/
def loadSelectedShop (JN : JsonCodec Note) (JP : JsonCodec Photo) (s : MapPageState) :
    Handled :=
  match s.selectedShop with
  | none => .ok s
  | some selectedShop =>
    match readStored JP s.localStorage (photosKey selectedShop.id) with
    | none => .error s
    | some shopPhotos =>
      match readStored JN s.localStorage (notesKey selectedShop.id) with
      | none => .error s
      | some shopNotes => .ok { s with photos := shopPhotos, notes := shopNotes }

/-! ### Camera -/

/-- Truthiness of a state cell that holds a number or `null`: `null` and `0` are
falsy. -/
def truthy : Option Nat → Bool
  | some n => n != 0
  | none => false

/-- The statement `stream.getTracks().forEach(track => track.stop())`. -/
def stopTracks (stream : MediaStream) (s : MapPageState) : MapPageState :=
  { s with stoppedTracks := s.stoppedTracks ++ stream.tracks }

/-- The call `setStream(value)` with the re-render it causes: when the held
stream changes, the cleanup of the effect declared on `[stream]` stops the
tracks of the stream held before. -/
def setStream (value : Option MediaStream) (s : MapPageState) : MapPageState :=
  if s.stream = value then s
  else
    match s.stream with
    | some previous => { stopTracks previous s with stream := value }
    | none => { s with stream := value }

/-- The call `setShowCamera(value)` with the re-render it causes: the video
element is mounted while the capture UI is shown. -/
def setShowCamera (value : Bool) (s : MapPageState) : MapPageState :=
  { s with showCamera := value, videoMounted := value }

/-- Teardown of the map page: the cleanup of the effect declared on `[stream]`
runs a last time. -/
def unmount (s : MapPageState) : MapPageState :=
  match s.stream with
  | some stream => stopTracks stream s
  | none => s

/-- The snackbar `startCamera` and `updatePhoto` show when the camera cannot be
accessed. -/
def cameraErrorSnackbar : Snackbar :=
  { isOpen := true, message := "Error accessing camera", severity := "error" }

/-- The async function `startCamera()`, run to completion on the outcome of
`getUserMedia`. -/
def startCamera (media : Except String MediaStream) (s : MapPageState) : MapPageState :=
  match media with
  | .ok videoStream => setShowCamera true (setStream (some videoStream) s)
  | .error _ => { s with snackbar := cameraErrorSnackbar }

/-- The async function `updatePhoto(photoId)`, run to completion on the outcome
of `getUserMedia`. -/
def updatePhoto (photoId : Nat) (media : Except String MediaStream) (s : MapPageState) :
    MapPageState :=
  match media with
  | .ok videoStream =>
    { setShowCamera true (setStream (some videoStream) s) with editingPhotoId := some photoId }
  | .error _ => { s with snackbar := cameraErrorSnackbar }

/-- The function `takePicture()`; `imageUrl` is what `canvas.toDataURL` gives,
`now` the `Date.now()` reading and `iso` the `new Date().toISOString()`
reading. The result is the state it leaves, also when `localStorage.setItem`
throws: the camera is released and the photos are updated before that call,
the snackbar is set after it. -/
def takePicture (J : JsonCodec Photo) (now : Nat) (iso : String) (imageUrl : String)
    (s : MapPageState) : MapPageState :=
  if !s.videoMounted then s
  else
    match s.stream with
    | none => s
    | some stream =>
      let s1 := setShowCamera false (setStream none (stopTracks stream s))
      match s.selectedShop with
      | none => s1
      | some selectedShop =>
        if truthy s.editingPhotoId then
          let updatedPhotos := s.photos.map fun photo =>
            if some photo.id = s.editingPhotoId then
              { photo with url := imageUrl, edited := some iso }
            else photo
          let s2 := { s1 with editingPhotoId := none, photos := updatedPhotos }
          match s1.localStorage.setItem s.quota (photosKey selectedShop.id)
              (J.stringify updatedPhotos) with
          | .error _ => s2
          | .ok written =>
            { s2 with
              localStorage := written
              snackbar := { isOpen := true, message := "Photo updated successfully!",
                            severity := "success" } }
        else
          let newPhoto : Photo := { id := now, url := imageUrl, date := iso }
          let updatedPhotos := s.photos ++ [newPhoto]
          let s2 := { s1 with photos := updatedPhotos }
          match s1.localStorage.setItem s.quota (photosKey selectedShop.id)
              (J.stringify updatedPhotos) with
          | .error _ => s2
          | .ok written =>
            { s2 with
              localStorage := written
              snackbar := { isOpen := true, message := "Photo taken successfully!",
                            severity := "success" } }

/-- The `onClick` of the close button of the capture UI. It throws (TypeError)
when no stream is held. -/
def cancelCamera (s : MapPageState) : Handled :=
  match s.stream with
  | none => .error s
  | some stream => .ok (setShowCamera false (setStream none (stopTracks stream s)))

/-- One photo operation of the detail panel with the readings it makes: the
Take Photo button followed by the shutter, the edit button of a photo followed
by the shutter, or the delete button of a photo. -/
inductive PhotoOp where
  | capture (media : MediaStream) (now : Nat) (iso : String) (imageUrl : String)
  | retake (photoId : Nat) (media : MediaStream) (now : Nat) (iso : String)
      (imageUrl : String)
  | delete (photoId : Nat)
  deriving DecidableEq, Repr

/-- Runs one photo operation: the state it leaves. -/
def PhotoOp.run (J : JsonCodec Photo) (op : PhotoOp) (s : MapPageState) : MapPageState :=
  match op with
  | .capture media now iso imageUrl =>
    takePicture J now iso imageUrl (startCamera (.ok media) s)
  | .retake photoId media now iso imageUrl =>
    takePicture J now iso imageUrl (updatePhoto photoId (.ok media) s)
  | .delete photoId => (deletePhoto J photoId s).state

/-- Runs a sequence of photo operations, each on the state the previous one
left, also when the previous one threw. -/
def runPhotoOps (J : JsonCodec Photo) : List PhotoOp → MapPageState → MapPageState
  | [], s => s
  | op :: ops, s => runPhotoOps J ops (op.run J s)

/-- Whether every creation in a sequence of note operations happens at a
timestamp that differs from every identifier in the collection at that
moment. -/
def freshNoteOps (J : JsonCodec Note) : List NoteOp → MapPageState → Bool
  | [], _ => true
  | op :: ops, s =>
    (match op with
      | .add now _ _ => !(s.notes.map Note.id).contains now
      | _ => true) &&
    freshNoteOps J ops (op.run J s).state

/-- Whether a photo operation creates a photo in the state it runs on: the
shutter appends a photo unless a truthy edit target is set. -/
def PhotoOp.creates (op : PhotoOp) (s : MapPageState) : Option Nat :=
  match op with
  | .capture _ now _ _ => if truthy s.editingPhotoId then none else some now
  | .retake photoId _ now _ _ => if truthy (some photoId) then none else some now
  | .delete _ => none

/-- Whether every creation in a sequence of photo operations happens at a
timestamp that differs from every identifier in the collection at that
moment. -/
def freshPhotoOps (J : JsonCodec Photo) : List PhotoOp → MapPageState → Bool
  | [], _ => true
  | op :: ops, s =>
    (match op.creates s with
      | some now => !(s.photos.map Photo.id).contains now
      | none => true) &&
    freshPhotoOps J ops (op.run J s)

/-- Every key other than `key` holds in `after` what it holds in `before`. -/
def OnlyKeyWritten (before after : Storage) (key : String) : Prop :=
  ∀ k, k ≠ key → after k = before k

/-! ### Slideshow -/

/-- The remainder operator `%` on integer-valued numbers: the result takes the
sign of the dividend. -/
def jsRem (a b : Int) : Int := Int.tmod a b

/-- The function `nextPhoto()`. With no photos the source computes `NaN`, which
this embedding does not represent; the button that calls it is rendered for
more than one photo. -/
def nextPhoto (s : MapPageState) : MapPageState :=
  { s with slideshow := { s.slideshow with
      currentIndex := (jsRem ((s.slideshow.currentIndex : Int) + 1) s.photos.length).toNat } }

/-- The function `previousPhoto()`. With no photos the source computes `NaN`,
which this embedding does not represent; the button that calls it is rendered
for more than one photo. -/
def previousPhoto (s : MapPageState) : MapPageState :=
  { s with slideshow := { s.slideshow with
      currentIndex :=
        (jsRem ((s.slideshow.currentIndex : Int) - 1 + s.photos.length) s.photos.length).toNat } }

/-! ### Sequences of panel events -/

/-- One event of the detail panel and the capture UI, with the readings it
makes. -/
inductive PanelOp where
  | addNote (now : Nat) (iso : String) (text : String)
  | updateNote (iso : String) (noteId : Nat) (newText : String)
  | deleteNote (noteId : Nat)
  | deletePhoto (photoId : Nat)
  | takePicture (now : Nat) (iso : String) (imageUrl : String)
  | startCamera (media : Except String MediaStream)
  | updatePhoto (photoId : Nat) (media : Except String MediaStream)
  | cancelCamera
  deriving Repr

/-- The state after one panel event. -/
def PanelOp.apply (JN : JsonCodec Note) (JP : JsonCodec Photo) (op : PanelOp)
    (s : MapPageState) : MapPageState :=
  match op with
  | .addNote now iso text => (CoffeeFinder.addNote JN now iso text s).state
  | .updateNote iso noteId newText => (CoffeeFinder.updateNote JN iso noteId newText s).state
  | .deleteNote noteId => (CoffeeFinder.deleteNote JN noteId s).state
  | .deletePhoto photoId => (CoffeeFinder.deletePhoto JP photoId s).state
  | .takePicture now iso imageUrl => CoffeeFinder.takePicture JP now iso imageUrl s
  | .startCamera media => CoffeeFinder.startCamera media s
  | .updatePhoto photoId media => CoffeeFinder.updatePhoto photoId media s
  | .cancelCamera => (CoffeeFinder.cancelCamera s).state

/-- The state after a sequence of panel events, each handled on the state the
previous one left. -/
def applyPanelOps (JN : JsonCodec Note) (JP : JsonCodec Photo) (ops : List PanelOp)
    (s : MapPageState) : MapPageState :=
  ops.foldl (fun state op => op.apply JN JP state) s

/-! ### Fetching the shops -/

/-- The method `Array.prototype.map` with a callback that may throw: the results in
order, or the first error thrown (the later elements are not visited). -/
def mapOrThrow {α β : Type} (f : α → Except String β) : List α → Except String (List β)
  | [] => .ok []
  | a :: as =>
    match f a with
    | .error e => .error e
    | .ok b =>
      match mapOrThrow f as with
      | .error e => .error e
      | .ok bs => .ok (b :: bs)

/-- The expression `tags[key] || fallback`. -/
def tagOr (tags : Tags) (key fallback : String) : String :=
  orDefault (tags.lookup key) fallback

/-- The arrow function `fetchCoffeeShops` maps over `data.elements`. It throws
when the element has no tags map (TypeError) and when a stored value is not
valid JSON (SyntaxError). -/
def shopOfElement (JN : JsonCodec Note) (JP : JsonCodec Photo) (ls : Storage)
    (element : Element) : Except String ShopRecord :=
  match element.tags with
  | none => .error "TypeError"
  | some tags =>
    match readStored JN ls (notesKey element.id) with
    | none => .error "SyntaxError"
    | some notes =>
      match readStored JP ls (photosKey element.id) with
      | none => .error "SyntaxError"
      | some photos =>
        .ok { id := element.id
              name := tagOr tags "name" "Unnamed Coffee Shop"
              lat := element.lat
              lng := element.lon
              address := tagOr tags "addr:street" "Address not available"
              phone := tagOr tags "contact:phone" "Phone number not available"
              website := tagOr tags "website" "Website not available"
              opening_hours := tagOr tags "opening_hours" "Opening hours not available"
              notes := notes
              photos := photos }

/-- The `try` block of `fetchCoffeeShops` up to the state updates: the value of
`shops`, or the error thrown on the way. -/
def fetchCoffeeShopsTry (JN : JsonCodec Note) (JP : JsonCodec Photo) (ls : Storage)
    (outcome : FetchOutcome) : Except String (List ShopRecord) :=
  match outcome with
  | .rejected reason => .error reason
  | .resolved ok body =>
    if !ok then .error "Network response was not ok"
    else
      match body with
      | .notJson => .error "SyntaxError"
      | .value none => .error "TypeError"
      | .value (some elements) => mapOrThrow (shopOfElement JN JP ls) elements

/-- The async function `fetchCoffeeShops(lat, lng)`, run to completion on the
outcome of its network call. The result is `.ok` when the returned promise
resolves and `.error` when it rejects. -/
def fetchCoffeeShops (JN : JsonCodec Note) (JP : JsonCodec Photo) (_lat _lng : Coord)
    (outcome : FetchOutcome) (s : MapPageState) : Except String MapPageState :=
  match fetchCoffeeShopsTry JN JP s.localStorage outcome with
  | .ok shops => .ok { s with coffeeShops := shops, loading := false }
  | .error _ => .ok { s with error := some "Error fetching coffee shops", loading := false }

/-! ## Landing page (`LandingPage.js`) -/

/-- A shop record as `fetchNearbyCoffeeShops` builds it. `distance` is the
string `calculateDistance` returns (`toFixed(1)` of a finite, non-negative
distance in kilometres), kept as its number of tenths of a kilometre: `"0.8"`
is `8`. -/
structure NearbyShop where
  id : Int
  name : String
  distance : Nat
  coordinates : Coord × Coord
  tags : Tags
  deriving DecidableEq, Repr

/-- The state of the landing page: its `useState` cells with their initial
values. -/
structure LandingPageState where
  nearbyShops : List NearbyShop := []
  loading : Bool := true
  userLocation : Option (Coord × Coord) := none
  deriving DecidableEq, Repr

/-- Assignment of one key of an object literal after a spread: an existing key
keeps its place, a new key goes last. -/
def setTag (key value : String) : Tags → Tags
  | [] => [(key, value)]
  | (k, v) :: rest => if k = key then (k, value) :: rest else (k, v) :: setTag key value rest

/-- The comparator of the sort: `parseFloat(a.distance) - parseFloat(b.distance)`,
in tenths of a kilometre. -/
def compareDistance (a b : NearbyShop) : Int := (a.distance : Int) - (b.distance : Int)

/-- Insertion step of the sort: `x` goes before the first entry it does not
compare greater than. -/
def sortInsert {α : Type} (cmp : α → α → Int) (x : α) : List α → List α
  | [] => [x]
  | y :: ys => if cmp x y ≤ 0 then x :: y :: ys else y :: sortInsert cmp x ys

/-- The method `Array.prototype.sort(cmp)`: the stable sort by the comparator,
computed by insertion. -/
def sort {α : Type} (cmp : α → α → Int) : List α → List α
  | [] => []
  | x :: xs => sortInsert cmp x (sort cmp xs)

/-- The arrow function `fetchNearbyCoffeeShops` maps over the first five
elements. It throws when the element has no tags map (TypeError).
`calculateDistance` is the page's haversine function, whose floating-point
arithmetic is outside this embedding: it is an argument, giving the tenths of a
kilometre its result string denotes. -/
def nearbyShopOfElement (calculateDistance : Coord → Coord → Coord → Coord → Nat)
    (lat lon : Coord) (shop : Element) : Except String NearbyShop :=
  match shop.tags with
  | none => .error "TypeError"
  | some tags =>
    .ok { id := shop.id
          name := tagOr tags "name" "Unnamed Cafe"
          distance := calculateDistance lat lon shop.lat shop.lon
          coordinates := (shop.lat, shop.lon)
          tags := setTag "opening_hours" (tagOr tags "opening_hours" "Hours not available")
            (setTag "cuisine" (tagOr tags "cuisine" "coffee_shop") tags) }

/-- The `try` block of `fetchNearbyCoffeeShops` up to the state updates: the
sorted value of `shops`, or the error thrown on the way. -/
def fetchNearbyCoffeeShopsTry (calculateDistance : Coord → Coord → Coord → Coord → Nat)
    (lat lon : Coord) (outcome : FetchOutcome) : Except String (List NearbyShop) :=
  match outcome with
  | .rejected reason => .error reason
  | .resolved _ body =>
    match body with
    | .notJson => .error "SyntaxError"
    | .value none => .error "TypeError"
    | .value (some elements) =>
      match mapOrThrow (nearbyShopOfElement calculateDistance lat lon) (elements.take 5) with
      | .error e => .error e
      | .ok shops => .ok (sort compareDistance shops)

/-- The async function `fetchNearbyCoffeeShops(lat, lon)`, run to completion on
the outcome of its network call. The result is `.ok` when the returned promise
resolves and `.error` when it rejects. -/
def fetchNearbyCoffeeShops (calculateDistance : Coord → Coord → Coord → Coord → Nat)
    (lat lon : Coord) (outcome : FetchOutcome) (s : LandingPageState) :
    Except String LandingPageState :=
  match fetchNearbyCoffeeShopsTry calculateDistance lat lon outcome with
  | .ok shops => .ok { s with nearbyShops := shops, loading := false }
  | .error _ => .ok { s with loading := false }

/-! ## Service worker (`custom-service-worker.js`) -/

/-- The constant `CACHE_NAME`. -/
def CACHE_NAME : String := "coffee-finder-cache-v1"

/-- A request: `url` is its URL without the fragment, `fragment` the fragment
when the URL has one, `method` its method. The property `request.url` of the
platform is `href`. Headers are outside the embedding; no stored response
carries a `Vary` header. -/
structure Request where
  url : String
  fragment : Option String := none
  method : String := "GET"
  deriving DecidableEq, Repr

/-- The property `request.url`: the serialised URL, fragment included. -/
def Request.href (request : Request) : String :=
  match request.fragment with
  | none => request.url
  | some fragment => request.url ++ "#" ++ fragment

/-- Whether the cache takes a request as a key: `cache.put` and `cache.addAll`
reject (TypeError) a request whose method is not GET or whose URL is not an
`http` or `https` URL. -/
def Request.cacheable (request : Request) : Bool :=
  request.method = "GET" &&
    (startsWith request.url "http://" || startsWith request.url "https://")

/-- A response: its `status`, its `type` and its body. -/
structure Response where
  status : Nat
  type : String
  body : String
  deriving DecidableEq, Repr

/-- One named cache: its entries in insertion order. -/
abbrev Cache := List (Request × Response)

/-- The cache storage `caches`: the named caches in creation order. -/
abbrev CacheStorage := List (String × Cache)

/-- Whether a stored request matches `request` for `cache.match`: the method of
`request` is GET and the two have the same URL, fragments not compared. -/
def Request.matches (stored request : Request) : Bool :=
  request.method = "GET" && stored.url = request.url

/-- The method `cache.match(request)`: the response of the first entry whose
request matches `request`. -/
def Cache.lookup (cache : Cache) (request : Request) : Option Response :=
  (cache.find? fun entry => entry.1.matches request).map Prod.snd

/-- The method `caches.match(request)`: the first match over the caches in creation
order. -/
def CacheStorage.lookup (caches : CacheStorage) (request : Request) : Option Response :=
  caches.findSome? fun named => named.2.lookup request

/-- The method `caches.keys()`. -/
def CacheStorage.keys (caches : CacheStorage) : List String := caches.map Prod.fst

/-- The method `caches.open(name)`: creates the cache, empty, when it does not exist. -/
def CacheStorage.opened (caches : CacheStorage) (name : String) : CacheStorage :=
  if caches.keys.contains name then caches else caches ++ [(name, [])]

/-- The method `cache.put(request, response)` on the cache called `name`: an entry
matching the request (same URL, fragments not compared) is replaced. For a
request the cache does not take the call rejects and stores nothing. -/
def CacheStorage.put (caches : CacheStorage) (name : String) (request : Request)
    (response : Response) : CacheStorage :=
  if request.cacheable then
    caches.map fun named =>
      if named.1 = name then
        (named.1,
          (named.2.filter fun entry => entry.1.url ≠ request.url) ++ [(request, response)])
      else named
  else caches

/-- The method `caches.delete(name)`. -/
def CacheStorage.delete (caches : CacheStorage) (name : String) : CacheStorage :=
  caches.filter fun named => named.1 ≠ name

/-- The entries of the cache called `name`: none when there is no such cache. -/
def CacheStorage.entries (caches : CacheStorage) (name : String) : Cache :=
  match caches.find? fun named => named.1 = name with
  | some named => named.2
  | none => []

deriving instance DecidableEq for Except

/-- What a listener does to the outside, in order: the calls it makes.
`cachePut` is the call of `cache.put`, whether the cache takes the request or
rejects it. -/
inductive Effect where
  | cachesMatch (request : Request)
  | networkFetch (request : Request)
  | cachesOpen (name : String)
  | cachePut (name : String) (request : Request) (response : Response)
  | cachesDelete (name : String)
  deriving DecidableEq, Repr

/-- The outcome of one `fetch` event: what `respondWith` settles with (`.error` is
a failed response), the cache storage afterwards, and the effects performed. -/
structure FetchHandled where
  response : Except String Response
  caches : CacheStorage
  effects : List Effect
  deriving DecidableEq, Repr

/-- The `fetch` listener. `origin` is `self.location.origin`, `cacheName` the
value of `CACHE_NAME`, `network` the outcome of `fetch(request)`. -/
def onFetch (origin cacheName : String) (network : Request → Except String Response)
    (caches : CacheStorage) (request : Request) : FetchHandled :=
  if startsWith request.href origin then
    match caches.lookup request with
    | some response =>
      { response := .ok response, caches := caches, effects := [.cachesMatch request] }
    | none =>
      match network request with
      | .error e =>
        { response := .error e, caches := caches
          effects := [.cachesMatch request, .networkFetch request] }
      | .ok networkResponse =>
        if networkResponse.status ≠ 200 || networkResponse.type ≠ "basic" then
          { response := .ok networkResponse, caches := caches
            effects := [.cachesMatch request, .networkFetch request] }
        else
          let responseToCache := networkResponse
          if !startsWith request.href "chrome-extension://" then
            { response := .ok networkResponse
              caches := (caches.opened cacheName).put cacheName request responseToCache
              effects := [.cachesMatch request, .networkFetch request, .cachesOpen cacheName,
                .cachePut cacheName request responseToCache] }
          else
            { response := .ok networkResponse
              caches := caches.opened cacheName
              effects := [.cachesMatch request, .networkFetch request, .cachesOpen cacheName] }
  else
    { response := network request, caches := caches, effects := [.networkFetch request] }

/-- The `activate` listener, on the cache names `caches.keys()` gives: the
cache storage after the deletions and the deletions made, in order. -/
def onActivate (cacheName : String) (caches : CacheStorage) : CacheStorage × List Effect :=
  let cacheWhitelist := [cacheName]
  caches.keys.foldl
    (fun acc name =>
      if !cacheWhitelist.contains name then (acc.1.delete name, acc.2 ++ [.cachesDelete name])
      else acc)
    (caches, [])

/-- The constant `urlsToCache`: the manifest of assets to pre-populate. -/
def urlsToCache : List String :=
  ["/", "/index.html", "/script.js", "/logo192.png", "/logo512.png", "/manifest.json",
    "/favicon.ico", "/static/js/bundle.js", "/static/css/main.css"]

/-- The `ok` flag of a response: the status is in the range 200 to 299. -/
def Response.ok (response : Response) : Bool :=
  200 ≤ response.status && response.status ≤ 299

/-- What `cache.addAll` does with one request: it rejects a request the cache
does not take; otherwise it fetches it, and a network failure, a status that
is not an ok status or the status 206 make it fail. -/
def addAllFetch (network : Request → Except String Response) (request : Request) :
    Except String (Request × Response) :=
  if !request.cacheable then .error "TypeError"
  else
    match network request with
    | .error e => .error e
    | .ok response =>
      if response.ok && response.status ≠ 206 then .ok (request, response)
      else .error "TypeError"

/-- The outcome of the `install` event: what the promise passed to `waitUntil`
settles with, the cache storage afterwards, and the effects performed. -/
structure InstallHandled where
  waitUntil : Except String Unit
  caches : CacheStorage
  effects : List Effect
  deriving DecidableEq, Repr

/-- The `install` listener. `cache.addAll` checks that the cache takes every
request (and fetches nothing otherwise), fetches every manifest asset and writes
the entries only when every fetch succeeded; otherwise it rejects, which the
`catch` handler logs, and nothing is written. Either way the promise passed to
`waitUntil` resolves. -/
def onInstall (origin cacheName : String) (network : Request → Except String Response)
    (caches : CacheStorage) : InstallHandled :=
  let opened := caches.opened cacheName
  let requests := urlsToCache.map fun path => ({ url := origin ++ path } : Request)
  match mapOrThrow (addAllFetch network) requests with
  | .ok entries =>
    { waitUntil := .ok ()
      caches := entries.foldl (fun acc entry => acc.put cacheName entry.1 entry.2) opened
      effects := [.cachesOpen cacheName] ++ requests.map Effect.networkFetch ++
        entries.map fun entry => Effect.cachePut cacheName entry.1 entry.2 }
  | .error _ =>
    { waitUntil := .ok ()
      caches := opened
      effects := [.cachesOpen cacheName] ++
        if requests.all Request.cacheable then requests.map Effect.networkFetch else [] }

/-- The origin of a serialised URL: the scheme, `://` and the authority, that
is everything before the first `/` of the path. -/
def originChars : List Char → List Char
  | [] => []
  | ':' :: '/' :: '/' :: rest => ':' :: '/' :: '/' :: rest.takeWhile (· ≠ '/')
  | c :: rest => c :: originChars rest

/-- The origin of the URL of a request, as the platform computes it for
`http` and `https` URLs. -/
def urlOrigin (url : String) : String := ⟨originChars url.data⟩

/-! ## A concrete `JSON` for entries

A writer and a reader for sequences of notes and photos in JSON syntax. They
give the functions above one concrete platform on which the laws of
`JsonCodec.Lawful` hold. -/

/-- The members of an entry: `id`, the `text` or `url`, `date`, `edited`. -/
abbrev Members := Nat × String × String × Option String

/-- The value of a decimal digit. -/
def digitValue (c : Char) : Nat := c.toNat - 48

/-- The number a run of decimal digits denotes, continuing from `acc`. -/
def ofDigitChars (acc : Nat) : List Char → Nat
  | [] => acc
  | c :: cs => ofDigitChars (acc * 10 + digitValue c) cs

/-- The characters of a string literal's body: `"` and `\` get a backslash. -/
def escapeChars : List Char → List Char
  | [] => []
  | c :: cs =>
    if c = '"' ∨ c = '\\' then '\\' :: c :: escapeChars cs else c :: escapeChars cs

/-- A string literal. -/
def writeString (s : String) : List Char := '"' :: (escapeChars s.data ++ ['"'])

/-- Writes one entry; `member` is the name of its second member. -/
def writeEntry (member : String) (e : Members) : List Char :=
  "\x7b\"id\":".data ++ (Nat.repr e.1).data ++ ",\"".data ++ member.data ++ "\":".data
    ++ writeString e.2.1 ++ ",\"date\":".data ++ writeString e.2.2.1
    ++ (match e.2.2.2 with
        | some edited => ",\"edited\":".data ++ writeString edited
        | none => [])
    ++ ['}']

/-- Writes the entries after the first one and the closing bracket. -/
def writeRest (member : String) : List Members → List Char
  | [] => [']']
  | e :: es => ',' :: (writeEntry member e ++ writeRest member es)

/-- Writes an array of entries. -/
def writeArray (member : String) : List Members → List Char
  | [] => ['[', ']']
  | e :: es => '[' :: (writeEntry member e ++ writeRest member es)

/-- Reads the literal `lit` off the front of the input. -/
def expect (lit : List Char) (cs : List Char) : Option (List Char) :=
  if lit.isPrefixOf cs then some (cs.drop lit.length) else none

/-- Reads a run of decimal digits off the front of the input. -/
def readNat (cs : List Char) : Option (Nat × List Char) :=
  match cs.takeWhile Char.isDigit with
  | [] => none
  | ds => some (ofDigitChars 0 ds, cs.dropWhile Char.isDigit)

/-- Reads the body of a string literal up to its closing quote. -/
def readBody : List Char → Option (List Char × List Char)
  | [] => none
  | '"' :: rest => some ([], rest)
  | '\\' :: c :: rest => (readBody rest).map fun r => (c :: r.1, r.2)
  | c :: rest => (readBody rest).map fun r => (c :: r.1, r.2)

/-- Reads a string literal off the front of the input. -/
def readString (cs : List Char) : Option (String × List Char) :=
  match cs with
  | '"' :: rest => (readBody rest).map fun r => (String.mk r.1, r.2)
  | _ => none

/-- Reads one entry off the front of the input. -/
def readEntry (member : String) (cs : List Char) : Option (Members × List Char) := do
  let cs ← expect "\x7b\"id\":".data cs
  let (id, cs) ← readNat cs
  let cs ← expect ",\"".data cs
  let cs ← expect member.data cs
  let cs ← expect "\":".data cs
  let (payload, cs) ← readString cs
  let cs ← expect ",\"date\":".data cs
  let (date, cs) ← readString cs
  match expect "\x7d".data cs with
  | some rest => some ((id, payload, date, none), rest)
  | none =>
    let cs ← expect ",\"edited\":".data cs
    let (edited, cs) ← readString cs
    let cs ← expect "\x7d".data cs
    some ((id, payload, date, some edited), cs)

/-- Reads the entries after the first one and the closing bracket, which must
end the input; `fuel` bounds the number of entries. -/
def readRest (member : String) : Nat → List Char → Option (List Members)
  | 0, _ => none
  | fuel + 1, cs =>
    match cs with
    | [']'] => some []
    | ',' :: rest => do
      let (e, cs) ← readEntry member rest
      let es ← readRest member fuel cs
      some (e :: es)
    | _ => none

/-- Reads an array of entries that makes up the whole input. -/
def readArray (member : String) (cs : List Char) : Option (List Members) :=
  match cs with
  | '[' :: rest =>
    if rest = [']'] then some []
    else do
      let (e, cs1) ← readEntry member rest
      let es ← readRest member cs.length cs1
      some (e :: es)
  | _ => none

/-- The members of a note. -/
def Note.members (n : Note) : Members := (n.id, n.text, n.date, n.edited)

/-- The note with the given members. -/
def Note.ofMembers (m : Members) : Note :=
  { id := m.1, text := m.2.1, date := m.2.2.1, edited := m.2.2.2 }

/-- The members of a photo. -/
def Photo.members (p : Photo) : Members := (p.id, p.url, p.date, p.edited)

/-- The photo with the given members. -/
def Photo.ofMembers (m : Members) : Photo :=
  { id := m.1, url := m.2.1, date := m.2.2.1, edited := m.2.2.2 }

/-- The concrete `JSON` on note sequences. -/
def noteJson : JsonCodec Note where
  stringify notes := ⟨writeArray "text" (notes.map Note.members)⟩
  parse s := (readArray "text" s.data).map (List.map Note.ofMembers)

/-- The concrete `JSON` on photo sequences. -/
def photoJson : JsonCodec Photo where
  stringify photos := ⟨writeArray "url" (photos.map Photo.members)⟩
  parse s := (readArray "url" s.data).map (List.map Photo.ofMembers)

/-! ## Example data -/

/-- A shop record with identifier 12345 and no tags beyond the defaults. -/
def exampleShop : ShopRecord :=
  { id := 12345, name := "Unnamed Coffee Shop", lat := 40005000, lng := -73004000
    address := "Address not available", phone := "Phone number not available"
    website := "Website not available", opening_hours := "Opening hours not available"
    notes := [], photos := [] }

/-- The map page with `exampleShop` selected, nothing stored and `text` typed into
the note field. -/
def exampleSelected (text : String) : MapPageState :=
  { selectedShop := some exampleShop, loading := false, newNote := text }

/-- Two notes created in the same millisecond, and one created later. -/
def exampleNotes : List Note :=
  [ { id := 1700000000000, text := "Great espresso", date := "2023-11-14T22:13:20.000Z" },
    { id := 1700000000000, text := "Friendly staff", date := "2023-11-14T22:13:20.000Z" },
    { id := 1700000000500, text := "Closes early", date := "2023-11-14T22:13:20.500Z" } ]

/-- Two photos created in the same millisecond, and one created later. -/
def examplePhotos : List Photo :=
  [ { id := 1700000000000, url := "data:image/jpeg;base64,AAAA", date := "2023-11-14T22:13:20.000Z" },
    { id := 1700000000000, url := "data:image/jpeg;base64,BBBB", date := "2023-11-14T22:13:20.000Z" },
    { id := 1700000000500, url := "data:image/jpeg;base64,CCCC", date := "2023-11-14T22:13:20.500Z" } ]

/-- The café of the scenario that is 0.8 km from the user. -/
def nearCafe : Element :=
  { id := 201, lat := 40007000, lon := -73002000, tags := some [("amenity", "cafe"), ("name", "Near")] }

/-- The café of the scenario that is 2.1 km from the user. -/
def farCafe : Element :=
  { id := 202, lat := 40018000, lon := -73005000, tags := some [("amenity", "cafe")] }

/-- The distances of the scenario, in tenths of a kilometre: 0.8 km to `nearCafe`
and 2.1 km to `farCafe`. -/
def scenarioDistance (_lat _lon lat2 lon2 : Coord) : Nat :=
  if (lat2, lon2) = (nearCafe.lat, nearCafe.lon) then 8 else 21

/-- The map page with `exampleShop` selected, the example notes and photos in
memory, and the capture UI open on a stream with two tracks. -/
def exampleCapturing : MapPageState :=
  startCamera (.ok { tracks := [1, 2] })
    { exampleSelected "" with notes := exampleNotes, photos := examplePhotos }

/-- A network on which every request is answered with status 200 and type basic,
except `/script.js` of `https://coffee.example`, whose fetch fails. -/
def scriptMissingNetwork (request : Request) : Except String Response :=
  if request.url = "https://coffee.example/script.js" then .error "Failed to fetch"
  else .ok { status := 200, type := "basic", body := request.url }

/-- A network on which every request is answered with status 200 and type basic. -/
def healthyNetwork (request : Request) : Except String Response :=
  .ok { status := 200, type := "basic", body := request.url }

/-- What the specification says of a field of a shop record: it is the tag when
the tag is present and not empty, and the placeholder otherwise. -/
def TagOrPlaceholder (value : String) (tags : Tags) (key placeholder : String) : Prop :=
  (∀ v, tags.lookup key = some v → v ≠ "" → value = v) ∧
  (tags.lookup key = none ∨ tags.lookup key = some "" → value = placeholder)

/-- The camera stream is released in `s`: every track of `stream` was stopped, no
stream is held and the capture UI is hidden. -/
def Released (stream : MediaStream) (s : MapPageState) : Prop :=
  (∀ t ∈ stream.tracks, t ∈ s.stoppedTracks) ∧ s.stream = none ∧ s.showCamera = false

/-- An element of a map-data response with identifier 12345 and a name tag. -/
def exampleElement : Element :=
  { id := 12345, lat := 40005000, lon := -73004000
    tags := some [("amenity", "cafe"), ("name", "Bean There"), ("website", "")] }

/-- The note of the specification's scenario. -/
def espressoNote : Note :=
  { id := 1700000000000, text := "Great espresso", date := "2023-11-14T22:13:20.000Z" }

/-- The map page before its first fetch, with one note stored for the shop 12345. -/
def exampleStored : MapPageState :=
  { localStorage := Storage.insert (fun _ => none) "shop_12345_notes"
      (noteJson.stringify [espressoNote]) }

/-- A stand-in for `calculateDistance` in the examples: a tenth of a kilometre for
every thousandth of a degree of latitude north of the user. -/
def latitudeDistance (lat _lon lat2 _lon2 : Coord) : Nat := ((lat2 - lat) / 1000).toNat

/-- A map-data response with six cafés, the sixth being the closest to a user at
latitude 40.000. -/
def sixCafes : List Element :=
  [ { id := 1, lat := 40009000, lon := -73000000, tags := some [] },
    { id := 2, lat := 40007000, lon := -73000000, tags := some [] },
    { id := 3, lat := 40012000, lon := -73000000, tags := some [] },
    { id := 4, lat := 40005000, lon := -73000000, tags := some [] },
    { id := 5, lat := 40020000, lon := -73000000, tags := some [] },
    { id := 6, lat := 40001000, lon := -73000000, tags := some [] } ]

/-- The map page after `fetchCoffeeShops` built the record of the shop 12345 from
one stored note, with that shop selected and its note loaded. -/
def exampleListed : MapPageState :=
  { exampleStored with
    coffeeShops := [{ exampleShop with name := "Bean There", notes := [espressoNote] }]
    selectedShop := some { exampleShop with name := "Bean There", notes := [espressoNote] }
    notes := [espressoNote]
    loading := false }

/-- The map page with one element's notes key holding the empty string. -/
def exampleEmptyString : MapPageState :=
  { localStorage := Storage.insert (fun _ => none) "shop_12345_notes" "" }

/-- The map page with one element's notes key holding text that is not JSON. -/
def exampleMalformed : MapPageState :=
  { localStorage := Storage.insert (fun _ => none) "shop_12345_notes" "not json" }

/-- The map page with `exampleShop` selected and one photo of it in memory. -/
def exampleRetake : MapPageState :=
  { exampleSelected "" with
    photos := [{ id := 1700000000000, url := "data:image/jpeg;base64,AAAA"
                 date := "2023-11-14T22:13:20.000Z" }] }

/-- The map page with the example photos in memory and the slideshow open on the
last of them. -/
def exampleSlideshow : MapPageState :=
  { exampleSelected "" with
    photos := examplePhotos
    slideshow := { isOpen := true, currentIndex := 2 } }

/-- The map page with `exampleShop` selected and one photo of it in memory, whose
identifier is 0 (a `Date.now()` reading at the epoch). -/
def exampleEpochPhoto : MapPageState :=
  { exampleSelected "" with
    photos := [{ id := 0, url := "data:image/jpeg;base64,AAAA"
                 date := "1970-01-01T00:00:00.000Z" }] }

/-- The quota of a store that is filled to its limit: a write has room exactly
when it does not make the stored text longer. -/
def fullStore : Quota := fun ls key value =>
  match ls key with
  | some old => decide (value.length ≤ old.length)
  | none => false

/-- The map page with `exampleShop` selected, no notes and no photos of it, and a
store that the photos of another shop fill to its limit; `text` is typed into
the note field. -/
def exampleFull (text : String) : MapPageState :=
  { exampleSelected text with
    quota := fullStore
    localStorage := Storage.insert (fun _ => none) "shop_777_photos"
      (photoJson.stringify examplePhotos) }

/-! ## The concrete `JSON` is lawful -/

theorem digitValue_digitChar (d : Nat) (h : d < 10) : digitValue (Nat.digitChar d) = d := by
  interval_cases d <;> rfl

theorem digitChar_isDigit (d : Nat) (h : d < 10) : (Nat.digitChar d).isDigit = true := by
  interval_cases d <;> rfl

theorem ofDigitChars_cons (acc : Nat) (c : Char) (cs : List Char) :
    ofDigitChars acc (c :: cs) = ofDigitChars (acc * 10 + digitValue c) cs := rfl

theorem ofDigitChars_toDigitsCore (fuel : Nat) : ∀ (n : Nat) (ds : List Char), n < fuel →
    ofDigitChars 0 (Nat.toDigitsCore 10 fuel n ds) = ofDigitChars n ds := by
  induction fuel with
  | zero => intro n ds h; omega
  | succ f ih =>
    intro n ds h
    have hd : digitValue (Nat.digitChar (n % 10)) = n % 10 :=
      digitValue_digitChar _ (Nat.mod_lt n (by decide))
    rw [Nat.toDigitsCore]
    by_cases h0 : n / 10 = 0
    · rw [if_pos h0, ofDigitChars_cons, hd]
      congr 1
      omega
    · rw [if_neg h0, ih (n / 10) _ (by omega), ofDigitChars_cons, hd]
      congr 1
      omega

theorem ofDigitChars_repr (n : Nat) : ofDigitChars 0 (Nat.repr n).data = n := by
  simp only [Nat.repr, Nat.toDigits, List.asString]
  rw [ofDigitChars_toDigitsCore _ _ _ (Nat.lt_succ_self n)]
  rfl

theorem repr_injective {a b : Nat} (h : Nat.repr a = Nat.repr b) : a = b := by
  rw [← ofDigitChars_repr a, ← ofDigitChars_repr b, h]

theorem toDigitsCore_isDigit (fuel : Nat) : ∀ (n : Nat) (ds : List Char),
    (∀ c ∈ ds, c.isDigit = true) → ∀ c ∈ Nat.toDigitsCore 10 fuel n ds, c.isDigit = true := by
  induction fuel with
  | zero => intro n ds h; simpa [Nat.toDigitsCore] using h
  | succ f ih =>
    intro n ds h
    have hd : (Nat.digitChar (n % 10)).isDigit = true :=
      digitChar_isDigit _ (Nat.mod_lt n (by decide))
    have hcons : ∀ c ∈ Nat.digitChar (n % 10) :: ds, c.isDigit = true := by
      intro c hc
      rcases List.mem_cons.mp hc with rfl | hc
      · exact hd
      · exact h c hc
    rw [Nat.toDigitsCore]
    by_cases h0 : n / 10 = 0
    · rw [if_pos h0]; exact hcons
    · rw [if_neg h0]; exact ih _ _ hcons

theorem toDigitsCore_ne_nil (fuel : Nat) : ∀ (n : Nat) (ds : List Char),
    ds ≠ [] ∨ 0 < fuel → Nat.toDigitsCore 10 fuel n ds ≠ [] := by
  induction fuel with
  | zero => intro n ds h; rcases h with h | h; simpa [Nat.toDigitsCore] using h; omega
  | succ f ih =>
    intro n ds _
    rw [Nat.toDigitsCore]
    by_cases h0 : n / 10 = 0
    · rw [if_pos h0]; exact List.cons_ne_nil _ _
    · rw [if_neg h0]; exact ih _ _ (Or.inl (List.cons_ne_nil _ _))

theorem repr_isDigit (n : Nat) : ∀ c ∈ (Nat.repr n).data, c.isDigit = true := by
  simp only [Nat.repr, Nat.toDigits, List.asString]
  exact toDigitsCore_isDigit _ _ _ (by simp)

theorem repr_ne_nil (n : Nat) : (Nat.repr n).data ≠ [] := by
  simp only [Nat.repr, Nat.toDigits, List.asString]
  exact toDigitsCore_ne_nil _ _ _ (Or.inr (Nat.succ_pos n))

theorem expect_append (lit rest : List Char) :
    expect lit (lit ++ rest) = some rest := by
  simp [expect]

theorem readNat_repr (n : Nat) (c : Char) (rest : List Char) (hc : c.isDigit = false) :
    readNat ((Nat.repr n).data ++ c :: rest) = some (n, c :: rest) := by
  have htake : ((Nat.repr n).data ++ c :: rest).takeWhile Char.isDigit = (Nat.repr n).data := by
    rw [List.takeWhile_append_of_pos (repr_isDigit n), List.takeWhile_cons_of_neg (by simp [hc])]
    simp
  have hdrop : ((Nat.repr n).data ++ c :: rest).dropWhile Char.isDigit = c :: rest := by
    rw [List.dropWhile_append_of_pos (repr_isDigit n), List.dropWhile_cons_of_neg (by simp [hc])]
  unfold readNat
  rw [htake, hdrop]
  have hne := repr_ne_nil n
  cases hds : (Nat.repr n).data with
  | nil => exact absurd hds hne
  | cons d ds => simp only; rw [← hds, ofDigitChars_repr]

theorem readBody_escapeChars (s rest : List Char) :
    readBody (escapeChars s ++ '"' :: rest) = some (s, rest) := by
  induction s with
  | nil => simp [escapeChars, readBody]
  | cons c cs ih =>
    by_cases hq : c = '"'
    · subst hq
      simp [escapeChars, readBody, ih]
    · by_cases hb : c = '\\'
      · subst hb
        simp [escapeChars, readBody, ih]
      · have : escapeChars (c :: cs) = c :: escapeChars cs := by simp [escapeChars, hq, hb]
        rw [this, List.cons_append, readBody, ih]
        · rfl
        · intro h; exact hq h
        · intro c' rest' h; exact absurd h hb

theorem readString_writeString (s : String) (rest : List Char) :
    readString (writeString s ++ rest) = some (s, rest) := by
  simp [writeString, readString, readBody_escapeChars]


theorem readNat_repr_comma (n : Nat) (rest : List Char) :
    readNat ((Nat.repr n).data ++ ([',', '"'] ++ rest)) = some (n, [',', '"'] ++ rest) :=
  readNat_repr n ',' ('"' :: rest) (by decide)

theorem expect_brace_edited (rest : List Char) :
    expect ['}'] ([',', '"', 'e', 'd', 'i', 't', 'e', 'd', '"', ':'] ++ rest) = none := rfl

theorem readEntry_writeEntry (member : String) (e : Members) (rest : List Char) :
    readEntry member (writeEntry member e ++ rest) = some (e, rest) := by
  obtain ⟨id, payload, date, edited⟩ := e
  cases edited with
  | none =>
    simp only [writeEntry, readEntry, List.append_assoc, List.nil_append, expect_append,
      Option.bind_eq_bind, Option.some_bind, readNat_repr_comma, readString_writeString]
  | some ed =>
    simp only [writeEntry, readEntry, List.append_assoc, List.nil_append, expect_append,
      Option.bind_eq_bind, Option.some_bind, readNat_repr_comma, readString_writeString,
      expect_brace_edited]

theorem length_writeRest (member : String) (es : List Members) :
    es.length < (writeRest member es).length := by
  induction es with
  | nil => simp [writeRest]
  | cons e es ih => simp only [writeRest, List.length_cons, List.length_append]; omega

theorem writeEntry_head (member : String) (e : Members) (rest : List Char) :
    ∃ tail, writeEntry member e ++ rest = '{' :: tail :=
  ⟨_, rfl⟩

theorem readRest_writeRest (member : String) (es : List Members) :
    ∀ fuel, es.length < fuel → readRest member fuel (writeRest member es) = some es := by
  induction es with
  | nil =>
    intro fuel h
    cases fuel with
    | zero => omega
    | succ f => rfl
  | cons e es ih =>
    intro fuel h
    cases fuel with
    | zero => omega
    | succ f =>
      have hf : es.length < f := by simpa using h
      simp only [writeRest, readRest]
      obtain ⟨tail, htail⟩ := writeEntry_head member e (writeRest member es)
      rw [readEntry_writeEntry]
      simp [ih f hf]

theorem readArray_writeArray (member : String) (es : List Members) :
    readArray member (writeArray member es) = some es := by
  cases es with
  | nil => rfl
  | cons e es =>
    obtain ⟨tail, htail⟩ := writeEntry_head member e (writeRest member es)
    have hlen : es.length < ('[' :: (writeEntry member e ++ writeRest member es)).length := by
      have := length_writeRest member es
      simp only [List.length_cons, List.length_append]
      omega
    have hread := readRest_writeRest member es _ hlen
    have hne : writeEntry member e ++ writeRest member es ≠ [']'] := by
      rw [htail]; simp
    simp only [writeArray, readArray, if_neg hne, readEntry_writeEntry, Option.bind_eq_bind,
      Option.some_bind, hread]

theorem noteJson_lawful : noteJson.Lawful := by
  refine ⟨rfl, ?_, ?_⟩
  · intro xs h
    have := congrArg String.data h
    cases xs <;> simp [noteJson, writeArray] at this
  · intro xs
    simp only [noteJson, readArray_writeArray, Option.map_some', List.map_map]
    congr 1
    conv_rhs => rw [← List.map_id xs]
    apply List.map_congr_left
    intro n _
    rfl

theorem photoJson_lawful : photoJson.Lawful := by
  refine ⟨rfl, ?_, ?_⟩
  · intro xs h
    have := congrArg String.data h
    cases xs <;> simp [photoJson, writeArray] at this
  · intro xs
    simp only [photoJson, readArray_writeArray, Option.map_some', List.map_map]
    congr 1
    conv_rhs => rw [← List.map_id xs]
    apply List.map_congr_left
    intro n _
    rfl


/-! ## Notes of the selected shop -/

theorem setItem_of_room (quota : Quota) (ls : Storage) (key value : String)
    (h : quota ls key value = true) :
    Storage.setItem quota ls key value = .ok (ls.insert key value) := by
  simp only [Storage.setItem, h, if_true]

theorem setItem_of_full (quota : Quota) (ls : Storage) (key value : String)
    (h : quota ls key value = false) :
    Storage.setItem quota ls key value = .error "QuotaExceededError" := by
  simp only [Storage.setItem, h, Bool.false_eq_true, if_false]

theorem setItem_cases (quota : Quota) (ls : Storage) (key value : String) :
    Storage.setItem quota ls key value = .ok (ls.insert key value) ∨
    Storage.setItem quota ls key value = .error "QuotaExceededError" := by
  cases h : quota ls key value
  · exact Or.inr (setItem_of_full _ _ _ _ h)
  · exact Or.inl (setItem_of_room _ _ _ _ h)

theorem addNote_run (J : JsonCodec Note) (shop : ShopRecord) (now : Nat) (iso text : String)
    (s : MapPageState) (hsel : s.selectedShop = some shop) :
    addNote J now iso text s =
      if s.quota s.localStorage (notesKey shop.id)
          (J.stringify (s.notes ++ [{ id := now, text := text, date := iso }])) = true then
        .ok { s with
          notes := s.notes ++ [{ id := now, text := text, date := iso }]
          localStorage := s.localStorage.insert (notesKey shop.id)
            (J.stringify (s.notes ++ [{ id := now, text := text, date := iso }]))
          snackbar := { isOpen := true, message := "Note added successfully!",
                        severity := "success" } }
      else .error { s with notes := s.notes ++ [{ id := now, text := text, date := iso }] } := by
  cases h : s.quota s.localStorage (notesKey shop.id)
      (J.stringify (s.notes ++ [{ id := now, text := text, date := iso }])) <;>
    simp only [addNote, hsel, Storage.setItem, h, Bool.false_eq_true, if_true, if_false]

theorem updateNote_run (J : JsonCodec Note) (shop : ShopRecord) (iso : String) (noteId : Nat)
    (newText : String) (s : MapPageState) (hsel : s.selectedShop = some shop) :
    updateNote J iso noteId newText s =
      if s.quota s.localStorage (notesKey shop.id)
          (J.stringify (s.notes.map fun note =>
            if note.id = noteId then { note with text := newText, edited := some iso }
            else note)) = true then
        .ok { s with
          notes := s.notes.map fun note =>
            if note.id = noteId then { note with text := newText, edited := some iso }
            else note
          localStorage := s.localStorage.insert (notesKey shop.id)
            (J.stringify (s.notes.map fun note =>
              if note.id = noteId then { note with text := newText, edited := some iso }
              else note))
          snackbar := { isOpen := true, message := "Note updated successfully!",
                        severity := "success" } }
      else .error { s with
        notes := s.notes.map fun note =>
          if note.id = noteId then { note with text := newText, edited := some iso }
          else note } := by
  cases h : s.quota s.localStorage (notesKey shop.id)
      (J.stringify (s.notes.map fun note =>
        if note.id = noteId then { note with text := newText, edited := some iso }
        else note)) <;>
    simp only [updateNote, hsel, Storage.setItem, h, Bool.false_eq_true, if_true, if_false]

theorem deleteNote_run (J : JsonCodec Note) (shop : ShopRecord) (noteId : Nat)
    (s : MapPageState) (hsel : s.selectedShop = some shop) :
    deleteNote J noteId s =
      if s.quota s.localStorage (notesKey shop.id)
          (J.stringify (s.notes.filter fun note => note.id ≠ noteId)) = true then
        .ok { s with
          notes := s.notes.filter fun note => note.id ≠ noteId
          localStorage := s.localStorage.insert (notesKey shop.id)
            (J.stringify (s.notes.filter fun note => note.id ≠ noteId))
          snackbar := { isOpen := true, message := "Note deleted successfully!",
                        severity := "success" } }
      else .error { s with notes := s.notes.filter fun note => note.id ≠ noteId } := by
  cases h : s.quota s.localStorage (notesKey shop.id)
      (J.stringify (s.notes.filter fun note => note.id ≠ noteId)) <;>
    simp only [deleteNote, hsel, Storage.setItem, h, Bool.false_eq_true, if_true, if_false]

theorem deletePhoto_run (J : JsonCodec Photo) (shop : ShopRecord) (photoId : Nat)
    (s : MapPageState) (hsel : s.selectedShop = some shop) :
    deletePhoto J photoId s =
      if s.quota s.localStorage (photosKey shop.id)
          (J.stringify (s.photos.filter fun photo => photo.id ≠ photoId)) = true then
        .ok { s with
          photos := s.photos.filter fun photo => photo.id ≠ photoId
          localStorage := s.localStorage.insert (photosKey shop.id)
            (J.stringify (s.photos.filter fun photo => photo.id ≠ photoId))
          snackbar := { isOpen := true, message := "Photo deleted successfully!",
                        severity := "success" } }
      else .error { s with photos := s.photos.filter fun photo => photo.id ≠ photoId } := by
  cases h : s.quota s.localStorage (photosKey shop.id)
      (J.stringify (s.photos.filter fun photo => photo.id ≠ photoId)) <;>
    simp only [deletePhoto, hsel, Storage.setItem, h, Bool.false_eq_true, if_true, if_false]

theorem addNote_state (J : JsonCodec Note) (now : Nat) (iso text : String)
    (s : MapPageState) :
    (addNote J now iso text s).state.notes =
      s.notes ++ [{ id := now, text := text, date := iso }] ∧
    (addNote J now iso text s).state.photos = s.photos ∧
    (addNote J now iso text s).state.selectedShop = s.selectedShop ∧
    (addNote J now iso text s).state.quota = s.quota ∧
    (addNote J now iso text s).state.coffeeShops = s.coffeeShops := by
  unfold addNote
  cases s.selectedShop with
  | none => exact ⟨rfl, rfl, rfl, rfl, rfl⟩
  | some shop =>
    simp only []
    rcases setItem_cases s.quota s.localStorage (notesKey shop.id)
      (J.stringify (s.notes ++ [{ id := now, text := text, date := iso }])) with h | h <;>
    · rw [h]; exact ⟨rfl, rfl, rfl, rfl, rfl⟩

theorem updateNote_state (J : JsonCodec Note) (iso : String) (noteId : Nat) (newText : String)
    (s : MapPageState) :
    (updateNote J iso noteId newText s).state.notes =
      (s.notes.map fun note =>
        if note.id = noteId then { note with text := newText, edited := some iso }
        else note) ∧
    (updateNote J iso noteId newText s).state.photos = s.photos ∧
    (updateNote J iso noteId newText s).state.selectedShop = s.selectedShop ∧
    (updateNote J iso noteId newText s).state.quota = s.quota ∧
    (updateNote J iso noteId newText s).state.coffeeShops = s.coffeeShops := by
  unfold updateNote
  cases s.selectedShop with
  | none => exact ⟨rfl, rfl, rfl, rfl, rfl⟩
  | some shop =>
    simp only []
    rcases setItem_cases s.quota s.localStorage (notesKey shop.id)
      (J.stringify (s.notes.map fun note =>
        if note.id = noteId then { note with text := newText, edited := some iso }
        else note)) with h | h <;>
    · rw [h]; exact ⟨rfl, rfl, rfl, rfl, rfl⟩

theorem readStored_insert {α : Type} (J : JsonCodec α) (hJ : J.Lawful) (ls : Storage)
    (key : String) (xs : List α) :
    readStored J (ls.insert key (J.stringify xs)) key = some xs := by
  obtain ⟨_, hne, hrt⟩ := hJ
  simp only [readStored, Storage.getItem, Storage.insert, if_true, orDefault, if_neg (hne xs),
    hrt]

theorem noteOp_run_ok (J : JsonCodec Note) (shop : ShopRecord) (op : NoteOp)
    (s s1 : MapPageState) (hsel : s.selectedShop = some shop) (hrun : op.run J s = .ok s1) :
    s1.selectedShop = some shop ∧ s1.quota = s.quota ∧
      s1.localStorage = s.localStorage.insert (notesKey shop.id) (J.stringify s1.notes) := by
  cases op with
  | add now iso text =>
    simp only [NoteOp.run, addNote, hsel] at hrun
    rcases setItem_cases s.quota s.localStorage (notesKey shop.id)
      (J.stringify (s.notes ++ [{ id := now, text := text, date := iso }])) with h | h
    · simp only [h, Except.ok.injEq] at hrun
      subst hrun
      exact ⟨rfl, rfl, rfl⟩
    · simp only [h] at hrun
      cases hrun
  | update iso noteId newText =>
    simp only [NoteOp.run, updateNote, hsel] at hrun
    rcases setItem_cases s.quota s.localStorage (notesKey shop.id)
      (J.stringify (s.notes.map fun note =>
        if note.id = noteId then { note with text := newText, edited := some iso }
        else note)) with h | h
    · simp only [h, Except.ok.injEq] at hrun
      subst hrun
      exact ⟨rfl, rfl, rfl⟩
    · simp only [h] at hrun
      cases hrun
  | delete noteId =>
    simp only [NoteOp.run, deleteNote, hsel] at hrun
    rcases setItem_cases s.quota s.localStorage (notesKey shop.id)
      (J.stringify (s.notes.filter fun note => note.id ≠ noteId)) with h | h
    · simp only [h, Except.ok.injEq] at hrun
      subst hrun
      exact ⟨rfl, rfl, rfl⟩
    · simp only [h] at hrun
      cases hrun

theorem noteOp_run_of_room (J : JsonCodec Note) (shop : ShopRecord) (op : NoteOp)
    (s : MapPageState) (hsel : s.selectedShop = some shop)
    (hroom : ∀ ls key value, s.quota ls key value = true) :
    ∃ s1, op.run J s = .ok s1 := by
  cases op with
  | add now iso text =>
    simp only [NoteOp.run, addNote, hsel, Storage.setItem, hroom, if_true]
    exact ⟨_, rfl⟩
  | update iso noteId newText =>
    simp only [NoteOp.run, updateNote, hsel, Storage.setItem, hroom, if_true]
    exact ⟨_, rfl⟩
  | delete noteId =>
    simp only [NoteOp.run, deleteNote, hsel, Storage.setItem, hroom, if_true]
    exact ⟨_, rfl⟩

theorem noteOps_consistent (J : JsonCodec Note) (hJ : J.Lawful) (shop : ShopRecord)
    (ops : List NoteOp) :
    ∀ s : MapPageState, s.selectedShop = some shop →
      readStored J s.localStorage (notesKey shop.id) = some s.notes →
      noteOpsComplete J ops s = true →
      (runNoteOps J ops s).selectedShop = some shop ∧
      readStored J (runNoteOps J ops s).localStorage (notesKey shop.id) =
        some (runNoteOps J ops s).notes ∧
      (ops ≠ [] → (runNoteOps J ops s).localStorage.getItem (notesKey shop.id) =
        some (J.stringify (runNoteOps J ops s).notes)) := by
  induction ops with
  | nil => intro s hsel hstored _; exact ⟨hsel, hstored, fun h => absurd rfl h⟩
  | cons op ops ih =>
    intro s hsel hstored hcomplete
    simp only [noteOpsComplete] at hcomplete
    cases hrun : op.run J s with
    | error s1 => rw [hrun] at hcomplete; cases hcomplete
    | ok s1 =>
      rw [hrun] at hcomplete
      obtain ⟨hsel1, _, hls⟩ := noteOp_run_ok J shop op s s1 hsel hrun
      have hstored1 : readStored J s1.localStorage (notesKey shop.id) = some s1.notes := by
        rw [hls]; exact readStored_insert J hJ _ _ _
      have hget1 : s1.localStorage.getItem (notesKey shop.id) =
          some (J.stringify s1.notes) := by
        rw [hls]; simp [Storage.getItem, Storage.insert]
      obtain ⟨hsel2, hstored2, hget2⟩ := ih s1 hsel1 hstored1 hcomplete
      have hstep : runNoteOps J (op :: ops) s = runNoteOps J ops s1 := by
        simp only [runNoteOps, hrun, Handled.state]
      rw [hstep]
      refine ⟨hsel2, hstored2, fun _ => ?_⟩
      cases ops with
      | nil => exact hget1
      | cons op2 ops2 => exact hget2 (List.cons_ne_nil _ _)

theorem noteOps_complete_of_room (J : JsonCodec Note) (shop : ShopRecord)
    (ops : List NoteOp) :
    ∀ s : MapPageState, s.selectedShop = some shop →
      (∀ ls key value, s.quota ls key value = true) → noteOpsComplete J ops s = true := by
  induction ops with
  | nil => intro s _ _; rfl
  | cons op ops ih =>
    intro s hsel hroom
    obtain ⟨s1, hrun⟩ := noteOp_run_of_room J shop op s hsel hroom
    obtain ⟨hsel1, hquota1, _⟩ := noteOp_run_ok J shop op s s1 hsel hrun
    simp only [noteOpsComplete, hrun]
    exact ih s1 hsel1 (by rw [hquota1]; exact hroom)

/-- C1, as amended: from a state in which a shop is selected and the notes in
memory are the sequence stored under the shop's notes key, after every finite
sequence of `addNote`, `updateNote` and `deleteNote` calls of which none throws
(every write to local storage finds room) the sequence stored under that key is
again the notes in memory (after at least one call the stored text is their
serialisation). On a store that has room for every write no call throws. -/
theorem write_through_consistency (J : JsonCodec Note) (hJ : J.Lawful) (shop : ShopRecord)
    (ops : List NoteOp) (s : MapPageState) (hsel : s.selectedShop = some shop)
    (hstored : readStored J s.localStorage (notesKey shop.id) = some s.notes) :
    (noteOpsComplete J ops s = true →
      (runNoteOps J ops s).selectedShop = some shop ∧
      readStored J (runNoteOps J ops s).localStorage (notesKey shop.id) =
        some (runNoteOps J ops s).notes ∧
      (ops ≠ [] → (runNoteOps J ops s).localStorage.getItem (notesKey shop.id) =
        some (J.stringify (runNoteOps J ops s).notes))) ∧
    ((∀ ls key value, s.quota ls key value = true) → noteOpsComplete J ops s = true) :=
  ⟨noteOps_consistent J hJ shop ops s hsel hstored,
    noteOps_complete_of_room J shop ops s hsel⟩

/-- Witness of C1 as amended: an add, an edit and a delete on the shop 12345,
starting with nothing stored, on a store with room. -/
theorem write_through_consistency_witness :
    noteOpsComplete noteJson
        [.add 1700000000000 "2023-11-14T22:13:20.000Z" "Great espresso",
          .add 1700000000500 "2023-11-14T22:13:20.500Z" "Closes early",
          .update "2023-11-14T22:14:00.000Z" 1700000000000 "Great flat white",
          .delete 1700000000500] (exampleSelected "") = true ∧
    readStored noteJson (runNoteOps noteJson
        [.add 1700000000000 "2023-11-14T22:13:20.000Z" "Great espresso",
          .add 1700000000500 "2023-11-14T22:13:20.500Z" "Closes early",
          .update "2023-11-14T22:14:00.000Z" 1700000000000 "Great flat white",
          .delete 1700000000500] (exampleSelected "")).localStorage (notesKey exampleShop.id) =
      some (runNoteOps noteJson
        [.add 1700000000000 "2023-11-14T22:13:20.000Z" "Great espresso",
          .add 1700000000500 "2023-11-14T22:13:20.500Z" "Closes early",
          .update "2023-11-14T22:14:00.000Z" 1700000000000 "Great flat white",
          .delete 1700000000500] (exampleSelected "")).notes ∧
    (runNoteOps noteJson
        [.add 1700000000000 "2023-11-14T22:13:20.000Z" "Great espresso",
          .add 1700000000500 "2023-11-14T22:13:20.500Z" "Closes early",
          .update "2023-11-14T22:14:00.000Z" 1700000000000 "Great flat white",
          .delete 1700000000500] (exampleSelected "")).notes =
      [{ id := 1700000000000, text := "Great flat white", date := "2023-11-14T22:13:20.000Z"
         edited := some "2023-11-14T22:14:00.000Z" }] :=
  have h := write_through_consistency noteJson noteJson_lawful exampleShop
    [.add 1700000000000 "2023-11-14T22:13:20.000Z" "Great espresso",
      .add 1700000000500 "2023-11-14T22:13:20.500Z" "Closes early",
      .update "2023-11-14T22:14:00.000Z" 1700000000000 "Great flat white",
      .delete 1700000000500] (exampleSelected "") rfl (by decide)
  ⟨h.2 (fun _ _ _ => rfl), (h.1 (h.2 (fun _ _ _ => rfl))).2.1, by decide⟩

/-- Counterexample to C1 as stated: the shop 12345 is selected with no notes in
memory and none stored, and the photos of another shop fill the store to its
limit. `addNote` puts the note into the collection in memory and then
`localStorage.setItem` throws: afterwards the notes in memory are one note and
the notes key is still absent, so the stored sequence is empty. -/
theorem note_kept_in_memory_only :
    (exampleFull "").selectedShop = some exampleShop ∧
    readStored noteJson (exampleFull "").localStorage (notesKey 12345) =
      some (exampleFull "").notes ∧
    (runNoteOps noteJson [.add 1700000000000 "2023-11-14T22:13:20.000Z" "Great espresso"]
      (exampleFull "")).notes = [espressoNote] ∧
    (runNoteOps noteJson [.add 1700000000000 "2023-11-14T22:13:20.000Z" "Great espresso"]
      (exampleFull "")).localStorage.getItem (notesKey 12345) = none ∧
    readStored noteJson
      (runNoteOps noteJson [.add 1700000000000 "2023-11-14T22:13:20.000Z" "Great espresso"]
        (exampleFull "")).localStorage (notesKey 12345) = some [] := by
  refine ⟨rfl, by decide, by decide, by decide, by decide⟩

/-! ## Deleting by identifier -/

theorem filter_ne_of_count_one {α : Type} (key : α → Nat) (a : Nat) (l : List α)
    (h : (l.map key).count a = 1) :
    ∃ before target after, l = before ++ target :: after ∧ key target = a ∧
      (∀ x ∈ before ++ after, key x ≠ a) ∧
      l.filter (fun x => key x ≠ a) = before ++ after := by
  induction l with
  | nil => simp at h
  | cons y ys ih =>
    by_cases hy : key y = a
    · have hcount : (ys.map key).count a = 0 := by
        simp only [List.map_cons, hy, List.count_cons_self] at h
        omega
      have hnot : ∀ x ∈ ys, key x ≠ a := by
        intro x hx hxa
        have : a ∈ ys.map key := List.mem_map.mpr ⟨x, hx, hxa⟩
        exact absurd hcount (by
          have := List.count_pos_iff.mpr this
          omega)
      refine ⟨[], y, ys, rfl, hy, by simpa using hnot, ?_⟩
      simp only [List.nil_append]
      rw [List.filter_cons_of_neg (by simp [hy])]
      exact List.filter_eq_self.mpr (by simpa using hnot)
    · have hcount : (ys.map key).count a = 1 := by
        simp only [List.map_cons] at h
        rwa [List.count_cons_of_ne (fun h => hy h.symm)] at h
      obtain ⟨before, target, after, hl, ht, hothers, hf⟩ := ih hcount
      refine ⟨y :: before, target, after, by rw [hl]; rfl, ht, ?_, ?_⟩
      · intro x hx
        rcases List.mem_cons.mp hx with rfl | hx
        · exact hy
        · exact hothers x hx
      · rw [List.filter_cons_of_pos (by simp [hy]), hf]; rfl


theorem deleteNote_state (J : JsonCodec Note) (noteId : Nat) (s : MapPageState) :
    (deleteNote J noteId s).state.notes = s.notes.filter (fun note => note.id ≠ noteId) ∧
    (deleteNote J noteId s).state.photos = s.photos ∧
    (deleteNote J noteId s).state.selectedShop = s.selectedShop ∧
    (deleteNote J noteId s).state.quota = s.quota ∧
    (deleteNote J noteId s).state.coffeeShops = s.coffeeShops := by
  unfold deleteNote
  cases s.selectedShop with
  | none => exact ⟨rfl, rfl, rfl, rfl, rfl⟩
  | some shop =>
    simp only []
    rcases setItem_cases s.quota s.localStorage (notesKey shop.id)
      (J.stringify (s.notes.filter fun note => note.id ≠ noteId)) with h | h <;>
    · rw [h]; exact ⟨rfl, rfl, rfl, rfl, rfl⟩

theorem deletePhoto_state (J : JsonCodec Photo) (photoId : Nat) (s : MapPageState) :
    (deletePhoto J photoId s).state.photos =
      s.photos.filter (fun photo => photo.id ≠ photoId) ∧
    (deletePhoto J photoId s).state.notes = s.notes ∧
    (deletePhoto J photoId s).state.selectedShop = s.selectedShop ∧
    (deletePhoto J photoId s).state.quota = s.quota ∧
    (deletePhoto J photoId s).state.coffeeShops = s.coffeeShops := by
  unfold deletePhoto
  cases s.selectedShop with
  | none => exact ⟨rfl, rfl, rfl, rfl, rfl⟩
  | some shop =>
    simp only []
    rcases setItem_cases s.quota s.localStorage (photosKey shop.id)
      (J.stringify (s.photos.filter fun photo => photo.id ≠ photoId)) with h | h <;>
    · rw [h]; exact ⟨rfl, rfl, rfl, rfl, rfl⟩

/-- C2, as amended: `deleteNote` keeps exactly the notes whose identifier differs
from the given one, in their original order, and when the identifier occurs
exactly once in the collection it removes exactly one entry, the one with that
identifier (the length drops by one); the same holds for `deletePhoto`. This is
the collection the handler leaves, whether or not its write to local storage
finds room; with a shop selected and room for the write it runs to its end. -/
theorem delete_by_identifier (JN : JsonCodec Note) (JP : JsonCodec Photo) (shop : ShopRecord)
    (s : MapPageState) (id : Nat) (hsel : s.selectedShop = some shop) :
    ((deleteNote JN id s).state.notes = s.notes.filter (fun note => note.id ≠ id) ∧
      (deleteNote JN id s).state.notes.Sublist s.notes ∧
      ((s.notes.map Note.id).count id = 1 →
        ∃ before target after, s.notes = before ++ target :: after ∧ target.id = id ∧
          (∀ note ∈ before ++ after, note.id ≠ id) ∧
          (deleteNote JN id s).state.notes = before ++ after ∧
          (deleteNote JN id s).state.notes.length = s.notes.length - 1) ∧
      (s.quota s.localStorage (notesKey shop.id)
          (JN.stringify (s.notes.filter fun note => note.id ≠ id)) = true →
        ∃ s1, deleteNote JN id s = .ok s1)) ∧
    ((deletePhoto JP id s).state.photos = s.photos.filter (fun photo => photo.id ≠ id) ∧
      (deletePhoto JP id s).state.photos.Sublist s.photos ∧
      ((s.photos.map Photo.id).count id = 1 →
        ∃ before target after, s.photos = before ++ target :: after ∧ target.id = id ∧
          (∀ photo ∈ before ++ after, photo.id ≠ id) ∧
          (deletePhoto JP id s).state.photos = before ++ after ∧
          (deletePhoto JP id s).state.photos.length = s.photos.length - 1) ∧
      (s.quota s.localStorage (photosKey shop.id)
          (JP.stringify (s.photos.filter fun photo => photo.id ≠ id)) = true →
        ∃ s1, deletePhoto JP id s = .ok s1)) := by
  constructor
  · rw [(deleteNote_state JN id s).1]
    refine ⟨rfl, List.filter_sublist _, fun hcount => ?_, fun hroom => ?_⟩
    · obtain ⟨before, target, after, hl, ht, hothers, hf⟩ :=
        filter_ne_of_count_one Note.id id s.notes hcount
      refine ⟨before, target, after, hl, ht, hothers, hf, ?_⟩
      rw [hf, hl]
      simp
    · simp only [deleteNote, hsel, Storage.setItem, hroom, if_true]
      exact ⟨_, rfl⟩
  · rw [(deletePhoto_state JP id s).1]
    refine ⟨rfl, List.filter_sublist _, fun hcount => ?_, fun hroom => ?_⟩
    · obtain ⟨before, target, after, hl, ht, hothers, hf⟩ :=
        filter_ne_of_count_one Photo.id id s.photos hcount
      refine ⟨before, target, after, hl, ht, hothers, hf, ?_⟩
      rw [hf, hl]
      simp
    · simp only [deletePhoto, hsel, Storage.setItem, hroom, if_true]
      exact ⟨_, rfl⟩

/-- Witness of C2 as amended: deleting the note and the photo created at
1700000000500 from the example collections. -/
theorem delete_by_identifier_witness :
    (deleteNote noteJson 1700000000500
        { exampleSelected "" with notes := exampleNotes, photos := examplePhotos }).state.notes =
      [ { id := 1700000000000, text := "Great espresso", date := "2023-11-14T22:13:20.000Z" },
        { id := 1700000000000, text := "Friendly staff",
          date := "2023-11-14T22:13:20.000Z" } ] ∧
    (deletePhoto photoJson 1700000000500
        { exampleSelected "" with notes := exampleNotes, photos := examplePhotos }).state.photos =
      examplePhotos.filter (fun photo => photo.id ≠ 1700000000500) ∧
    (∃ s1, deleteNote noteJson 1700000000500
        { exampleSelected "" with notes := exampleNotes, photos := examplePhotos } = .ok s1) :=
  have h := delete_by_identifier noteJson photoJson exampleShop
    { exampleSelected "" with notes := exampleNotes, photos := examplePhotos } 1700000000500 rfl
  ⟨h.1.1.trans (by decide), h.2.1, h.1.2.2.2 rfl⟩

/-- Counterexample to C2 as stated: two notes added in the same millisecond
share their identifier; that identifier occurs in the collection, and
`deleteNote` removes both entries, so the length drops from 3 to 1 and not to 2. -/
theorem delete_removes_every_duplicate :
    (runNoteOps noteJson
        [.add 1700000000000 "2023-11-14T22:13:20.000Z" "Great espresso",
          .add 1700000000000 "2023-11-14T22:13:20.000Z" "Friendly staff",
          .add 1700000000500 "2023-11-14T22:13:20.500Z" "Closes early"]
        (exampleSelected "")).notes = exampleNotes ∧
    (∃ note ∈ exampleNotes, note.id = 1700000000000) ∧
    (deleteNote noteJson 1700000000000
        { exampleSelected "" with notes := exampleNotes }).state.notes =
      [{ id := 1700000000500, text := "Closes early", date := "2023-11-14T22:13:20.500Z" }] ∧
    exampleNotes.length - 1 = 2 ∧
    (deleteNote noteJson 1700000000000
        { exampleSelected "" with notes := exampleNotes }).state.notes.length = 1 := by
  refine ⟨by decide, by decide, by decide, by decide, by decide⟩

/-! ## The Add Note button -/

/-- C3, as amended: with shop `n` selected, notes `c` in memory, a text that is
not empty after trimming in the note field and room in the store for the
write, the Add Note button stores under `shop_<n>_notes` the sequence `c`
followed by one new entry with the trimmed text and the timestamp of the
click; for shop 12345, no notes and the text "Great espresso" the key
`shop_12345_notes` holds exactly one entry, with text "Great espresso". -/
theorem add_note_action (J : JsonCodec Note) (hJ : J.Lawful) (shop : ShopRecord)
    (s : MapPageState) (now : Nat) (iso : String) (hsel : s.selectedShop = some shop)
    (htext : trim s.newNote ≠ "")
    (hroom : s.quota s.localStorage (notesKey shop.id)
      (J.stringify (s.notes ++ [{ id := now, text := trim s.newNote, date := iso }])) = true) :
    ∃ s1, addNoteClick J now iso s = .ok s1 ∧
      s1.localStorage.getItem (notesKey shop.id) =
        some (J.stringify (s.notes ++ [{ id := now, text := trim s.newNote, date := iso }])) ∧
      readStored J s1.localStorage (notesKey shop.id) =
        some (s.notes ++ [{ id := now, text := trim s.newNote, date := iso }]) ∧
      s1.notes = s.notes ++ [{ id := now, text := trim s.newNote, date := iso }] ∧
      (shop.id = 12345 → s.notes = [] → s.newNote = "Great espresso" →
        ∃ entry, readStored J s1.localStorage "shop_12345_notes" = some [entry] ∧
          entry.text = "Great espresso" ∧ entry.date = iso) := by
  have hstored := readStored_insert J hJ s.localStorage (notesKey shop.id)
    (s.notes ++ [{ id := now, text := trim s.newNote, date := iso }])
  simp only [addNoteClick, addNote, hsel, htext, ne_eq, not_false_eq_true, if_true,
    Storage.setItem, hroom]
  refine ⟨_, rfl, ?_, hstored, rfl, ?_⟩
  · simp [Storage.getItem, Storage.insert]
  · intro hid hnotes hnew
    refine ⟨{ id := now, text := trim s.newNote, date := iso }, ?_, ?_, rfl⟩
    · have hkey : notesKey shop.id = "shop_12345_notes" := by rw [hid]; decide
      rw [← hkey]
      simpa [hnotes] using hstored
    · show trim s.newNote = "Great espresso"
      rw [hnew]; decide

/-- Witness of C3 as amended: the scenario of the specification on a store with
room, with the stored text written out. -/
theorem add_note_action_witness :
    ∃ s1, addNoteClick noteJson 1700000000000 "2023-11-14T22:13:20.000Z"
        (exampleSelected "Great espresso") = .ok s1 ∧
      s1.localStorage.getItem "shop_12345_notes" = some
        "[\x7b\"id\":1700000000000,\"text\":\"Great espresso\",\"date\":\"2023-11-14T22:13:20.000Z\"\x7d]" ∧
      readStored noteJson s1.localStorage "shop_12345_notes" =
        some [{ id := 1700000000000, text := "Great espresso",
                date := "2023-11-14T22:13:20.000Z" }] :=
  match add_note_action noteJson noteJson_lawful exampleShop (exampleSelected "Great espresso")
      1700000000000 "2023-11-14T22:13:20.000Z" rfl (by decide) rfl with
  | ⟨s1, hrun, hget, hread, _, _⟩ => ⟨s1, hrun, hget, hread⟩

/-- Counterexample to C3 as stated: the shop 12345 is selected with no notes, the
text "Great espresso" is in the note field, and the photos of another shop
fill the store to its limit. The Add Note button throws at
`localStorage.setItem`: the key `shop_12345_notes` is still absent, while the
note is in the collection in memory and the text is still in the field. -/
theorem add_note_on_full_store :
    (exampleFull "Great espresso").selectedShop = some exampleShop ∧
    (exampleFull "Great espresso").notes = [] ∧
    trim (exampleFull "Great espresso").newNote = "Great espresso" ∧
    (∀ s1, addNoteClick noteJson 1700000000000 "2023-11-14T22:13:20.000Z"
      (exampleFull "Great espresso") ≠ .ok s1) ∧
    (addNoteClick noteJson 1700000000000 "2023-11-14T22:13:20.000Z"
      (exampleFull "Great espresso")).state.localStorage.getItem "shop_12345_notes" = none ∧
    (addNoteClick noteJson 1700000000000 "2023-11-14T22:13:20.000Z"
      (exampleFull "Great espresso")).state.notes = [espressoNote] ∧
    (addNoteClick noteJson 1700000000000 "2023-11-14T22:13:20.000Z"
      (exampleFull "Great espresso")).state.newNote = "Great espresso" := by
  have hrun : ∃ s1, addNoteClick noteJson 1700000000000 "2023-11-14T22:13:20.000Z"
      (exampleFull "Great espresso") = .error s1 := ⟨_, rfl⟩
  obtain ⟨s1, hs1⟩ := hrun
  refine ⟨rfl, rfl, by decide, ?_, by decide, by decide, by decide⟩
  intro s2 h
  rw [hs1] at h
  cases h

/-! ## Service worker: the `fetch` listener -/

theorem originChars_prefix (l : List Char) : originChars l <+: l := by
  induction l using originChars.induct with
  | case1 => exact List.prefix_refl _
  | case2 rest =>
    rw [originChars]
    exact (List.prefix_cons_inj _).mpr ((List.prefix_cons_inj _).mpr
      ((List.prefix_cons_inj _).mpr (List.takeWhile_prefix _)))
  | case3 c rest hne ih =>
    rw [originChars]
    · exact (List.prefix_cons_inj _).mpr ih
    · exact hne

theorem startsWith_urlOrigin (url : String) : startsWith url (urlOrigin url) = true := by
  simp only [startsWith, urlOrigin, List.isPrefixOf_iff_prefix]
  exact originChars_prefix _

theorem startsWith_href (request : Request) (p : String)
    (h : startsWith request.url p = true) : startsWith request.href p = true := by
  unfold Request.href
  cases request.fragment with
  | none => exact h
  | some fragment =>
    simp only [startsWith, List.isPrefixOf_iff_prefix, String.data_append] at h ⊢
    rw [List.append_assoc]
    exact h.trans (List.prefix_append _ _)

theorem startsWith_href_origin (request : Request) :
    startsWith request.href (urlOrigin request.url) = true :=
  startsWith_href request _ (startsWith_urlOrigin _)

theorem not_extension_of_cacheable (request : Request) (h : request.cacheable = true) :
    startsWith request.href "chrome-extension://" = false := by
  have hurl : ∃ rest, request.url.data = 'h' :: rest := by
    simp only [Request.cacheable, Bool.and_eq_true, Bool.or_eq_true, startsWith,
      List.isPrefixOf_iff_prefix] at h
    rcases h.2 with ⟨t, ht⟩ | ⟨t, ht⟩
    · exact ⟨_, ht.symm⟩
    · exact ⟨_, ht.symm⟩
  obtain ⟨rest, hrest⟩ := hurl
  have hhref : ∃ tail, request.href.data = 'h' :: tail := by
    unfold Request.href
    cases request.fragment with
    | none => exact ⟨rest, hrest⟩
    | some fragment =>
      refine ⟨rest ++ ['#'] ++ fragment.data, ?_⟩
      simp only [String.data_append, hrest, List.cons_append]
  obtain ⟨tail, htail⟩ := hhref
  simp only [startsWith, htail]
  rfl

theorem cache_lookup_of_mem (cache : Cache) (request : Request) (entry : Request × Response)
    (hmem : entry ∈ cache) (hmatch : entry.1.matches request = true) :
    ∃ cached, cache.lookup request = some cached := by
  have hsome : (cache.find? fun e => e.1.matches request).isSome := by
    rw [List.find?_isSome]
    exact ⟨entry, hmem, hmatch⟩
  obtain ⟨found, hfound⟩ := Option.isSome_iff_exists.mp hsome
  exact ⟨found.2, by simp [Cache.lookup, hfound]⟩

theorem cache_lookup_mem (cache : Cache) (request : Request) (cached : Response)
    (h : cache.lookup request = some cached) :
    ∃ req, (req, cached) ∈ cache ∧ req.matches request = true := by
  simp only [Cache.lookup, Option.map_eq_some'] at h
  obtain ⟨found, hfound, hsnd⟩ := h
  have hmatch : found.1.matches request = true :=
    List.find?_some (p := fun (entry : Request × Response) => entry.1.matches request) hfound
  refine ⟨found.1, ?_, hmatch⟩
  have := List.mem_of_find?_eq_some hfound
  rw [← hsnd]
  exact this

theorem caches_lookup_of_mem (caches : CacheStorage) (request : Request)
    (h : ∃ name cache entry, (name, cache) ∈ caches ∧ entry ∈ cache ∧
      entry.1.matches request = true) :
    ∃ cached, caches.lookup request = some cached := by
  obtain ⟨name, cache, entry, hc, he, hmatch⟩ := h
  obtain ⟨cached, hcached⟩ := cache_lookup_of_mem cache request entry he hmatch
  have hsome : (caches.lookup request).isSome := by
    simp only [CacheStorage.lookup, List.findSome?_isSome_iff]
    exact ⟨(name, cache), hc, by simp [hcached]⟩
  exact Option.isSome_iff_exists.mp hsome

theorem caches_lookup_mem (caches : CacheStorage) (request : Request) (cached : Response)
    (h : caches.lookup request = some cached) :
    ∃ name cache req, (name, cache) ∈ caches ∧ (req, cached) ∈ cache ∧
      req.matches request = true := by
  obtain ⟨named, hmem, hlookup⟩ := List.exists_of_findSome?_eq_some h
  obtain ⟨req, hreq, hmatch⟩ := cache_lookup_mem named.2 request cached hlookup
  exact ⟨named.1, named.2, req, hmem, hreq, hmatch⟩

theorem caches_lookup_of_not_get (caches : CacheStorage) (request : Request)
    (h : request.method ≠ "GET") : caches.lookup request = none := by
  cases hl : caches.lookup request with
  | none => rfl
  | some cached =>
    obtain ⟨_, _, req, _, _, hmatch⟩ := caches_lookup_mem caches request cached hl
    simp [Request.matches, h] at hmatch

/-- C4: a same-origin request for which some cache holds a matching entry (the
request's method is GET and the entry has its URL, fragments not compared) is
answered with a cached entry that matches it; the listener's only effect is
the cache lookup (no network fetch) and the cache storage is unchanged. -/
theorem fetch_cache_hit (origin cacheName : String) (network : Request → Except String Response)
    (caches : CacheStorage) (request : Request) (hsame : urlOrigin request.url = origin)
    (hhit : ∃ name cache entry, (name, cache) ∈ caches ∧ entry ∈ cache ∧
      entry.1.matches request = true) :
    ∃ cached, caches.lookup request = some cached ∧
      (∃ name cache req, (name, cache) ∈ caches ∧ (req, cached) ∈ cache ∧
        req.matches request = true) ∧
      onFetch origin cacheName network caches request =
        { response := .ok cached, caches := caches, effects := [.cachesMatch request] } ∧
      (∀ r, Effect.networkFetch r ∉ (onFetch origin cacheName network caches request).effects) ∧
      (onFetch origin cacheName network caches request).caches = caches := by
  obtain ⟨cached, hcached⟩ := caches_lookup_of_mem caches request hhit
  have hstart : startsWith request.href origin = true := by
    rw [← hsame]; exact startsWith_href_origin _
  have hrun : onFetch origin cacheName network caches request =
      { response := .ok cached, caches := caches, effects := [.cachesMatch request] } := by
    simp only [onFetch, hstart, if_true, hcached]
  refine ⟨cached, hcached, caches_lookup_mem caches request cached hcached, hrun, ?_, ?_⟩
  · intro r; rw [hrun]; simp
  · rw [hrun]

/-- Witness of C4: `/index.html#top` of the application's origin while offline; the
current cache holds `/index.html`. -/
theorem fetch_cache_hit_witness :
    onFetch "https://coffee.example" CACHE_NAME (fun _ => .error "offline")
        [(CACHE_NAME, [({ url := "https://coffee.example/index.html" }, ⟨200, "basic", "<html>"⟩)])]
        { url := "https://coffee.example/index.html", fragment := some "top" } =
      { response := .ok ⟨200, "basic", "<html>"⟩
        caches :=
          [(CACHE_NAME,
            [({ url := "https://coffee.example/index.html" }, ⟨200, "basic", "<html>"⟩)])]
        effects := [.cachesMatch
          { url := "https://coffee.example/index.html", fragment := some "top" }] } ∧
    (∀ r, Effect.networkFetch r ∉
      (onFetch "https://coffee.example" CACHE_NAME (fun _ => .error "offline")
        [(CACHE_NAME, [({ url := "https://coffee.example/index.html" }, ⟨200, "basic", "<html>"⟩)])]
        { url := "https://coffee.example/index.html", fragment := some "top" }).effects) :=
  match fetch_cache_hit "https://coffee.example" CACHE_NAME (fun _ => .error "offline")
    [(CACHE_NAME, [({ url := "https://coffee.example/index.html" }, ⟨200, "basic", "<html>"⟩)])]
    { url := "https://coffee.example/index.html", fragment := some "top" } (by decide)
    ⟨CACHE_NAME, _, ({ url := "https://coffee.example/index.html" }, ⟨200, "basic", "<html>"⟩),
      List.mem_singleton.mpr rfl, List.mem_singleton.mpr rfl, by decide⟩ with
  | ⟨cached, hcached, _, hrun, hnone, _⟩ => by
    have hc : cached = ⟨200, "basic", "<html>"⟩ := by
      have : CacheStorage.lookup
          [(CACHE_NAME,
            [({ url := "https://coffee.example/index.html" }, ⟨200, "basic", "<html>"⟩)])]
          { url := "https://coffee.example/index.html", fragment := some "top" } =
          some ⟨200, "basic", "<html>"⟩ := by decide
      rw [hcached] at this
      exact Option.some.inj this
    subst hc
    exact ⟨hrun, hnone⟩

/-- The else branch of the `fetch` listener: a request whose URL does not start with
the application's origin string goes to the network only; no cache is looked
up or written and the result is the result of the network fetch. -/
theorem fetch_bypass_unprefixed (origin cacheName : String)
    (network : Request → Except String Response) (caches : CacheStorage) (request : Request)
    (h : startsWith request.href origin = false) :
    onFetch origin cacheName network caches request =
      { response := network request, caches := caches, effects := [.networkFetch request] } := by
  simp [onFetch, h]

/-- C5, the code at the failing input: the application runs at
`http://localhost:3000` and the request goes to `http://localhost:30000`, another
origin whose URL starts with the application's origin string. The listener
takes the same-origin branch: it looks the request up in the caches, and when
a cache holds an entry for the URL it answers with that entry and not with the
result of the network fetch. -/
theorem fetch_other_origin_sharing_prefix :
    urlOrigin "http://localhost:30000/api/shops" ≠ "http://localhost:3000" ∧
    (onFetch "http://localhost:3000" CACHE_NAME (fun _ => .ok ⟨200, "cors", "[]"⟩) []
        { url := "http://localhost:30000/api/shops" }).effects =
      [.cachesMatch { url := "http://localhost:30000/api/shops" },
        .networkFetch { url := "http://localhost:30000/api/shops" }] ∧
    onFetch "http://localhost:3000" CACHE_NAME (fun _ => .ok ⟨200, "cors", "[]"⟩)
        [(CACHE_NAME, [({ url := "http://localhost:30000/api/shops" }, ⟨200, "cors", "stale"⟩)])]
        { url := "http://localhost:30000/api/shops" } =
      { response := .ok ⟨200, "cors", "stale"⟩
        caches := [(CACHE_NAME, [({ url := "http://localhost:30000/api/shops" }, ⟨200, "cors", "stale"⟩)])]
        effects := [.cachesMatch { url := "http://localhost:30000/api/shops" }] } := by
  refine ⟨by decide, by decide, by decide⟩


theorem entries_opened (caches : CacheStorage) (name n : String) :
    (caches.opened name).entries n = caches.entries n := by
  unfold CacheStorage.opened
  by_cases h : caches.keys.contains name = true
  · rw [if_pos h]
  · rw [if_neg h]
    have hnot : ∀ named ∈ caches, named.1 ≠ name := by
      intro named hmem heq
      apply h
      simp only [CacheStorage.keys, List.contains_iff_exists_mem_beq, List.mem_map]
      exact ⟨name, ⟨named, hmem, heq⟩, by simp⟩
    simp only [CacheStorage.entries, List.find?_append]
    cases hfind : caches.find? (fun named => named.1 = n) with
    | some found => simp
    | none =>
      by_cases hn : name = n
      · simp [hn]
      · simp [hn]

theorem entries_put_of_ne (caches : CacheStorage) (name n : String) (request : Request)
    (response : Response) (hne : n ≠ name) :
    (caches.put name request response).entries n = caches.entries n := by
  unfold CacheStorage.put
  split
  · induction caches with
    | nil => rfl
    | cons named rest ih =>
      simp only [CacheStorage.entries, List.map_cons] at ih ⊢
      by_cases h1 : named.1 = name
      · have h2 : ¬ named.1 = n := fun h => hne (h ▸ h1 ▸ rfl)
        simp only [h1, if_true, List.find?_cons]
        have h3 : ¬ name = n := fun h => hne h.symm
        simp only [h3, decide_False]
        rw [h1] at h2
        simpa using ih
      · simp only [h1, if_false, List.find?_cons]
        by_cases h2 : named.1 = n
        · simp [h2]
        · simp only [h2, decide_False]
          simpa using ih
  · rfl

theorem mem_entries_put_opened (caches : CacheStorage) (name : String) (request : Request)
    (response : Response) (hcacheable : request.cacheable = true) :
    (request, response) ∈ ((caches.opened name).put name request response).entries name := by
  have key : ∀ cs : CacheStorage, cs.keys.contains name = true →
      (request, response) ∈ (cs.put name request response).entries name := by
    intro cs
    simp only [CacheStorage.put, hcacheable, if_true]
    induction cs with
    | nil => intro h; simp [CacheStorage.keys] at h
    | cons named rest ih =>
      intro h
      simp only [CacheStorage.entries, List.map_cons] at ih ⊢
      by_cases h1 : named.1 = name
      · simp [h1]
      · have hrest : (CacheStorage.keys rest).contains name = true := by
          simp only [CacheStorage.keys, List.map_cons, List.contains_cons, Bool.or_eq_true,
            beq_iff_eq] at h
          rcases h with h | h
          · exact absurd h.symm h1
          · exact h
        simp only [h1, if_false, List.find?_cons, decide_False]
        exact ih hrest
  apply key
  unfold CacheStorage.opened
  by_cases h : caches.keys.contains name = true
  · rw [if_pos h]; exact h
  · rw [if_neg h]; simp [CacheStorage.keys]

theorem opened_of_mem (caches : CacheStorage) (name : String) (h : name ∈ caches.keys) :
    caches.opened name = caches := by
  unfold CacheStorage.opened
  rw [if_pos (by simpa using h)]

theorem put_of_not_cacheable (caches : CacheStorage) (name : String) (request : Request)
    (response : Response) (h : request.cacheable = false) :
    caches.put name request response = caches := by
  simp only [CacheStorage.put, h, Bool.false_eq_true, if_false]

/-- C6, as amended: a same-origin request that no cache matches is answered with
the network response unchanged. The listener calls `cache.put` exactly when the
response has status 200 and type basic and the URL does not start with
`chrome-extension://`, and a copy is put, into the cache of the current
generation and into no other, exactly when moreover the request is one the
cache takes: a GET request for an `http` or `https` URL. Otherwise every cache
keeps its entries, and the cache storage is left as it was whenever the
response is not a 200 basic response or the cache of the current generation
exists already, as it does after install. -/
theorem fetch_cache_miss (origin cacheName : String) (network : Request → Except String Response)
    (caches : CacheStorage) (request : Request) (networkResponse : Response)
    (hsame : urlOrigin request.url = origin) (hmiss : caches.lookup request = none)
    (hnet : network request = .ok networkResponse) :
    (onFetch origin cacheName network caches request).response = .ok networkResponse ∧
    (∀ name req resp,
      Effect.cachePut name req resp ∈ (onFetch origin cacheName network caches request).effects ↔
        name = cacheName ∧ req = request ∧ resp = networkResponse ∧
          networkResponse.status = 200 ∧ networkResponse.type = "basic" ∧
          startsWith request.href "chrome-extension://" = false) ∧
    (networkResponse.status = 200 ∧ networkResponse.type = "basic" ∧
        startsWith request.href "chrome-extension://" = false ∧ request.cacheable = true →
      (onFetch origin cacheName network caches request).caches =
        (caches.opened cacheName).put cacheName request networkResponse ∧
      (request, networkResponse) ∈
        (onFetch origin cacheName network caches request).caches.entries cacheName ∧
      ∀ name, name ≠ cacheName →
        (onFetch origin cacheName network caches request).caches.entries name =
          caches.entries name) ∧
    (¬ (networkResponse.status = 200 ∧ networkResponse.type = "basic" ∧
        startsWith request.href "chrome-extension://" = false ∧ request.cacheable = true) →
      (∀ name, (onFetch origin cacheName network caches request).caches.entries name =
        caches.entries name) ∧
      (¬ (networkResponse.status = 200 ∧ networkResponse.type = "basic") →
        (onFetch origin cacheName network caches request).caches = caches) ∧
      (cacheName ∈ caches.keys →
        (onFetch origin cacheName network caches request).caches = caches)) := by
  have hstart : startsWith request.href origin = true := by
    rw [← hsame]; exact startsWith_href_origin _
  by_cases hvalid : networkResponse.status = 200 ∧ networkResponse.type = "basic"
  · obtain ⟨hstatus, htype⟩ := hvalid
    by_cases hext : startsWith request.href "chrome-extension://" = true
    · have hrun : onFetch origin cacheName network caches request =
          { response := .ok networkResponse, caches := caches.opened cacheName
            effects := [.cachesMatch request, .networkFetch request, .cachesOpen cacheName] } := by
        simp [onFetch, hstart, hmiss, hnet, hstatus, htype, hext]
      rw [hrun]
      refine ⟨rfl, ?_, ?_, ?_⟩
      · intro name req resp; simp [hext]
      · intro h; simp [hext] at h
      · intro _
        exact ⟨fun name => entries_opened caches cacheName name,
          fun h => absurd ⟨hstatus, htype⟩ h, fun h => opened_of_mem caches cacheName h⟩
    · have hext' : startsWith request.href "chrome-extension://" = false := by
        simpa using hext
      have hrun : onFetch origin cacheName network caches request =
          { response := .ok networkResponse
            caches := (caches.opened cacheName).put cacheName request networkResponse
            effects := [.cachesMatch request, .networkFetch request, .cachesOpen cacheName,
              .cachePut cacheName request networkResponse] } := by
        simp [onFetch, hstart, hmiss, hnet, hstatus, htype, hext']
      rw [hrun]
      refine ⟨rfl, ?_, ?_, ?_⟩
      · intro name req resp
        simp only [List.mem_cons, List.mem_singleton, Effect.cachePut.injEq, reduceCtorEq,
          false_or, List.not_mem_nil, or_false, hstatus, htype, hext', and_true]
      · rintro ⟨_, _, _, hcacheable⟩
        refine ⟨rfl,
          mem_entries_put_opened caches cacheName request networkResponse hcacheable, ?_⟩
        intro name hne
        show ((caches.opened cacheName).put cacheName request networkResponse).entries name = _
        rw [entries_put_of_ne _ _ _ _ _ hne, entries_opened]
      · intro h
        have hnot : request.cacheable = false := by
          cases hc : request.cacheable with
          | false => rfl
          | true => exact absurd ⟨hstatus, htype, hext', hc⟩ h
        show (∀ name, ((caches.opened cacheName).put cacheName request
            networkResponse).entries name = caches.entries name) ∧ _ ∧
          (cacheName ∈ caches.keys →
            (caches.opened cacheName).put cacheName request networkResponse = caches)
        rw [put_of_not_cacheable _ _ _ _ hnot]
        exact ⟨fun name => entries_opened caches cacheName name,
          fun h => absurd ⟨hstatus, htype⟩ h, fun h => opened_of_mem caches cacheName h⟩
  · have hguard : (networkResponse.status ≠ 200 || networkResponse.type ≠ "basic") = true := by
      by_cases hs : networkResponse.status = 200
      · have ht : networkResponse.type ≠ "basic" := fun ht => hvalid ⟨hs, ht⟩
        simp [hs, ht]
      · simp [hs]
    have hrun : onFetch origin cacheName network caches request =
        { response := .ok networkResponse, caches := caches
          effects := [.cachesMatch request, .networkFetch request] } := by
      simp only [onFetch, hstart, if_true, hmiss, hnet, hguard]
    rw [hrun]
    refine ⟨rfl, ?_, ?_, ?_⟩
    · intro name req resp
      constructor
      · intro h; simp at h
      · rintro ⟨_, _, _, hs, ht, _⟩; exact absurd ⟨hs, ht⟩ hvalid
    · rintro ⟨hs, ht, _⟩; exact absurd ⟨hs, ht⟩ hvalid
    · intro _; exact ⟨fun _ => rfl, fun _ => rfl, fun _ => rfl⟩

/-- Witness of C6 as amended: `/static/js/bundle.js` of the application's origin,
not cached yet, fetched with status 200 and type basic. -/
theorem fetch_cache_miss_witness :
    (onFetch "https://coffee.example" CACHE_NAME (fun _ => .ok ⟨200, "basic", "js"⟩)
        [(CACHE_NAME, [])] { url := "https://coffee.example/static/js/bundle.js" }).response =
      .ok ⟨200, "basic", "js"⟩ ∧
    (onFetch "https://coffee.example" CACHE_NAME (fun _ => .ok ⟨200, "basic", "js"⟩)
        [(CACHE_NAME, [])] { url := "https://coffee.example/static/js/bundle.js" }).caches =
      [(CACHE_NAME,
        [({ url := "https://coffee.example/static/js/bundle.js" }, ⟨200, "basic", "js"⟩)])] :=
  have h := fetch_cache_miss "https://coffee.example" CACHE_NAME
    (fun _ => .ok ⟨200, "basic", "js"⟩) [(CACHE_NAME, [])]
    { url := "https://coffee.example/static/js/bundle.js" } ⟨200, "basic", "js"⟩
    (by decide) (by decide) rfl
  ⟨h.1, (h.2.2.1 ⟨rfl, rfl, by decide, by decide⟩).1⟩

/-- Counterexample to C6 as stated: a POST request to the application's origin,
which no cache matches, answered with status 200 and type basic; its URL is
not an extension URL and the cache of the current generation exists. The
listener calls `cache.put`, the cache rejects a request that is not a GET
request, and no copy of the response is in the cache. -/
theorem fetch_post_miss_stores_nothing :
    urlOrigin "https://coffee.example/api/feedback" = "https://coffee.example" ∧
    CacheStorage.lookup [(CACHE_NAME, [])]
      { url := "https://coffee.example/api/feedback", method := "POST" } = none ∧
    startsWith (Request.href { url := "https://coffee.example/api/feedback", method := "POST" })
      "chrome-extension://" = false ∧
    onFetch "https://coffee.example" CACHE_NAME (fun _ => .ok ⟨200, "basic", "thanks"⟩)
        [(CACHE_NAME, [])] { url := "https://coffee.example/api/feedback", method := "POST" } =
      { response := .ok ⟨200, "basic", "thanks"⟩
        caches := [(CACHE_NAME, [])]
        effects := [.cachesMatch { url := "https://coffee.example/api/feedback", method := "POST" },
          .networkFetch { url := "https://coffee.example/api/feedback", method := "POST" },
          .cachesOpen CACHE_NAME,
          .cachePut CACHE_NAME { url := "https://coffee.example/api/feedback", method := "POST" }
            ⟨200, "basic", "thanks"⟩] } ∧
    (onFetch "https://coffee.example" CACHE_NAME (fun _ => .ok ⟨200, "basic", "thanks"⟩)
        [(CACHE_NAME, [])]
        { url := "https://coffee.example/api/feedback", method := "POST" }).caches.entries
      CACHE_NAME = [] := by
  refine ⟨by decide, by decide, by decide, by decide, by decide⟩

/-! ## Service worker: the `activate` listener -/

theorem activate_fold (cacheName : String) (names : List String) :
    ∀ (acc : CacheStorage) (log : List Effect),
      names.foldl
        (fun (acc : CacheStorage × List Effect) name =>
          if !([cacheName].contains name) then
            (acc.1.delete name, acc.2 ++ [Effect.cachesDelete name])
          else acc)
        (acc, log) =
      (acc.filter (fun named => named.1 = cacheName ∨ named.1 ∉ names),
        log ++ (names.filter (fun name => name ≠ cacheName)).map Effect.cachesDelete) := by
  induction names with
  | nil => intro acc log; simp
  | cons name rest ih =>
    intro acc log
    rw [List.foldl_cons]
    by_cases hname : name = cacheName
    · subst hname
      have hc : ¬ (!([name].contains name)) = true := by simp
      rw [if_neg hc, ih]
      congr 1
      · apply List.filter_congr
        intro named _
        by_cases h : named.1 = name <;> simp [h]
      · simp
    · have hc : (!([cacheName].contains name)) = true := by
        simp [hname]
      rw [if_pos hc, ih]
      congr 1
      · simp only [CacheStorage.delete, List.filter_filter]
        apply List.filter_congr
        intro named _
        by_cases h1 : named.1 = cacheName
        · have hne : ¬ cacheName = name := fun h => hname h.symm
          simp [h1, hne]
        · by_cases h2 : named.1 = name
          · simp [h2, hname]
          · simp [h1, h2]
      · simp [hname]

/-- C7: the activate transition deletes exactly the cache generations whose name
is not the current generation's name, so the generations that remain are the
existing ones with the current name, with their entries; with `v1` and `v2`
present and `v2` current, exactly `v2` remains. -/
theorem activate_keeps_current (cacheName : String) (caches : CacheStorage) :
    (onActivate cacheName caches).1 = caches.filter (fun named => named.1 = cacheName) ∧
    (onActivate cacheName caches).2 =
      (caches.keys.filter (fun name => name ≠ cacheName)).map Effect.cachesDelete ∧
    (∀ name, name ∈ (onActivate cacheName caches).1.keys ↔
      name ∈ caches.keys ∧ name = cacheName) ∧
    (∀ name, Effect.cachesDelete name ∈ (onActivate cacheName caches).2 ↔
      name ∈ caches.keys ∧ name ≠ cacheName) ∧
    (∀ old current : Cache,
      (onActivate "v2" [("v1", old), ("v2", current)]).1 = [("v2", current)] ∧
      (onActivate "v2" [("v1", old), ("v2", current)]).1.keys = ["v2"]) := by
  have hrun : onActivate cacheName caches =
      (caches.filter (fun named => named.1 = cacheName),
        (caches.keys.filter (fun name => name ≠ cacheName)).map Effect.cachesDelete) := by
    unfold onActivate
    simp only []
    rw [activate_fold]
    congr 1
    apply List.filter_congr
    intro named hmem
    have : named.1 ∈ caches.keys := List.mem_map.mpr ⟨named, hmem, rfl⟩
    simp [this]
  rw [hrun]
  refine ⟨rfl, rfl, ?_, ?_, ?_⟩
  · intro name
    simp only [CacheStorage.keys, List.mem_map, List.mem_filter, decide_eq_true_eq]
    constructor
    · rintro ⟨named, ⟨hmem, hcur⟩, rfl⟩
      exact ⟨⟨named, hmem, rfl⟩, hcur⟩
    · rintro ⟨⟨named, hmem, rfl⟩, hcur⟩
      exact ⟨named, ⟨hmem, hcur⟩, rfl⟩
  · intro name
    simp [CacheStorage.keys]
  · intro old current
    constructor <;> rfl


/-! ## Nearby shops of the landing page -/

theorem mem_sortInsert {α : Type} (cmp : α → α → Int) (x y : α) (l : List α) :
    y ∈ sortInsert cmp x l ↔ y = x ∨ y ∈ l := by
  induction l with
  | nil => simp [sortInsert]
  | cons z zs ih =>
    unfold sortInsert
    by_cases h : cmp x z ≤ 0
    · rw [if_pos h]; simp
    · rw [if_neg h]
      simp only [List.mem_cons, ih]
      tauto

theorem sortInsert_pairwise (x : NearbyShop) (l : List NearbyShop)
    (h : l.Pairwise fun a b => a.distance ≤ b.distance) :
    (sortInsert compareDistance x l).Pairwise fun a b => a.distance ≤ b.distance := by
  induction l with
  | nil => simp [sortInsert]
  | cons y ys ih =>
    obtain ⟨hy, hys⟩ := List.pairwise_cons.mp h
    unfold sortInsert
    by_cases hc : compareDistance x y ≤ 0
    · rw [if_pos hc]
      have hxy : x.distance ≤ y.distance := by
        simp only [compareDistance] at hc; omega
      refine List.pairwise_cons.mpr ⟨?_, h⟩
      intro z hz
      rcases List.mem_cons.mp hz with rfl | hz
      · exact hxy
      · exact Nat.le_trans hxy (hy z hz)
    · rw [if_neg hc]
      have hyx : y.distance ≤ x.distance := by
        simp only [compareDistance] at hc; omega
      refine List.pairwise_cons.mpr ⟨?_, ih hys⟩
      intro z hz
      rcases (mem_sortInsert _ _ _ _).mp hz with rfl | hz
      · exact hyx
      · exact hy z hz

theorem sort_pairwise (l : List NearbyShop) :
    (sort compareDistance l).Pairwise fun a b => a.distance ≤ b.distance := by
  induction l with
  | nil => simp [sort]
  | cons x xs ih => exact sortInsert_pairwise x _ ih

theorem mapOrThrow_ok_of_forall {α β : Type} (f : α → Except String β) (l : List α)
    (h : ∀ a ∈ l, ∃ b, f a = .ok b) : ∃ bs, mapOrThrow f l = .ok bs := by
  induction l with
  | nil => exact ⟨[], rfl⟩
  | cons a as ih =>
    obtain ⟨b, hb⟩ := h a (List.mem_cons_self _ _)
    obtain ⟨bs, hbs⟩ := ih fun x hx => h x (List.mem_cons_of_mem _ hx)
    exact ⟨b :: bs, by simp only [mapOrThrow, hb, hbs]⟩

/-- C8: whenever `fetchNearbyCoffeeShops` stores a shop list, each entry's distance
is at most the next entry's (and it stores one for every response whose first
five elements carry tags); for two cafés at computed distances 0.8 km and
2.1 km the stored list is the café at 0.8 km followed by the café at 2.1 km,
in either response order. -/
theorem nearby_shops_sorted (calculateDistance : Coord → Coord → Coord → Coord → Nat)
    (lat lon : Coord) (s : LandingPageState) :
    (∀ outcome shops,
      fetchNearbyCoffeeShopsTry calculateDistance lat lon outcome = .ok shops →
        fetchNearbyCoffeeShops calculateDistance lat lon outcome s =
          .ok { s with nearbyShops := shops, loading := false } ∧
        shops.Chain' (fun a b => a.distance ≤ b.distance)) ∧
    (∀ outcome e,
      fetchNearbyCoffeeShopsTry calculateDistance lat lon outcome = .error e →
        fetchNearbyCoffeeShops calculateDistance lat lon outcome s =
          .ok { s with loading := false }) ∧
    (∀ ok elements, (∀ element ∈ elements.take 5, element.tags ≠ none) →
      ∃ shops, fetchNearbyCoffeeShopsTry calculateDistance lat lon
        (.resolved ok (.value (some elements))) = .ok shops) ∧
    (∀ ok (near far : Element) (nearTags farTags : Tags),
      near.tags = some nearTags → far.tags = some farTags →
      calculateDistance lat lon near.lat near.lon = 8 →
      calculateDistance lat lon far.lat far.lon = 21 →
      ∃ nearShop farShop,
        nearbyShopOfElement calculateDistance lat lon near = .ok nearShop ∧
        nearbyShopOfElement calculateDistance lat lon far = .ok farShop ∧
        nearShop.distance = 8 ∧ farShop.distance = 21 ∧
        fetchNearbyCoffeeShops calculateDistance lat lon
            (.resolved ok (.value (some [near, far]))) s =
          .ok { s with nearbyShops := [nearShop, farShop], loading := false } ∧
        fetchNearbyCoffeeShops calculateDistance lat lon
            (.resolved ok (.value (some [far, near]))) s =
          .ok { s with nearbyShops := [nearShop, farShop], loading := false }) := by
  refine ⟨?_, ?_, ?_, ?_⟩
  · intro outcome shops htry
    refine ⟨by simp only [fetchNearbyCoffeeShops, htry], ?_⟩
    have hsorted : ∃ unsorted, shops = sort compareDistance unsorted := by
      unfold fetchNearbyCoffeeShopsTry at htry
      split at htry
      · cases htry
      · split at htry
        · cases htry
        · cases htry
        · split at htry
          · cases htry
          · rename_i unsorted _
            exact ⟨unsorted, by cases htry; rfl⟩
    obtain ⟨unsorted, rfl⟩ := hsorted
    exact (sort_pairwise unsorted).chain'
  · intro outcome e htry
    simp only [fetchNearbyCoffeeShops, htry]
  · intro ok elements htags
    obtain ⟨shops, hshops⟩ := mapOrThrow_ok_of_forall
      (nearbyShopOfElement calculateDistance lat lon) (elements.take 5) (by
        intro element hmem
        have := htags element hmem
        cases htag : element.tags with
        | none => exact absurd htag this
        | some tags => simp only [nearbyShopOfElement, htag]; exact ⟨_, rfl⟩)
    exact ⟨sort compareDistance shops, by simp only [fetchNearbyCoffeeShopsTry, hshops]⟩
  · intro ok near far nearTags farTags hnear hfar hd1 hd2
    simp only [nearbyShopOfElement, hnear, hfar]
    refine ⟨_, _, rfl, rfl, hd1, hd2, ?_, ?_⟩
    · simp [fetchNearbyCoffeeShops, fetchNearbyCoffeeShopsTry, mapOrThrow,
        nearbyShopOfElement, hnear, hfar, sort, sortInsert, compareDistance, hd1, hd2]
    · simp [fetchNearbyCoffeeShops, fetchNearbyCoffeeShopsTry, mapOrThrow,
        nearbyShopOfElement, hnear, hfar, sort, sortInsert, compareDistance, hd1, hd2]

/-- Witness of C8: the user at (40.000, -73.000) and the two cafés of the scenario,
in either response order. -/
theorem nearby_shops_sorted_witness :
    (fetchNearbyCoffeeShops scenarioDistance 40000000 (-73000000)
        (.resolved true (.value (some [farCafe, nearCafe]))) {}).map
          (fun s1 => s1.nearbyShops.map fun shop => (shop.id, shop.name, shop.distance)) =
      .ok [(201, "Near", 8), (202, "Unnamed Cafe", 21)] ∧
    (fetchNearbyCoffeeShops scenarioDistance 40000000 (-73000000)
        (.resolved true (.value (some [nearCafe, farCafe]))) {}).map
          (fun s1 => s1.nearbyShops.map fun shop => (shop.id, shop.name, shop.distance)) =
      .ok [(201, "Near", 8), (202, "Unnamed Cafe", 21)] :=
  match (nearby_shops_sorted scenarioDistance 40000000 (-73000000) {}).2.2.2 true nearCafe
      farCafe _ _ rfl rfl (by decide) (by decide) with
  | ⟨_, _, hnear, hfar, _, _, h1, h2⟩ => by
    cases hnear
    cases hfar
    rw [h1, h2]
    exact ⟨by decide, by decide⟩


/-! ## Failures of the map-data request -/

/-- C9: when the map-data request fails (the network call rejects, the body is
not JSON or has no `elements` array, or, on the map page, the status is not a
success status), the nearby-shop fetch of either page resolves (no failure
reaches the caller), leaves the shop list as it was, hence empty when it was
empty, and clears the loading flag; the map page also sets its error message. -/
theorem fetch_failure_caught (JN : JsonCodec Note) (JP : JsonCodec Photo)
    (calculateDistance : Coord → Coord → Coord → Coord → Nat) (lat lon : Coord)
    (outcome : FetchOutcome) (landing : LandingPageState) (page : MapPageState) :
    (outcome.failed = true →
      ∃ s1, fetchNearbyCoffeeShops calculateDistance lat lon outcome landing = .ok s1 ∧
        s1 = { landing with loading := false } ∧
        s1.nearbyShops = landing.nearbyShops ∧
        (landing.nearbyShops = [] → s1.nearbyShops = []) ∧ s1.loading = false) ∧
    (outcome.failedOnMapPage = true →
      ∃ s1, fetchCoffeeShops JN JP lat lon outcome page = .ok s1 ∧
        s1.coffeeShops = page.coffeeShops ∧
        (page.coffeeShops = [] → s1.coffeeShops = []) ∧ s1.loading = false ∧
        s1.error = some "Error fetching coffee shops" ∧
        s1.localStorage = page.localStorage) := by
  constructor
  · intro hfail
    have htry : ∃ e, fetchNearbyCoffeeShopsTry calculateDistance lat lon outcome = .error e := by
      cases outcome with
      | rejected reason => exact ⟨_, rfl⟩
      | resolved ok body =>
        cases body with
        | notJson => exact ⟨_, rfl⟩
        | value elements =>
          cases elements with
          | none => exact ⟨_, rfl⟩
          | some es => simp [FetchOutcome.failed] at hfail
    obtain ⟨e, he⟩ := htry
    simp only [fetchNearbyCoffeeShops, he]
    exact ⟨_, rfl, rfl, rfl, fun h => h, rfl⟩
  · intro hfail
    have htry : ∃ e, fetchCoffeeShopsTry JN JP page.localStorage outcome = .error e := by
      cases outcome with
      | rejected reason => exact ⟨_, rfl⟩
      | resolved ok body =>
        cases ok with
        | false => exact ⟨_, rfl⟩
        | true =>
          cases body with
          | notJson => exact ⟨_, rfl⟩
          | value elements =>
            cases elements with
            | none => exact ⟨_, rfl⟩
            | some es => simp [FetchOutcome.failedOnMapPage, FetchOutcome.failed] at hfail
    obtain ⟨e, he⟩ := htry
    simp only [fetchCoffeeShops, he]
    exact ⟨_, rfl, rfl, fun h => h, rfl, rfl, rfl⟩

/-- Witness of C9: no connectivity, on both pages in their initial state. -/
theorem fetch_failure_caught_witness :
    (∃ s1, fetchNearbyCoffeeShops scenarioDistance 40000000 (-73000000)
        (.rejected "Failed to fetch") {} = .ok s1 ∧
      s1 = { ({} : LandingPageState) with loading := false } ∧
      s1.nearbyShops = ({} : LandingPageState).nearbyShops ∧
      (({} : LandingPageState).nearbyShops = [] → s1.nearbyShops = []) ∧ s1.loading = false) ∧
    (∃ s1, fetchCoffeeShops noteJson photoJson 40000000 (-73000000)
        (.rejected "Failed to fetch") {} = .ok s1 ∧
      s1.coffeeShops = ({} : MapPageState).coffeeShops ∧
      (({} : MapPageState).coffeeShops = [] → s1.coffeeShops = []) ∧ s1.loading = false ∧
      s1.error = some "Error fetching coffee shops" ∧
      s1.localStorage = ({} : MapPageState).localStorage) :=
  have h := fetch_failure_caught noteJson photoJson scenarioDistance 40000000 (-73000000)
    (.rejected "Failed to fetch") {} {}
  ⟨h.1 rfl, h.2 rfl⟩


/-! ## Key scheme -/

theorem numberToString_injective {a b : Int} (h : numberToString a = numberToString b) :
    a = b := by
  have hminus : ∀ (n m : Nat), Nat.repr n ≠ "-" ++ Nat.repr m := by
    intro n m h
    have hd := congrArg String.data h
    rw [String.data_append] at hd
    have hmem : '-' ∈ (Nat.repr n).data := by rw [hd]; exact List.mem_cons_self _ _
    exact absurd (repr_isDigit n '-' hmem) (by decide)
  cases a with
  | ofNat n =>
    cases b with
    | ofNat m => simp only [numberToString] at h; rw [repr_injective h]
    | negSucc m => exact absurd h (hminus _ _)
  | negSucc n =>
    cases b with
    | ofNat m => exact absurd h.symm (hminus _ _)
    | negSucc m =>
      simp only [numberToString] at h
      have hd := congrArg String.data h
      simp only [String.data_append] at hd
      have hr : Nat.repr (n + 1) = Nat.repr (m + 1) := String.ext (List.append_cancel_left hd)
      have := repr_injective hr
      have hnm : n = m := by omega
      rw [hnm]

theorem notesKey_injective {a b : Int} (h : notesKey a = notesKey b) : a = b := by
  have hd := congrArg String.data h
  simp only [notesKey, String.data_append] at hd
  exact numberToString_injective
    (String.ext (List.append_cancel_left (List.append_cancel_right hd)))

theorem photosKey_injective {a b : Int} (h : photosKey a = photosKey b) : a = b := by
  have hd := congrArg String.data h
  simp only [photosKey, String.data_append] at hd
  exact numberToString_injective
    (String.ext (List.append_cancel_left (List.append_cancel_right hd)))

theorem notesKey_ne_photosKey (a b : Int) : notesKey a ≠ photosKey b := by
  intro h
  have hd := congrArg String.data h
  simp only [notesKey, photosKey, String.data_append, List.append_assoc] at hd
  have hr := congrArg List.reverse (List.append_cancel_left hd)
  simp only [List.reverse_append] at hr
  have h2 := congrArg (fun l => l.get? 1) hr
  revert h2
  simp

/-- C10: the notes key and the photos key of a shop are `shop_<id>_notes` and
`shop_<id>_photos` with the identifier in decimal, two shops share a notes key
or a photos key only when they have the same identifier, and no notes key is a
photos key. -/
theorem key_scheme_separates (a b : Int) :
    notesKey a = "shop_" ++ numberToString a ++ "_notes" ∧
    photosKey a = "shop_" ++ numberToString a ++ "_photos" ∧
    notesKey 12345 = "shop_12345_notes" ∧ photosKey 12345 = "shop_12345_photos" ∧
    (notesKey a = notesKey b ↔ a = b) ∧
    (photosKey a = photosKey b ↔ a = b) ∧
    notesKey a ≠ photosKey b :=
  ⟨rfl, rfl, by decide, by decide,
    ⟨notesKey_injective, fun h => by rw [h]⟩,
    ⟨photosKey_injective, fun h => by rw [h]⟩,
    notesKey_ne_photosKey a b⟩


/-! ## Reading an absent key -/

theorem parse_empty_array {α : Type} (J : JsonCodec α) (hJ : J.Lawful) :
    J.parse "[]" = some [] := by
  obtain ⟨hnil, _, hrt⟩ := hJ
  rw [← hnil]; exact hrt []

theorem readStored_absent {α : Type} (J : JsonCodec α) (hJ : J.Lawful) (ls : Storage)
    (key : String) (h : ls.getItem key = none) : readStored J ls key = some [] := by
  simp only [readStored, h, orDefault, parse_empty_array J hJ]

/-- C11: when the notes key (respectively the photos key) of a shop is absent
from local storage, reading the shop's notes (respectively photos) gives the
empty sequence and raises no error, both in the effect that loads the selected
shop and in the shop record `fetchCoffeeShops` builds. -/
theorem absent_key_reads_empty (JN : JsonCodec Note) (JP : JsonCodec Photo)
    (hJN : JN.Lawful) (hJP : JP.Lawful) (ls : Storage) (id : Int) :
    (ls.getItem (notesKey id) = none → readStored JN ls (notesKey id) = some []) ∧
    (ls.getItem (photosKey id) = none → readStored JP ls (photosKey id) = some []) ∧
    (∀ (s : MapPageState) (shop : ShopRecord),
      s.localStorage = ls → s.selectedShop = some shop → shop.id = id →
      (ls.getItem (notesKey id) = none → ∀ photos,
        readStored JP ls (photosKey id) = some photos →
        loadSelectedShop JN JP s = .ok { s with photos := photos, notes := [] }) ∧
      (ls.getItem (photosKey id) = none → ∀ notes,
        readStored JN ls (notesKey id) = some notes →
        loadSelectedShop JN JP s = .ok { s with photos := [], notes := notes }) ∧
      (ls.getItem (notesKey id) = none → ls.getItem (photosKey id) = none →
        loadSelectedShop JN JP s = .ok { s with photos := [], notes := [] })) ∧
    (∀ (element : Element) (tags : Tags), element.id = id → element.tags = some tags →
      (ls.getItem (notesKey id) = none → ∀ photos,
        readStored JP ls (photosKey id) = some photos →
        ∃ shop, shopOfElement JN JP ls element = .ok shop ∧ shop.notes = [] ∧
          shop.photos = photos) ∧
      (ls.getItem (photosKey id) = none → ∀ notes,
        readStored JN ls (notesKey id) = some notes →
        ∃ shop, shopOfElement JN JP ls element = .ok shop ∧ shop.notes = notes ∧
          shop.photos = []) ∧
      (ls.getItem (notesKey id) = none → ls.getItem (photosKey id) = none →
        ∃ shop, shopOfElement JN JP ls element = .ok shop ∧ shop.notes = [] ∧
          shop.photos = [])) := by
  have hn := readStored_absent JN hJN ls (notesKey id)
  have hp := readStored_absent JP hJP ls (photosKey id)
  refine ⟨hn, hp, ?_, ?_⟩
  · intro s shop hls hsel hid
    subst hls hid
    refine ⟨fun h photos hphotos => ?_, fun h notes hnotes => ?_, fun h1 h2 => ?_⟩
    · simp only [loadSelectedShop, hsel, hphotos, hn h]
    · simp only [loadSelectedShop, hsel, hnotes, hp h]
    · simp only [loadSelectedShop, hsel, hn h1, hp h2]
  · intro element tags hid htags
    subst hid
    refine ⟨fun h photos hphotos => ?_, fun h notes hnotes => ?_, fun h1 h2 => ?_⟩
    · simp only [shopOfElement, htags, hphotos, hn h]
      exact ⟨_, rfl, rfl, rfl⟩
    · simp only [shopOfElement, htags, hnotes, hp h]
      exact ⟨_, rfl, rfl, rfl⟩
    · simp only [shopOfElement, htags, hn h1, hp h2]
      exact ⟨_, rfl, rfl, rfl⟩

/-- Witness of C11: the shop 12345 with nothing stored, selected and as an element
of a map-data response. -/
theorem absent_key_reads_empty_witness :
    loadSelectedShop noteJson photoJson (exampleSelected "") =
      .ok { exampleSelected "" with photos := [], notes := [] } ∧
    ∃ shop, shopOfElement noteJson photoJson (fun _ => none)
        { id := 12345, lat := 40005000, lon := -73004000, tags := some [] } = .ok shop ∧
      shop.notes = [] ∧ shop.photos = [] :=
  have h := absent_key_reads_empty noteJson photoJson noteJson_lawful photoJson_lawful
    (fun _ => none) 12345
  ⟨(h.2.2.1 (exampleSelected "") exampleShop rfl rfl rfl).2.2 rfl rfl,
    (h.2.2.2 { id := 12345, lat := 40005000, lon := -73004000, tags := some [] } [] rfl
      rfl).2.2 rfl rfl⟩


/-! ## Camera helpers -/

theorem setStream_stream (value : Option MediaStream) (s : MapPageState) :
    (setStream value s).stream = value := by
  unfold setStream
  split
  · assumption
  · split <;> rfl

theorem setStream_fields (value : Option MediaStream) (s : MapPageState) :
    (setStream value s).localStorage = s.localStorage ∧
    (setStream value s).notes = s.notes ∧
    (setStream value s).photos = s.photos ∧
    (setStream value s).selectedShop = s.selectedShop ∧
    (setStream value s).editingPhotoId = s.editingPhotoId ∧
    (setStream value s).showCamera = s.showCamera ∧
    (setStream value s).videoMounted = s.videoMounted ∧
    (setStream value s).coffeeShops = s.coffeeShops := by
  unfold setStream
  split
  · exact ⟨rfl, rfl, rfl, rfl, rfl, rfl, rfl, rfl⟩
  · split <;> exact ⟨rfl, rfl, rfl, rfl, rfl, rfl, rfl, rfl⟩

theorem setStream_stopped_mono (value : Option MediaStream) (s : MapPageState) (t : Nat)
    (h : t ∈ s.stoppedTracks) : t ∈ (setStream value s).stoppedTracks := by
  unfold setStream
  split
  · exact h
  · split
    · exact List.mem_append_left _ h
    · exact h

theorem setStream_stops_previous (value : Option MediaStream) (s : MapPageState)
    (previous : MediaStream) (hheld : s.stream = some previous) (hne : value ≠ some previous) :
    ∀ t ∈ previous.tracks, t ∈ (setStream value s).stoppedTracks := by
  intro t ht
  unfold setStream
  rw [if_neg (fun h => hne (by rw [← h, hheld])), hheld]
  exact List.mem_append_right _ ht

/-- The state after the stream `stream` was released: tracks stopped, `setStream(null)`,
`setShowCamera(false)`. -/
theorem released_fields (stream : MediaStream) (s : MapPageState) :
    (setShowCamera false (setStream none (stopTracks stream s))).localStorage =
      s.localStorage ∧
    (setShowCamera false (setStream none (stopTracks stream s))).notes = s.notes ∧
    (setShowCamera false (setStream none (stopTracks stream s))).photos = s.photos ∧
    (setShowCamera false (setStream none (stopTracks stream s))).selectedShop =
      s.selectedShop ∧
    (setShowCamera false (setStream none (stopTracks stream s))).editingPhotoId =
      s.editingPhotoId ∧
    (setShowCamera false (setStream none (stopTracks stream s))).coffeeShops =
      s.coffeeShops ∧
    (setShowCamera false (setStream none (stopTracks stream s))).stream = none ∧
    (setShowCamera false (setStream none (stopTracks stream s))).showCamera = false ∧
    (setShowCamera false (setStream none (stopTracks stream s))).videoMounted = false ∧
    ∀ t ∈ stream.tracks,
      t ∈ (setShowCamera false (setStream none (stopTracks stream s))).stoppedTracks := by
  obtain ⟨h1, h2, h3, h4, h5, _, _, h8⟩ := setStream_fields none (stopTracks stream s)
  refine ⟨h1, h2, h3, h4, h5, h8, setStream_stream _ _, rfl, rfl, ?_⟩
  intro t ht
  exact setStream_stopped_mono none (stopTracks stream s) t (List.mem_append_right _ ht)

theorem setStream_quota (value : Option MediaStream) (s : MapPageState) :
    (setStream value s).quota = s.quota := by
  unfold setStream
  split
  · rfl
  · split <;> rfl

theorem released_quota (stream : MediaStream) (s : MapPageState) :
    (setShowCamera false (setStream none (stopTracks stream s))).quota = s.quota :=
  setStream_quota none (stopTracks stream s)

theorem startCamera_ok_fields (media : MediaStream) (s : MapPageState) :
    (startCamera (.ok media) s).stream = some media ∧
    (startCamera (.ok media) s).videoMounted = true ∧
    (startCamera (.ok media) s).showCamera = true ∧
    (startCamera (.ok media) s).photos = s.photos ∧
    (startCamera (.ok media) s).notes = s.notes ∧
    (startCamera (.ok media) s).selectedShop = s.selectedShop ∧
    (startCamera (.ok media) s).editingPhotoId = s.editingPhotoId ∧
    (startCamera (.ok media) s).localStorage = s.localStorage ∧
    (startCamera (.ok media) s).coffeeShops = s.coffeeShops := by
  obtain ⟨h1, h2, h3, h4, h5, _, _, h8⟩ := setStream_fields (some media) s
  exact ⟨setStream_stream _ _, rfl, rfl, h3, h2, h4, h5, h1, h8⟩

theorem updatePhoto_ok_fields (photoId : Nat) (media : MediaStream) (s : MapPageState) :
    (updatePhoto photoId (.ok media) s).stream = some media ∧
    (updatePhoto photoId (.ok media) s).videoMounted = true ∧
    (updatePhoto photoId (.ok media) s).showCamera = true ∧
    (updatePhoto photoId (.ok media) s).photos = s.photos ∧
    (updatePhoto photoId (.ok media) s).notes = s.notes ∧
    (updatePhoto photoId (.ok media) s).selectedShop = s.selectedShop ∧
    (updatePhoto photoId (.ok media) s).editingPhotoId = some photoId ∧
    (updatePhoto photoId (.ok media) s).localStorage = s.localStorage ∧
    (updatePhoto photoId (.ok media) s).coffeeShops = s.coffeeShops := by
  obtain ⟨h1, h2, h3, h4, _, _, _, h8⟩ := setStream_fields (some media) s
  exact ⟨setStream_stream _ _, rfl, rfl, h3, h2, h4, rfl, h1, h8⟩

theorem startCamera_quota (media : Except String MediaStream) (s : MapPageState) :
    (startCamera media s).quota = s.quota := by
  cases media with
  | error e => rfl
  | ok stream => exact setStream_quota (some stream) s

theorem updatePhoto_quota (photoId : Nat) (media : Except String MediaStream)
    (s : MapPageState) : (updatePhoto photoId media s).quota = s.quota := by
  cases media with
  | error e => rfl
  | ok stream => exact setStream_quota (some stream) s

theorem takePicture_taken (J : JsonCodec Photo) (now : Nat) (iso imageUrl : String)
    (shop : ShopRecord) (stream : MediaStream) (s : MapPageState)
    (hvideo : s.videoMounted = true) (hstream : s.stream = some stream)
    (hsel : s.selectedShop = some shop) :
    (takePicture J now iso imageUrl s).photos =
      (if truthy s.editingPhotoId then
        s.photos.map fun photo =>
          if some photo.id = s.editingPhotoId then
            { photo with url := imageUrl, edited := some iso }
          else photo
      else s.photos ++ [{ id := now, url := imageUrl, date := iso }]) ∧
    (takePicture J now iso imageUrl s).selectedShop = some shop ∧
    (takePicture J now iso imageUrl s).editingPhotoId =
      (if truthy s.editingPhotoId then none else s.editingPhotoId) ∧
    (takePicture J now iso imageUrl s).quota = s.quota := by
  obtain ⟨_, _, _, h4, h5, _⟩ := released_fields stream s
  have h6 := released_quota stream s
  simp only [takePicture, hvideo, hstream, hsel, Bool.not_true, Bool.false_eq_true, if_false]
  by_cases ht : truthy s.editingPhotoId = true
  · simp only [ht, if_true]
    split
    · exact ⟨rfl, h4.trans hsel, rfl, h6⟩
    · exact ⟨rfl, h4.trans hsel, rfl, h6⟩
  · simp only [ht, if_false, Bool.false_eq_true]
    split
    · exact ⟨rfl, h4.trans hsel, h5, h6⟩
    · exact ⟨rfl, h4.trans hsel, h5, h6⟩

theorem takePicture_frame (J : JsonCodec Photo) (now : Nat) (iso imageUrl : String)
    (s : MapPageState) :
    (takePicture J now iso imageUrl s).coffeeShops = s.coffeeShops ∧
    (takePicture J now iso imageUrl s).selectedShop = s.selectedShop ∧
    (takePicture J now iso imageUrl s).quota = s.quota ∧
    (takePicture J now iso imageUrl s).notes = s.notes := by
  unfold takePicture
  cases hv : s.videoMounted with
  | false => exact ⟨rfl, rfl, rfl, rfl⟩
  | true =>
    cases hst : s.stream with
    | none => exact ⟨rfl, rfl, rfl, rfl⟩
    | some stream =>
      obtain ⟨_, h2, _, h4, _, h6, _⟩ := released_fields stream s
      have hq := released_quota stream s
      simp only [Bool.not_true, Bool.false_eq_true, if_false]
      cases hsel : s.selectedShop with
      | none => exact ⟨h6, h4.trans hsel, hq, h2⟩
      | some shop =>
        simp only []
        split
        · split
          · exact ⟨h6, h4.trans hsel, hq, h2⟩
          · exact ⟨h6, h4.trans hsel, hq, h2⟩
        · split
          · exact ⟨h6, h4.trans hsel, hq, h2⟩
          · exact ⟨h6, h4.trans hsel, hq, h2⟩

/-! ## One key per mutation -/

theorem onlyKeyWritten_insert (ls : Storage) (key value : String) :
    OnlyKeyWritten ls (ls.insert key value) key := by
  intro k hk
  simp only [Storage.insert, if_neg hk]

theorem onlyKeyWritten_refl (ls : Storage) (key : String) : OnlyKeyWritten ls ls key :=
  fun _ _ => rfl

theorem noteOp_run_storage (J : JsonCodec Note) (shop : ShopRecord) (op : NoteOp)
    (s : MapPageState) (hsel : s.selectedShop = some shop) :
    (s.quota s.localStorage (notesKey shop.id) (J.stringify (op.run J s).state.notes) = true →
      (op.run J s).state.localStorage =
        s.localStorage.insert (notesKey shop.id) (J.stringify (op.run J s).state.notes)) ∧
    (s.quota s.localStorage (notesKey shop.id) (J.stringify (op.run J s).state.notes) = false →
      (op.run J s).state.localStorage = s.localStorage) ∧
    (op.run J s).state.photos = s.photos := by
  cases op with
  | add now iso text =>
    simp only [NoteOp.run, addNote_run J shop now iso text s hsel]
    split
    · next h => exact ⟨fun _ => rfl, fun h1 => absurd (h.symm.trans h1) (by decide), rfl⟩
    · next h => exact ⟨fun h1 => absurd h1 h, fun _ => rfl, rfl⟩
  | update iso noteId newText =>
    simp only [NoteOp.run, updateNote_run J shop iso noteId newText s hsel]
    split
    · next h => exact ⟨fun _ => rfl, fun h1 => absurd (h.symm.trans h1) (by decide), rfl⟩
    · next h => exact ⟨fun h1 => absurd h1 h, fun _ => rfl, rfl⟩
  | delete noteId =>
    simp only [NoteOp.run, deleteNote_run J shop noteId s hsel]
    split
    · next h => exact ⟨fun _ => rfl, fun h1 => absurd (h.symm.trans h1) (by decide), rfl⟩
    · next h => exact ⟨fun h1 => absurd h1 h, fun _ => rfl, rfl⟩

theorem deletePhoto_storage (J : JsonCodec Photo) (shop : ShopRecord) (photoId : Nat)
    (s : MapPageState) (hsel : s.selectedShop = some shop) :
    (s.quota s.localStorage (photosKey shop.id)
        (J.stringify (deletePhoto J photoId s).state.photos) = true →
      (deletePhoto J photoId s).state.localStorage =
        s.localStorage.insert (photosKey shop.id)
          (J.stringify (deletePhoto J photoId s).state.photos)) ∧
    (s.quota s.localStorage (photosKey shop.id)
        (J.stringify (deletePhoto J photoId s).state.photos) = false →
      (deletePhoto J photoId s).state.localStorage = s.localStorage) := by
  rw [deletePhoto_run J shop photoId s hsel]
  split
  · next h => exact ⟨fun _ => rfl, fun h1 => absurd (h.symm.trans h1) (by decide)⟩
  · next h => exact ⟨fun h1 => absurd h1 h, fun _ => rfl⟩

theorem takePicture_storage (J : JsonCodec Photo) (now : Nat) (iso imageUrl : String)
    (shop : ShopRecord) (s : MapPageState) (hsel : s.selectedShop = some shop) :
    ((takePicture J now iso imageUrl s).localStorage = s.localStorage ∧
        (takePicture J now iso imageUrl s).photos = s.photos ∧
        (s.videoMounted = false ∨ s.stream = none) ∨
      (takePicture J now iso imageUrl s).localStorage = s.localStorage ∧
        s.quota s.localStorage (photosKey shop.id)
          (J.stringify (takePicture J now iso imageUrl s).photos) = false ∧
        s.videoMounted = true ∧ s.stream ≠ none ∨
      (takePicture J now iso imageUrl s).localStorage =
        s.localStorage.insert (photosKey shop.id)
          (J.stringify (takePicture J now iso imageUrl s).photos) ∧
        s.quota s.localStorage (photosKey shop.id)
          (J.stringify (takePicture J now iso imageUrl s).photos) = true ∧
        s.videoMounted = true ∧ s.stream ≠ none) ∧
    (takePicture J now iso imageUrl s).notes = s.notes := by
  unfold takePicture
  cases hv : s.videoMounted with
  | false => exact ⟨Or.inl ⟨rfl, rfl, Or.inl rfl⟩, rfl⟩
  | true =>
    cases hst : s.stream with
    | none => exact ⟨Or.inl ⟨rfl, rfl, Or.inr rfl⟩, rfl⟩
    | some stream =>
      simp only [Bool.not_true, Bool.false_eq_true, if_false, hsel]
      obtain ⟨hls, hnotes, _⟩ := released_fields stream s
      rw [hls]
      by_cases ht : truthy s.editingPhotoId = true
      · simp only [ht, if_true, Storage.setItem]
        cases h : s.quota s.localStorage (photosKey shop.id)
            (J.stringify (s.photos.map fun photo =>
              if some photo.id = s.editingPhotoId then
                { photo with url := imageUrl, edited := some iso }
              else photo))
        · simp only [Bool.false_eq_true, if_false]
          exact ⟨Or.inr (Or.inl ⟨trivial, h, trivial, by simp⟩), hnotes⟩
        · simp only [if_true]
          exact ⟨Or.inr (Or.inr ⟨trivial, h, trivial, by simp⟩), hnotes⟩
      · simp only [ht, if_false, Bool.false_eq_true, Storage.setItem]
        cases h : s.quota s.localStorage (photosKey shop.id)
            (J.stringify (s.photos ++ [{ id := now, url := imageUrl, date := iso }]))
        · simp only [Bool.false_eq_true, if_false]
          exact ⟨Or.inr (Or.inl ⟨trivial, h, trivial, by simp⟩), hnotes⟩
        · simp only [if_true]
          exact ⟨Or.inr (Or.inr ⟨trivial, h, trivial, by simp⟩), hnotes⟩

/-- C12, as amended: with a shop selected, `addNote`, `updateNote` and
`deleteNote` write, when the store has room for the write, the whole resulting
note sequence under the shop's notes key, and change no other key;
`deletePhoto` and `takePicture` write, when the store has room, the whole
resulting photo sequence under its photos key, and change no other key. When
the store has no room the write throws and no key changes. So a note operation
changes no photo collection, a photo operation changes no note collection, and
no operation changes a key of another shop. -/
theorem writes_one_key (JN : JsonCodec Note) (JP : JsonCodec Photo) (shop : ShopRecord)
    (s : MapPageState) (hsel : s.selectedShop = some shop) :
    (∀ op : NoteOp,
      (s.quota s.localStorage (notesKey shop.id)
          (JN.stringify (op.run JN s).state.notes) = true →
        (op.run JN s).state.localStorage =
          s.localStorage.insert (notesKey shop.id) (JN.stringify (op.run JN s).state.notes)) ∧
      (s.quota s.localStorage (notesKey shop.id)
          (JN.stringify (op.run JN s).state.notes) = false →
        (op.run JN s).state.localStorage = s.localStorage) ∧
      OnlyKeyWritten s.localStorage (op.run JN s).state.localStorage (notesKey shop.id) ∧
      (op.run JN s).state.photos = s.photos ∧
      (∀ other, (op.run JN s).state.localStorage (photosKey other) =
        s.localStorage (photosKey other)) ∧
      (∀ other, other ≠ shop.id →
        (op.run JN s).state.localStorage (notesKey other) =
          s.localStorage (notesKey other))) ∧
    (∀ photoId,
      (s.quota s.localStorage (photosKey shop.id)
          (JP.stringify (deletePhoto JP photoId s).state.photos) = true →
        (deletePhoto JP photoId s).state.localStorage =
          s.localStorage.insert (photosKey shop.id)
            (JP.stringify (deletePhoto JP photoId s).state.photos)) ∧
      (s.quota s.localStorage (photosKey shop.id)
          (JP.stringify (deletePhoto JP photoId s).state.photos) = false →
        (deletePhoto JP photoId s).state.localStorage = s.localStorage) ∧
      OnlyKeyWritten s.localStorage (deletePhoto JP photoId s).state.localStorage
        (photosKey shop.id) ∧
      (deletePhoto JP photoId s).state.notes = s.notes ∧
      (∀ other, (deletePhoto JP photoId s).state.localStorage (notesKey other) =
        s.localStorage (notesKey other)) ∧
      (∀ other, other ≠ shop.id →
        (deletePhoto JP photoId s).state.localStorage (photosKey other) =
          s.localStorage (photosKey other))) ∧
    (∀ now iso imageUrl,
      (s.videoMounted = true → s.stream ≠ none →
        s.quota s.localStorage (photosKey shop.id)
          (JP.stringify (takePicture JP now iso imageUrl s).photos) = true →
        (takePicture JP now iso imageUrl s).localStorage =
          s.localStorage.insert (photosKey shop.id)
            (JP.stringify (takePicture JP now iso imageUrl s).photos)) ∧
      (s.quota s.localStorage (photosKey shop.id)
          (JP.stringify (takePicture JP now iso imageUrl s).photos) = false →
        (takePicture JP now iso imageUrl s).localStorage = s.localStorage) ∧
      OnlyKeyWritten s.localStorage (takePicture JP now iso imageUrl s).localStorage
        (photosKey shop.id) ∧
      (takePicture JP now iso imageUrl s).notes = s.notes ∧
      (∀ other, (takePicture JP now iso imageUrl s).localStorage (notesKey other) =
        s.localStorage (notesKey other)) ∧
      (∀ other, other ≠ shop.id →
        (takePicture JP now iso imageUrl s).localStorage (photosKey other) =
          s.localStorage (photosKey other))) := by
  have hphotoKey : ∀ other, photosKey other ≠ notesKey shop.id :=
    fun other h => notesKey_ne_photosKey shop.id other h.symm
  have hnoteKey : ∀ other, notesKey other ≠ photosKey shop.id :=
    fun other h => notesKey_ne_photosKey other shop.id h
  have hotherNote : ∀ other, other ≠ shop.id → notesKey other ≠ notesKey shop.id :=
    fun other hne h => hne (notesKey_injective h)
  have hotherPhoto : ∀ other, other ≠ shop.id → photosKey other ≠ photosKey shop.id :=
    fun other hne h => hne (photosKey_injective h)
  refine ⟨?_, ?_, ?_⟩
  · intro op
    obtain ⟨hroom, hfull, hphotos⟩ := noteOp_run_storage JN shop op s hsel
    have hframe : OnlyKeyWritten s.localStorage (op.run JN s).state.localStorage
        (notesKey shop.id) := by
      cases h : s.quota s.localStorage (notesKey shop.id)
          (JN.stringify (op.run JN s).state.notes)
      · rw [hfull h]; exact onlyKeyWritten_refl _ _
      · rw [hroom h]; exact onlyKeyWritten_insert _ _ _
    exact ⟨hroom, hfull, hframe, hphotos, fun other => hframe _ (hphotoKey other),
      fun other hne => hframe _ (hotherNote other hne)⟩
  · intro photoId
    obtain ⟨hroom, hfull⟩ := deletePhoto_storage JP shop photoId s hsel
    have hframe : OnlyKeyWritten s.localStorage (deletePhoto JP photoId s).state.localStorage
        (photosKey shop.id) := by
      cases h : s.quota s.localStorage (photosKey shop.id)
          (JP.stringify (deletePhoto JP photoId s).state.photos)
      · rw [hfull h]; exact onlyKeyWritten_refl _ _
      · rw [hroom h]; exact onlyKeyWritten_insert _ _ _
    exact ⟨hroom, hfull, hframe, (deletePhoto_state JP photoId s).2.1,
      fun other => hframe _ (hnoteKey other),
      fun other hne => hframe _ (hotherPhoto other hne)⟩
  · intro now iso imageUrl
    obtain ⟨hcases, hnotes⟩ := takePicture_storage JP now iso imageUrl shop s hsel
    have hframe : OnlyKeyWritten s.localStorage
        (takePicture JP now iso imageUrl s).localStorage (photosKey shop.id) := by
      rcases hcases with ⟨h, _, _⟩ | ⟨h, _, _⟩ | ⟨h, _, _⟩
      · rw [h]; exact onlyKeyWritten_refl _ _
      · rw [h]; exact onlyKeyWritten_refl _ _
      · rw [h]; exact onlyKeyWritten_insert _ _ _
    refine ⟨fun hv hst hroom => ?_, fun hfull => ?_, hframe, hnotes,
      fun other => hframe _ (hnoteKey other), fun other hne => hframe _ (hotherPhoto other hne)⟩
    · rcases hcases with ⟨_, _, h | h⟩ | ⟨_, h, _, _⟩ | ⟨h, _, _⟩
      · rw [hv] at h; cases h
      · exact absurd h hst
      · rw [hroom] at h; cases h
      · exact h
    · rcases hcases with ⟨h, _, _⟩ | ⟨h, _, _⟩ | ⟨_, h, _, _⟩
      · exact h
      · exact h
      · rw [hfull] at h; cases h

/-- Witness of C12 as amended: adding a note and taking a picture for the shop
12345 on a store with room. -/
theorem writes_one_key_witness :
    ((NoteOp.add 1700000001000 "2023-11-14T22:13:21.000Z" "Quiet").run noteJson
        exampleCapturing).state.localStorage =
      exampleCapturing.localStorage.insert "shop_12345_notes"
        (noteJson.stringify ((NoteOp.add 1700000001000 "2023-11-14T22:13:21.000Z" "Quiet").run
          noteJson exampleCapturing).state.notes) ∧
    ((NoteOp.add 1700000001000 "2023-11-14T22:13:21.000Z" "Quiet").run noteJson
        exampleCapturing).state.photos = examplePhotos ∧
    (takePicture photoJson 1700000001000 "2023-11-14T22:13:21.000Z"
        "data:image/jpeg;base64,DDDD" exampleCapturing).localStorage =
      exampleCapturing.localStorage.insert "shop_12345_photos"
        (photoJson.stringify (takePicture photoJson 1700000001000 "2023-11-14T22:13:21.000Z"
          "data:image/jpeg;base64,DDDD" exampleCapturing).photos) ∧
    (takePicture photoJson 1700000001000 "2023-11-14T22:13:21.000Z"
        "data:image/jpeg;base64,DDDD" exampleCapturing).notes = exampleNotes := by
  have h := writes_one_key noteJson photoJson exampleShop exampleCapturing rfl
  obtain ⟨hwrite, _, _, hphotos, _⟩ :=
    h.1 (.add 1700000001000 "2023-11-14T22:13:21.000Z" "Quiet")
  obtain ⟨hpicture, _, _, hnotes, _⟩ := h.2.2 1700000001000 "2023-11-14T22:13:21.000Z"
    "data:image/jpeg;base64,DDDD"
  exact ⟨hwrite rfl, hphotos, hpicture rfl (by decide) rfl, hnotes⟩

/-- Counterexample to C12 as stated: the shop 12345 is selected and the photos of
another shop fill the store to its limit. `takePicture` puts the new photo
into the collection in memory and then `localStorage.setItem` throws: the
resulting sequence is written under no key, the photos key of the shop is
still absent. -/
theorem picture_on_full_store_not_written :
    (startCamera (.ok { tracks := [1] }) (exampleFull "")).selectedShop = some exampleShop ∧
    ((takePicture photoJson 1700000001000 "2023-11-14T22:13:21.000Z"
        "data:image/jpeg;base64,DDDD"
        (startCamera (.ok { tracks := [1] }) (exampleFull ""))).photos.map
          fun photo => (photo.id, photo.url)) =
      [(1700000001000, "data:image/jpeg;base64,DDDD")] ∧
    (takePicture photoJson 1700000001000 "2023-11-14T22:13:21.000Z"
        "data:image/jpeg;base64,DDDD"
        (startCamera (.ok { tracks := [1] }) (exampleFull ""))).localStorage.getItem
      (photosKey 12345) = none ∧
    (∀ key, (takePicture photoJson 1700000001000 "2023-11-14T22:13:21.000Z"
        "data:image/jpeg;base64,DDDD"
        (startCamera (.ok { tracks := [1] }) (exampleFull ""))).localStorage key =
      (exampleFull "").localStorage key) := by
  refine ⟨rfl, by decide, by decide, fun key => rfl⟩

/-! ## Editing in place -/

/-- C13: `updateNote` yields a collection of the same length in which every
position keeps its identifier and creation timestamp, every entry with another
identifier is unchanged and every entry with the given identifier has the new
text and an edit timestamp; `takePicture` in edit mode (the edit target is
truthy: a non-zero identifier) does the same to the photo collection, with the
new image payload. These are the collections the handlers leave, whether or
not the write to local storage finds room; with room for the write `updateNote`
runs to its end. -/
theorem edit_in_place (JN : JsonCodec Note) (JP : JsonCodec Photo) (shop : ShopRecord)
    (s : MapPageState) (hsel : s.selectedShop = some shop) :
    (∀ iso noteId newText,
      (updateNote JN iso noteId newText s).state.notes.length = s.notes.length ∧
      (∀ (i : Nat) (old : Note), s.notes[i]? = some old →
        ∃ new : Note, (updateNote JN iso noteId newText s).state.notes[i]? = some new ∧
          new.id = old.id ∧ new.date = old.date ∧
          (old.id ≠ noteId → new = old) ∧
          (old.id = noteId → new.text = newText ∧ new.edited = some iso)) ∧
      (s.quota s.localStorage (notesKey shop.id)
          (JN.stringify (updateNote JN iso noteId newText s).state.notes) = true →
        ∃ s1, updateNote JN iso noteId newText s = .ok s1)) ∧
    (∀ photoId stream now iso imageUrl,
      s.editingPhotoId = some photoId → photoId ≠ 0 → s.videoMounted = true →
      s.stream = some stream →
      (takePicture JP now iso imageUrl s).photos.length = s.photos.length ∧
      ∀ (i : Nat) (old : Photo), s.photos[i]? = some old →
        ∃ new : Photo, (takePicture JP now iso imageUrl s).photos[i]? = some new ∧
          new.id = old.id ∧ new.date = old.date ∧
          (old.id ≠ photoId → new = old) ∧
          (old.id = photoId → new.url = imageUrl ∧ new.edited = some iso)) := by
  constructor
  · intro iso noteId newText
    rw [(updateNote_state JN iso noteId newText s).1]
    refine ⟨by simp, ?_, fun hroom => ?_⟩
    · intro i old hold
      simp only [List.getElem?_map, hold, Option.map_some']
      by_cases hid : old.id = noteId
      · rw [if_pos hid]
        exact ⟨_, rfl, rfl, rfl, fun h => absurd hid h, fun _ => ⟨rfl, rfl⟩⟩
      · rw [if_neg hid]
        exact ⟨_, rfl, rfl, rfl, fun _ => rfl, fun h => absurd h hid⟩
    · rw [updateNote_run JN shop iso noteId newText s hsel, if_pos hroom]
      exact ⟨_, rfl⟩
  · intro photoId stream now iso imageUrl hedit hne hv hst
    have htruthy : truthy s.editingPhotoId = true := by
      rw [hedit]; simpa [truthy] using hne
    have hphotos : (takePicture JP now iso imageUrl s).photos =
        s.photos.map fun photo =>
          if some photo.id = s.editingPhotoId then
            { photo with url := imageUrl, edited := some iso }
          else photo := by
      rw [(takePicture_taken JP now iso imageUrl shop stream s hv hst hsel).1, if_pos htruthy]
    rw [hphotos]
    refine ⟨by simp, ?_⟩
    intro i old hold
    simp only [List.getElem?_map, hold, Option.map_some', hedit, Option.some.injEq]
    by_cases hid : old.id = photoId
    · rw [if_pos hid]
      exact ⟨_, rfl, rfl, rfl, fun h => absurd hid h, fun _ => ⟨rfl, rfl⟩⟩
    · rw [if_neg hid]
      exact ⟨_, rfl, rfl, rfl, fun _ => rfl, fun h => absurd h hid⟩

/-- Witness of C13: editing the note created at 1700000000500 and retaking the
photo created at 1700000000500. -/
theorem edit_in_place_witness :
    (∃ s1, updateNote noteJson "2023-11-14T22:20:00.000Z" 1700000000500 "Closes at five"
        { exampleCapturing with editingPhotoId := some 1700000000500 } = .ok s1) ∧
    (updateNote noteJson "2023-11-14T22:20:00.000Z" 1700000000500 "Closes at five"
        { exampleCapturing with editingPhotoId := some 1700000000500 }).state.notes =
      [ { id := 1700000000000, text := "Great espresso", date := "2023-11-14T22:13:20.000Z" },
        { id := 1700000000000, text := "Friendly staff", date := "2023-11-14T22:13:20.000Z" },
        { id := 1700000000500, text := "Closes at five", date := "2023-11-14T22:13:20.500Z",
          edited := some "2023-11-14T22:20:00.000Z" } ] ∧
    (takePicture photoJson 1700000001000 "2023-11-14T22:20:00.000Z"
        "data:image/jpeg;base64,DDDD"
        { exampleCapturing with editingPhotoId := some 1700000000500 }).photos.length = 3 ∧
    (takePicture photoJson 1700000001000 "2023-11-14T22:20:00.000Z"
        "data:image/jpeg;base64,DDDD"
        { exampleCapturing with editingPhotoId := some 1700000000500 }).photos[2]? =
      some { id := 1700000000500, url := "data:image/jpeg;base64,DDDD",
             date := "2023-11-14T22:13:20.500Z", edited := some "2023-11-14T22:20:00.000Z" } := by
  have h := edit_in_place noteJson photoJson exampleShop
    { exampleCapturing with editingPhotoId := some 1700000000500 } rfl
  obtain ⟨_, _, hrun⟩ := h.1 "2023-11-14T22:20:00.000Z" 1700000000500 "Closes at five"
  have hp := h.2 1700000000500 { tracks := [1, 2] } 1700000001000 "2023-11-14T22:20:00.000Z"
    "data:image/jpeg;base64,DDDD" rfl (by decide) rfl rfl
  refine ⟨hrun rfl, by decide, hp.1, by decide⟩


/-! ## Service worker: the `install` listener -/

theorem onActivate_eq (cacheName : String) (caches : CacheStorage) :
    onActivate cacheName caches =
      (caches.filter (fun named => named.1 = cacheName),
        (caches.keys.filter (fun name => name ≠ cacheName)).map Effect.cachesDelete) := by
  unfold onActivate
  simp only []
  rw [activate_fold]
  congr 1
  apply List.filter_congr
  intro named hmem
  have : named.1 ∈ caches.keys := List.mem_map.mpr ⟨named, hmem, rfl⟩
  simp [this]

theorem keys_put (caches : CacheStorage) (name : String) (request : Request)
    (response : Response) : (caches.put name request response).keys = caches.keys := by
  unfold CacheStorage.put
  split
  · simp only [CacheStorage.keys, List.map_map]
    apply List.map_congr_left
    intro named _
    by_cases h : named.1 = name <;> simp [h]
  · rfl

theorem keys_foldl_put (name : String) (entries : List (Request × Response)) :
    ∀ caches : CacheStorage,
      (entries.foldl (fun acc entry => acc.put name entry.1 entry.2) caches).keys =
        caches.keys := by
  induction entries with
  | nil => intro caches; rfl
  | cons e es ih => intro caches; rw [List.foldl_cons, ih, keys_put]

theorem keys_opened (caches : CacheStorage) (name : String) :
    name ∈ (caches.opened name).keys ∧
      (caches.keys.Nodup → (caches.opened name).keys.Nodup) := by
  unfold CacheStorage.opened
  by_cases h : caches.keys.contains name = true
  · rw [if_pos h]
    exact ⟨by simpa using h, fun hn => hn⟩
  · rw [if_neg h]
    have hnot : name ∉ caches.keys := by simpa using h
    refine ⟨by simp [CacheStorage.keys], fun hn => ?_⟩
    simp only [CacheStorage.keys, List.map_append, List.map_cons, List.map_nil]
    exact List.Nodup.append hn (List.nodup_singleton _) (by
      intro a ha hb
      rw [List.mem_singleton] at hb
      exact hnot (hb ▸ ha))

theorem keys_onInstall (origin cacheName : String) (network : Request → Except String Response)
    (caches : CacheStorage) :
    (onInstall origin cacheName network caches).caches.keys = (caches.opened cacheName).keys := by
  unfold onInstall
  simp only []
  split
  · exact keys_foldl_put _ _ _
  · rfl

theorem keys_filter_current (cacheName : String) (caches : CacheStorage)
    (hnodup : caches.keys.Nodup) (hmem : cacheName ∈ caches.keys) :
    CacheStorage.keys (caches.filter fun named => named.1 = cacheName) = [cacheName] := by
  induction caches with
  | nil => simp [CacheStorage.keys] at hmem
  | cons named rest ih =>
    simp only [CacheStorage.keys, List.map_cons, List.nodup_cons, List.mem_cons] at hnodup hmem ih ⊢
    obtain ⟨hhead, hrest⟩ := hnodup
    by_cases h : named.1 = cacheName
    · rw [List.filter_cons_of_pos (by simpa using h)]
      have hnone : rest.filter (fun n => decide (n.1 = cacheName)) = [] := by
        rw [List.filter_eq_nil_iff]
        intro x hx hxc
        apply hhead
        rw [h]
        exact List.mem_map.mpr ⟨x, hx, by simpa using hxc⟩
      simp [hnone, h]
    · rw [List.filter_cons_of_neg (by simpa using h)]
      rcases hmem with hm | hm
      · exact absurd hm.symm h
      · exact ih hrest hm

/-- C14: whatever cache generations exist beforehand (under pairwise distinct
names) and whatever the network answers, after the install transition followed
by the activate transition exactly one cache generation exists, and its name
is the current generation name. -/
theorem install_then_activate (origin cacheName : String)
    (network : Request → Except String Response) (caches : CacheStorage)
    (hnodup : caches.keys.Nodup) :
    (onActivate cacheName (onInstall origin cacheName network caches).caches).1.keys =
      [cacheName] ∧
    (onActivate cacheName (onInstall origin cacheName network caches).caches).1.length = 1 := by
  have hkeys := keys_onInstall origin cacheName network caches
  obtain ⟨hmem, hnd⟩ := keys_opened caches cacheName
  have hfilter := keys_filter_current cacheName (onInstall origin cacheName network caches).caches
    (by rw [hkeys]; exact hnd hnodup) (by rw [hkeys]; exact hmem)
  rw [onActivate_eq]
  refine ⟨hfilter, ?_⟩
  have := congrArg List.length hfilter
  simpa [CacheStorage.keys] using this

/-- Witness of C14: two stale generations and a failing asset fetch. -/
theorem install_then_activate_witness :
    (onActivate CACHE_NAME (onInstall "https://coffee.example" CACHE_NAME scriptMissingNetwork
        [("coffee-finder-cache-v0", []), ("other", [])]).caches).1.keys = [CACHE_NAME] ∧
    (onActivate CACHE_NAME (onInstall "https://coffee.example" CACHE_NAME scriptMissingNetwork
        [("coffee-finder-cache-v0", []), ("other", [])]).caches).1.length = 1 :=
  install_then_activate "https://coffee.example" CACHE_NAME scriptMissingNetwork
    [("coffee-finder-cache-v0", []), ("other", [])] (by decide)

/-- C16: whatever the manifest asset fetches give, the promise the install
transition passes to `waitUntil` resolves: a population failure is caught. -/
theorem install_wait_resolves (origin cacheName : String)
    (network : Request → Except String Response) (caches : CacheStorage) :
    (onInstall origin cacheName network caches).waitUntil = .ok () ∧
    (onInstall "https://coffee.example" CACHE_NAME (fun _ => .error "Failed to fetch")
      []).waitUntil = .ok () := by
  constructor
  · unfold onInstall
    simp only []
    split <;> rfl
  · rfl

/-- C17: a same-origin request that no cache matches and whose network fetch
fails is answered with that failure; the network fetch is made once and the
cache storage is unchanged. -/
theorem fetch_network_failure (origin cacheName : String)
    (network : Request → Except String Response) (caches : CacheStorage) (request : Request)
    (e : String) (hsame : urlOrigin request.url = origin)
    (hmiss : caches.lookup request = none) (hnet : network request = .error e) :
    onFetch origin cacheName network caches request =
      { response := .error e, caches := caches
        effects := [.cachesMatch request, .networkFetch request] } ∧
    (onFetch origin cacheName network caches request).response = .error e ∧
    (onFetch origin cacheName network caches request).effects.count
      (.networkFetch request) = 1 ∧
    (∀ r, Effect.networkFetch r ∈ (onFetch origin cacheName network caches request).effects →
      r = request) ∧
    (onFetch origin cacheName network caches request).caches = caches := by
  have hstart : startsWith request.href origin = true := by
    rw [← hsame]; exact startsWith_href_origin _
  have hrun : onFetch origin cacheName network caches request =
      { response := .error e, caches := caches
        effects := [.cachesMatch request, .networkFetch request] } := by
    simp only [onFetch, hstart, if_true, hmiss, hnet]
  rw [hrun]
  refine ⟨rfl, rfl, ?_, ?_, rfl⟩
  · simp [List.count_cons]
  · intro r hr
    simpa using hr

/-- Witness of C17: `/api` of the application's origin, not cached, while offline. -/
theorem fetch_network_failure_witness :
    onFetch "https://coffee.example" CACHE_NAME (fun _ => .error "Failed to fetch")
        [(CACHE_NAME, [])] { url := "https://coffee.example/api" } =
      { response := .error "Failed to fetch", caches := [(CACHE_NAME, [])]
        effects := [.cachesMatch { url := "https://coffee.example/api" },
          .networkFetch { url := "https://coffee.example/api" }] } :=
  (fetch_network_failure "https://coffee.example" CACHE_NAME (fun _ => .error "Failed to fetch")
    [(CACHE_NAME, [])] { url := "https://coffee.example/api" } "Failed to fetch" (by decide) (by decide)
    rfl).1


theorem mapOrThrow_ok_forall₂ {α β : Type} (f : α → Except String β) :
    ∀ (l : List α) (bs : List β), mapOrThrow f l = .ok bs →
      List.Forall₂ (fun a b => f a = .ok b) l bs := by
  intro l
  induction l with
  | nil =>
    intro bs h
    simp only [mapOrThrow, Except.ok.injEq] at h
    subst h
    exact List.Forall₂.nil
  | cons a as ih =>
    intro bs h
    simp only [mapOrThrow] at h
    cases hfa : f a with
    | error e => simp [hfa] at h
    | ok b =>
      cases hrest : mapOrThrow f as with
      | error e => simp [hfa, hrest] at h
      | ok bs' =>
        simp only [hfa, hrest, Except.ok.injEq] at h
        subst h
        exact List.Forall₂.cons hfa (ih bs' hrest)

theorem mapOrThrow_error_of_exists {α β : Type} (f : α → Except String β) (l : List α)
    (h : ∃ a ∈ l, ∃ e, f a = .error e) : ∃ e, mapOrThrow f l = .error e := by
  induction l with
  | nil => obtain ⟨a, ha, _⟩ := h; cases ha
  | cons a as ih =>
    obtain ⟨x, hx, e, he⟩ := h
    cases hfa : f a with
    | error e' => exact ⟨e', by simp only [mapOrThrow, hfa]⟩
    | ok b =>
      have hx' : x ∈ as := by
        rcases List.mem_cons.mp hx with rfl | hx'
        · rw [hfa] at he; cases he
        · exact hx'
      obtain ⟨e', he'⟩ := ih ⟨x, hx', e, he⟩
      exact ⟨e', by simp only [mapOrThrow, hfa, he']⟩

theorem addAllFetch_ok (network : Request → Except String Response) (request : Request)
    (entry : Request × Response) (h : addAllFetch network request = .ok entry) :
    entry.1 = request ∧ network request = .ok entry.2 ∧ request.cacheable = true := by
  unfold addAllFetch at h
  cases hc : request.cacheable with
  | false => simp [hc] at h
  | true =>
    simp only [hc, Bool.not_true, Bool.false_eq_true, if_false] at h
    cases hnet : network request with
    | error e => simp [hnet] at h
    | ok response =>
      simp only [hnet] at h
      split at h
      · cases h; exact ⟨rfl, rfl, rfl⟩
      · cases h

theorem entries_put_same (caches : CacheStorage) (name : String) (request : Request)
    (response : Response) (hmem : name ∈ caches.keys) (hcacheable : request.cacheable = true) :
    (caches.put name request response).entries name =
      (caches.entries name).filter (fun entry => entry.1.url ≠ request.url) ++
        [(request, response)] := by
  simp only [CacheStorage.put, hcacheable, if_true]
  induction caches with
  | nil => simp [CacheStorage.keys] at hmem
  | cons named rest ih =>
    simp only [CacheStorage.entries, List.map_cons] at ih ⊢
    by_cases h1 : named.1 = name
    · simp [h1]
    · have hrest : name ∈ CacheStorage.keys rest := by
        simp only [CacheStorage.keys, List.map_cons, List.mem_cons] at hmem
        rcases hmem with h | h
        · exact absurd h.symm h1
        · exact h
      simp only [h1, if_false, List.find?_cons, decide_False]
      exact ih hrest

theorem entries_foldl_put (name : String) (entries : List (Request × Response)) :
    ∀ caches : CacheStorage, name ∈ caches.keys →
      (∀ entry ∈ entries, entry.1.cacheable = true) →
      (entries.foldl (fun acc entry => acc.put name entry.1 entry.2) caches).entries name =
        entries.foldl
          (fun cache entry =>
            cache.filter (fun held => held.1.url ≠ entry.1.url) ++ [(entry.1, entry.2)])
          (caches.entries name) := by
  induction entries with
  | nil => intro caches _ _; rfl
  | cons e es ih =>
    intro caches hmem hall
    rw [List.foldl_cons, List.foldl_cons,
      ih _ (by rw [keys_put]; exact hmem) (fun entry h => hall entry (List.mem_cons_of_mem _ h)),
      entries_put_same _ _ _ _ hmem (hall e (List.mem_cons_self _ _))]

theorem mem_foldl_replace (entries : List (Request × Response)) :
    ∀ cache : Cache, (entries.map fun entry => entry.1.url).Nodup →
      (∀ entry ∈ entries, entry ∈ entries.foldl
        (fun cache entry =>
          cache.filter (fun held => held.1.url ≠ entry.1.url) ++ [(entry.1, entry.2)])
        cache) ∧
      (∀ held ∈ cache, held.1.url ∉ entries.map (fun entry => entry.1.url) →
        held ∈ entries.foldl
          (fun cache entry =>
            cache.filter (fun held => held.1.url ≠ entry.1.url) ++ [(entry.1, entry.2)])
          cache) := by
  induction entries with
  | nil => intro cache _; exact ⟨fun _ h => (by cases h), fun held h _ => h⟩
  | cons e es ih =>
    intro cache hnodup
    obtain ⟨hhead, htail⟩ := List.nodup_cons.mp hnodup
    obtain ⟨hnew, hkept⟩ :=
      ih (cache.filter (fun held => held.1.url ≠ e.1.url) ++ [(e.1, e.2)]) htail
    refine ⟨?_, ?_⟩
    · intro entry hentry
      rw [List.foldl_cons]
      rcases List.mem_cons.mp hentry with rfl | hentry
      · exact hkept _ (List.mem_append_right _ (List.mem_singleton.mpr rfl)) hhead
      · exact hnew entry hentry
    · intro held hheld hurl
      rw [List.foldl_cons]
      have hne : held.1.url ≠ e.1.url := fun h => hurl (by simp [h])
      have hrest : held.1.url ∉ es.map (fun entry => entry.1.url) :=
        fun h => hurl (List.mem_cons_of_mem _ h)
      refine hkept held (List.mem_append_left _ ?_) hrest
      exact List.mem_filter.mpr ⟨hheld, by simpa using hne⟩

theorem manifest_requests_nodup (origin : String) :
    ((urlsToCache.map fun path => ({ url := origin ++ path } : Request)).map
      fun request => request.url).Nodup := by
  rw [List.map_map]
  refine List.Nodup.map ?_ (by decide)
  intro a b h
  have hd := congrArg String.data h
  simp only [Function.comp, String.data_append] at hd
  exact String.ext (List.append_cancel_left hd)

/-- C15, as amended: the population of the install transition is all or nothing.
When the fetch of every manifest asset succeeds, every manifest asset is stored
in the current generation's cache after install; when the fetch of at least
one asset fails, the failure is caught, the assets whose fetch succeeded are
not stored either (no entry is put and every cache keeps its entries), and the
transition still completes. -/
theorem install_all_or_nothing (origin cacheName : String)
    (network : Request → Except String Response) (caches : CacheStorage) :
    ((∀ path ∈ urlsToCache, ∃ entry, addAllFetch network { url := origin ++ path } = .ok entry) →
      ∀ path ∈ urlsToCache, ∀ response, network { url := origin ++ path } = .ok response →
        (({ url := origin ++ path } : Request), response) ∈
          (onInstall origin cacheName network caches).caches.entries cacheName) ∧
    ((∃ path ∈ urlsToCache, ∃ e, addAllFetch network { url := origin ++ path } = .error e) →
      (onInstall origin cacheName network caches).caches = caches.opened cacheName ∧
      (∀ name, (onInstall origin cacheName network caches).caches.entries name =
        caches.entries name) ∧
      (∀ name request response, Effect.cachePut name request response ∉
        (onInstall origin cacheName network caches).effects) ∧
      (onInstall origin cacheName network caches).waitUntil = .ok ()) := by
  constructor
  · intro hall path hpath response hresponse
    obtain ⟨entries, hentries⟩ := mapOrThrow_ok_of_forall (addAllFetch network)
      (urlsToCache.map fun path => ({ url := origin ++ path } : Request)) (by
        intro request hrequest
        obtain ⟨p, hp, rfl⟩ := List.mem_map.mp hrequest
        exact hall p hp)
    have hforall := mapOrThrow_ok_forall₂ _ _ _ hentries
    have hfst : entries.map Prod.fst =
        urlsToCache.map fun path => ({ url := origin ++ path } : Request) := by
      have : ∀ (l : List Request) (bs : List (Request × Response)),
          List.Forall₂ (fun a b => addAllFetch network a = .ok b) l bs →
            bs.map Prod.fst = l := by
        intro l bs h
        induction h with
        | nil => rfl
        | cons hab _ ih => rw [List.map_cons, ih, (addAllFetch_ok _ _ _ hab).1]
      exact this _ _ hforall
    have hmemEntry : (({ url := origin ++ path } : Request), response) ∈ entries := by
      have hreq : ({ url := origin ++ path } : Request) ∈ entries.map Prod.fst := by
        rw [hfst]; exact List.mem_map.mpr ⟨path, hpath, rfl⟩
      obtain ⟨entry, hentry, hentryfst⟩ := List.mem_map.mp hreq
      have hok : ∀ (l : List Request) (bs : List (Request × Response)),
          List.Forall₂ (fun a b => addAllFetch network a = .ok b) l bs →
            ∀ b ∈ bs, network b.1 = .ok b.2 := by
        intro l bs h
        induction h with
        | nil => intro b hb; cases hb
        | cons hab _ ih =>
          intro b hb
          rcases List.mem_cons.mp hb with rfl | hb
          · obtain ⟨h1, h2, _⟩ := addAllFetch_ok _ _ _ hab
            rw [h1]; exact h2
          · exact ih b hb
      have hnet := hok _ _ hforall entry hentry
      rw [hentryfst, hresponse] at hnet
      have hsnd : entry.2 = response := by cases hnet; rfl
      have : entry = (({ url := origin ++ path } : Request), response) :=
        Prod.ext hentryfst hsnd
      rw [← this]; exact hentry
    have hnodup : (entries.map fun entry => entry.1.url).Nodup := by
      have := manifest_requests_nodup origin
      rw [← hfst, List.map_map] at this
      exact this
    have hcaches : (onInstall origin cacheName network caches).caches =
        entries.foldl (fun acc entry => acc.put cacheName entry.1 entry.2)
          (caches.opened cacheName) := by
      simp only [onInstall, hentries]
    have hcacheable : ∀ entry ∈ entries, entry.1.cacheable = true := by
      have : ∀ (l : List Request) (bs : List (Request × Response)),
          List.Forall₂ (fun a b => addAllFetch network a = .ok b) l bs →
            ∀ b ∈ bs, b.1.cacheable = true := by
        intro l bs h
        induction h with
        | nil => intro b hb; cases hb
        | cons hab _ ih =>
          intro b hb
          rcases List.mem_cons.mp hb with rfl | hb
          · obtain ⟨h1, _, h3⟩ := addAllFetch_ok _ _ _ hab
            rw [h1]; exact h3
          · exact ih b hb
      exact this _ _ hforall
    rw [hcaches, entries_foldl_put _ _ _ (keys_opened caches cacheName).1 hcacheable]
    exact (mem_foldl_replace entries _ hnodup).1 _ hmemEntry
  · intro hfail
    obtain ⟨e, he⟩ := mapOrThrow_error_of_exists (addAllFetch network)
      (urlsToCache.map fun path => ({ url := origin ++ path } : Request)) (by
        obtain ⟨path, hpath, e, he⟩ := hfail
        exact ⟨_, List.mem_map.mpr ⟨path, hpath, rfl⟩, e, he⟩)
    have hrun : onInstall origin cacheName network caches =
        { waitUntil := .ok (), caches := caches.opened cacheName
          effects := [.cachesOpen cacheName] ++
            if (urlsToCache.map fun path => ({ url := origin ++ path } : Request)).all
                Request.cacheable then
              (urlsToCache.map fun path => ({ url := origin ++ path } : Request)).map
                Effect.networkFetch
            else [] } := by
      simp only [onInstall, he]
    rw [hrun]
    refine ⟨rfl, fun name => entries_opened caches cacheName name, ?_, rfl⟩
    intro name request response
    split <;> simp


/-- Witness of C15 as amended: on a network that answers every manifest asset
with status 200, the index page is in the current cache after install. -/
theorem install_all_or_nothing_witness :
    (({ url := "https://coffee.example/index.html" } : Request),
        ({ status := 200, type := "basic", body := "https://coffee.example/index.html" } :
          Response)) ∈
      (onInstall "https://coffee.example" CACHE_NAME healthyNetwork []).caches.entries
        CACHE_NAME :=
  (install_all_or_nothing "https://coffee.example" CACHE_NAME healthyNetwork []).1
    (fun _ _ => ⟨_, rfl⟩) "/index.html" (by decide) _ rfl

/-- Counterexample to C15 as stated: the fetch of `/script.js` fails and the fetch of
every other manifest asset succeeds, among them `/index.html`; after install the
current generation's cache exists and holds no entry, so the index page, whose
fetch succeeded, is not stored. -/
theorem install_failure_stores_nothing :
    scriptMissingNetwork { url := "https://coffee.example/script.js" } =
      .error "Failed to fetch" ∧
    scriptMissingNetwork { url := "https://coffee.example/index.html" } =
      .ok { status := 200, type := "basic", body := "https://coffee.example/index.html" } ∧
    (onInstall "https://coffee.example" CACHE_NAME scriptMissingNetwork []).caches =
      [(CACHE_NAME, [])] ∧
    (onInstall "https://coffee.example" CACHE_NAME scriptMissingNetwork []).caches.entries
      CACHE_NAME = [] ∧
    (({ url := "https://coffee.example/index.html" } : Request),
        ({ status := 200, type := "basic", body := "https://coffee.example/index.html" } :
          Response)) ∉
      (onInstall "https://coffee.example" CACHE_NAME scriptMissingNetwork []).caches.entries
        CACHE_NAME := by
  refine ⟨by decide, by decide, by decide, by decide, by decide⟩

/-! ## Identifiers stay distinct -/

theorem nodup_ids_map {α : Type} (key : α → Nat) (f : α → α) (l : List α)
    (hkey : ∀ a, key (f a) = key a) (h : (l.map key).Nodup) : ((l.map f).map key).Nodup := by
  rw [List.map_map]
  have : key ∘ f = key := funext hkey
  rw [this]; exact h

theorem nodup_ids_filter {α : Type} (key : α → Nat) (p : α → Bool) (l : List α)
    (h : (l.map key).Nodup) : ((l.filter p).map key).Nodup :=
  List.Nodup.sublist ((List.filter_sublist l).map key) h

theorem nodup_ids_append {α : Type} (key : α → Nat) (l : List α) (a : α)
    (hfresh : (l.map key).contains (key a) = false) (h : (l.map key).Nodup) :
    ((l ++ [a]).map key).Nodup := by
  rw [List.map_append, List.map_cons, List.map_nil]
  refine List.Nodup.append h (List.nodup_singleton _) ?_
  intro x hx hx'
  rw [List.mem_singleton] at hx'
  subst hx'
  have : (l.map key).contains (key a) = true := by simpa using hx
  rw [this] at hfresh
  cases hfresh

theorem noteOp_keeps_distinct (J : JsonCodec Note) (op : NoteOp)
    (s : MapPageState) (hnodup : (s.notes.map Note.id).Nodup)
    (hfresh : (match op with
      | .add now _ _ => !(s.notes.map Note.id).contains now
      | _ => true) = true) :
    ((op.run J s).state.notes.map Note.id).Nodup := by
  cases op with
  | add now iso text =>
    simp only [NoteOp.run]
    rw [(addNote_state J now iso text s).1]
    exact nodup_ids_append Note.id s.notes { id := now, text := text, date := iso }
      (by simpa using hfresh) hnodup
  | update iso noteId newText =>
    simp only [NoteOp.run]
    rw [(updateNote_state J iso noteId newText s).1]
    exact nodup_ids_map Note.id _ s.notes (by intro a; split <;> rfl) hnodup
  | delete noteId =>
    simp only [NoteOp.run]
    rw [(deleteNote_state J noteId s).1]
    exact nodup_ids_filter Note.id _ s.notes hnodup

theorem noteOps_keep_distinct (J : JsonCodec Note) (ops : List NoteOp) :
    ∀ (n : Nat) (s : MapPageState),
      (s.notes.map Note.id).Nodup → freshNoteOps J ops s = true →
      ((runNoteOps J (ops.take n) s).notes.map Note.id).Nodup := by
  induction ops with
  | nil => intro n s hnodup _; simpa [runNoteOps] using hnodup
  | cons op ops ih =>
    intro n s hnodup hfresh
    cases n with
    | zero => exact hnodup
    | succ n =>
      simp only [freshNoteOps, Bool.and_eq_true] at hfresh
      obtain ⟨hop, hrest⟩ := hfresh
      have hnodup1 := noteOp_keeps_distinct J op s hnodup hop
      simp only [List.take_succ_cons, runNoteOps]
      exact ih n _ hnodup1 hrest

theorem photoOp_run_selected (J : JsonCodec Photo) (shop : ShopRecord) (op : PhotoOp)
    (s : MapPageState) (hsel : s.selectedShop = some shop) :
    (op.run J s).selectedShop = some shop := by
  cases op with
  | capture media now iso imageUrl =>
    simp only [PhotoOp.run]
    rw [(takePicture_frame J now iso imageUrl _).2.1,
      (startCamera_ok_fields media s).2.2.2.2.2.1, hsel]
  | retake photoId media now iso imageUrl =>
    simp only [PhotoOp.run]
    rw [(takePicture_frame J now iso imageUrl _).2.1,
      (updatePhoto_ok_fields photoId media s).2.2.2.2.2.1, hsel]
  | delete photoId =>
    simp only [PhotoOp.run]
    rw [(deletePhoto_state J photoId s).2.2.1, hsel]

theorem photoOp_keeps_distinct (J : JsonCodec Photo) (shop : ShopRecord) (op : PhotoOp)
    (s : MapPageState) (hsel : s.selectedShop = some shop)
    (hnodup : (s.photos.map Photo.id).Nodup)
    (hfresh : (match op.creates s with
      | some now => !(s.photos.map Photo.id).contains now
      | none => true) = true) :
    ((op.run J s).photos.map Photo.id).Nodup := by
  have hmap : ∀ (target : Option Nat) (imageUrl iso : String),
      ((s.photos.map fun photo =>
        if some photo.id = target then { photo with url := imageUrl, edited := some iso }
        else photo).map Photo.id).Nodup := fun target imageUrl iso =>
    nodup_ids_map Photo.id _ s.photos (by intro a; split <;> rfl) hnodup
  cases op with
  | capture media now iso imageUrl =>
    obtain ⟨h1, h2, _, h4, _, h6, h7, _⟩ := startCamera_ok_fields media s
    obtain ⟨hphotos, _, _⟩ := takePicture_taken J now iso imageUrl shop media
      (startCamera (.ok media) s) h2 h1 (by rw [h6, hsel])
    show ((takePicture J now iso imageUrl (startCamera (.ok media) s)).photos.map
      Photo.id).Nodup
    rw [hphotos, h7, h4]
    by_cases ht : truthy s.editingPhotoId = true
    · rw [if_pos ht]; exact hmap _ _ _
    · rw [if_neg ht]
      simp only [PhotoOp.creates, ht, if_false, Bool.false_eq_true] at hfresh
      exact nodup_ids_append Photo.id s.photos { id := now, url := imageUrl, date := iso }
        (by simpa using hfresh) hnodup
  | retake photoId media now iso imageUrl =>
    obtain ⟨h1, h2, _, h4, _, h6, h7, _⟩ := updatePhoto_ok_fields photoId media s
    obtain ⟨hphotos, _, _⟩ := takePicture_taken J now iso imageUrl shop media
      (updatePhoto photoId (.ok media) s) h2 h1 (by rw [h6, hsel])
    show ((takePicture J now iso imageUrl (updatePhoto photoId (.ok media) s)).photos.map
      Photo.id).Nodup
    rw [hphotos, h7, h4]
    by_cases ht : truthy (some photoId) = true
    · rw [if_pos ht]; exact hmap _ _ _
    · rw [if_neg ht]
      simp only [PhotoOp.creates, ht, if_false, Bool.false_eq_true] at hfresh
      exact nodup_ids_append Photo.id s.photos { id := now, url := imageUrl, date := iso }
        (by simpa using hfresh) hnodup
  | delete photoId =>
    show ((deletePhoto J photoId s).state.photos.map Photo.id).Nodup
    rw [(deletePhoto_state J photoId s).1]
    exact nodup_ids_filter Photo.id _ s.photos hnodup

theorem photoOps_keep_distinct (J : JsonCodec Photo) (shop : ShopRecord)
    (ops : List PhotoOp) :
    ∀ (n : Nat) (s : MapPageState), s.selectedShop = some shop →
      (s.photos.map Photo.id).Nodup → freshPhotoOps J ops s = true →
      ((runPhotoOps J (ops.take n) s).photos.map Photo.id).Nodup := by
  induction ops with
  | nil => intro n s _ hnodup _; simpa [runPhotoOps] using hnodup
  | cons op ops ih =>
    intro n s hsel hnodup hfresh
    cases n with
    | zero => exact hnodup
    | succ n =>
      simp only [freshPhotoOps, Bool.and_eq_true] at hfresh
      obtain ⟨hop, hrest⟩ := hfresh
      have hnodup1 := photoOp_keeps_distinct J shop op s hsel hnodup hop
      simp only [List.take_succ_cons, runPhotoOps]
      exact ih n _ (photoOp_run_selected J shop op s hsel) hnodup1 hrest

/-- C18: starting from a note collection (respectively photo collection) with
pairwise distinct identifiers, along every sequence of add, edit and delete
operations in which each creation happens at a timestamp that differs from
every identifier then present, the identifiers are pairwise distinct after
every step, whether or not the writes to local storage find room. -/
theorem identifiers_stay_distinct (JN : JsonCodec Note) (JP : JsonCodec Photo)
    (shop : ShopRecord) (s : MapPageState) (noteOps : List NoteOp) (photoOps : List PhotoOp)
    (hsel : s.selectedShop = some shop)
    (hnotes : (s.notes.map Note.id).Nodup) (hphotos : (s.photos.map Photo.id).Nodup)
    (hfreshNotes : freshNoteOps JN noteOps s = true)
    (hfreshPhotos : freshPhotoOps JP photoOps s = true) :
    (∀ n, ((runNoteOps JN (noteOps.take n) s).notes.map Note.id).Nodup) ∧
    (∀ n, ((runPhotoOps JP (photoOps.take n) s).photos.map Photo.id).Nodup) :=
  ⟨fun n => noteOps_keep_distinct JN noteOps n s hnotes hfreshNotes,
    fun n => photoOps_keep_distinct JP shop photoOps n s hsel hphotos hfreshPhotos⟩

/-- Witness of C18: notes and photos of the shop 12345 created at different
milliseconds, edited and deleted, starting from empty collections. -/
theorem identifiers_stay_distinct_witness :
    (∀ n, ((runNoteOps noteJson
        (([.add 1700000000000 "2023-11-14T22:13:20.000Z" "Great espresso",
          .add 1700000000500 "2023-11-14T22:13:20.500Z" "Closes early",
          .update "2023-11-14T22:14:00.000Z" 1700000000000 "Great flat white",
          .delete 1700000000500] : List NoteOp).take n) (exampleSelected "")).notes.map
            Note.id).Nodup) ∧
    (∀ n, ((runPhotoOps photoJson
        (([.capture { tracks := [1] } 1700000000000 "2023-11-14T22:13:20.000Z" "data:,A",
          .capture { tracks := [2] } 1700000000500 "2023-11-14T22:13:20.500Z" "data:,B",
          .retake 1700000000000 { tracks := [3] } 1700000000900 "2023-11-14T22:13:20.900Z"
            "data:,C",
          .delete 1700000000500] : List PhotoOp).take n) (exampleSelected "")).photos.map
            Photo.id).Nodup) :=
  identifiers_stay_distinct noteJson photoJson exampleShop (exampleSelected "") _ _ rfl
    (by decide) (by decide) (by decide) (by decide)

/-! ## Shop records of the map page -/

theorem forall₂_getElem? {α β : Type} (R : α → β → Prop) (l : List α) (bs : List β)
    (h : List.Forall₂ R l bs) :
    ∀ (i : Nat) (a : α), l[i]? = some a → ∃ b, bs[i]? = some b ∧ R a b := by
  induction h with
  | nil => intro i a ha; simp at ha
  | cons hab _ ih =>
    intro i a ha
    cases i with
    | zero =>
      simp only [List.getElem?_cons_zero, Option.some.injEq] at ha
      subst ha
      exact ⟨_, by simp, hab⟩
    | succ i =>
      simp only [List.getElem?_cons_succ] at ha ⊢
      exact ih i a ha

theorem tagOr_spec (tags : Tags) (key placeholder : String) :
    TagOrPlaceholder (tagOr tags key placeholder) tags key placeholder := by
  unfold TagOrPlaceholder tagOr orDefault
  constructor
  · intro v hv hne
    rw [hv]
    simp only [if_neg hne]
  · rintro (h | h)
    · rw [h]
    · rw [h]; simp

/-- C19: for a successful map-data response whose elements all carry a tags map
and whose shops' stored values are valid JSON, `fetchCoffeeShops` stores one shop
record per element, in the order of the response; each record has the
element's identifier and coordinates, has name, address, phone, website and
opening hours equal to the tag when it is present and not empty and to the
placeholder otherwise, and has the notes and photos stored under the shop's
keys (empty when the key is absent). -/
theorem shop_records_built (JN : JsonCodec Note) (JP : JsonCodec Photo)
    (hJN : JN.Lawful) (hJP : JP.Lawful) (lat lng : Coord)
    (elements : List Element) (s : MapPageState)
    (htags : ∀ element ∈ elements, element.tags ≠ none)
    (hnotes : ∀ element ∈ elements,
      ∃ notes, readStored JN s.localStorage (notesKey element.id) = some notes)
    (hphotos : ∀ element ∈ elements,
      ∃ photos, readStored JP s.localStorage (photosKey element.id) = some photos) :
    ∃ shops,
      fetchCoffeeShops JN JP lat lng (.resolved true (.value (some elements))) s =
        .ok { s with coffeeShops := shops, loading := false } ∧
      shops.length = elements.length ∧
      ∀ (i : Nat) (element : Element), elements[i]? = some element →
        ∃ (shop : ShopRecord) (tags : Tags), shops[i]? = some shop ∧
          element.tags = some tags ∧
          shop.id = element.id ∧ shop.lat = element.lat ∧ shop.lng = element.lon ∧
          TagOrPlaceholder shop.name tags "name" "Unnamed Coffee Shop" ∧
          TagOrPlaceholder shop.address tags "addr:street" "Address not available" ∧
          TagOrPlaceholder shop.phone tags "contact:phone" "Phone number not available" ∧
          TagOrPlaceholder shop.website tags "website" "Website not available" ∧
          TagOrPlaceholder shop.opening_hours tags "opening_hours"
            "Opening hours not available" ∧
          readStored JN s.localStorage (notesKey element.id) = some shop.notes ∧
          readStored JP s.localStorage (photosKey element.id) = some shop.photos ∧
          (s.localStorage.getItem (notesKey element.id) = none → shop.notes = []) ∧
          (s.localStorage.getItem (photosKey element.id) = none → shop.photos = []) := by
  obtain ⟨shops, hshops⟩ := mapOrThrow_ok_of_forall (shopOfElement JN JP s.localStorage)
    elements (by
      intro element hmem
      obtain ⟨notes, hn⟩ := hnotes element hmem
      obtain ⟨photos, hp⟩ := hphotos element hmem
      cases htag : element.tags with
      | none => exact absurd htag (htags element hmem)
      | some tags =>
        simp only [shopOfElement, htag, hn, hp]
        exact ⟨_, rfl⟩)
  have hforall := mapOrThrow_ok_forall₂ _ _ _ hshops
  refine ⟨shops, ?_, hforall.length_eq.symm, ?_⟩
  · simp only [fetchCoffeeShops, fetchCoffeeShopsTry, hshops, Bool.not_true,
      Bool.false_eq_true, if_false]
  · intro i element helement
    obtain ⟨shop, hshop, hbuilt⟩ := forall₂_getElem? _ _ _ hforall i element helement
    have hmem : element ∈ elements := List.getElem?_mem helement
    obtain ⟨notes, hn⟩ := hnotes element hmem
    obtain ⟨photos, hp⟩ := hphotos element hmem
    cases htag : element.tags with
    | none => exact absurd htag (htags element hmem)
    | some tags =>
      simp only [shopOfElement, htag, hn, hp, Except.ok.injEq] at hbuilt
      subst hbuilt
      refine ⟨_, tags, hshop, rfl, rfl, rfl, rfl, tagOr_spec _ _ _, tagOr_spec _ _ _,
        tagOr_spec _ _ _, tagOr_spec _ _ _, tagOr_spec _ _ _, hn, hp, ?_, ?_⟩
      · intro habsent
        have := readStored_absent JN hJN s.localStorage _ habsent
        rw [hn] at this
        exact Option.some.inj this
      · intro habsent
        have := readStored_absent JP hJP s.localStorage _ habsent
        rw [hp] at this
        exact Option.some.inj this

/-- Witness of C19: a response with one café, whose shop has one stored note. -/
theorem shop_records_built_witness :
    ∃ shops,
      fetchCoffeeShops noteJson photoJson 40000000 (-73000000)
          (.resolved true (.value (some [exampleElement]))) exampleStored =
        .ok { exampleStored with coffeeShops := shops, loading := false } ∧
      shops =
        [{ id := 12345, name := "Bean There", lat := 40005000, lng := -73004000
           address := "Address not available", phone := "Phone number not available"
           website := "Website not available"
           opening_hours := "Opening hours not available"
           notes := [espressoNote]
           photos := [] }] := by
  obtain ⟨shops, hrun, hlen, hrec⟩ := shop_records_built noteJson photoJson noteJson_lawful
    photoJson_lawful 40000000 (-73000000) [exampleElement] exampleStored
    (by decide)
    (by intro element h; rw [List.mem_singleton] at h; subst h
        exact ⟨[espressoNote], by decide⟩)
    (by intro element h; rw [List.mem_singleton] at h; subst h; exact ⟨[], by decide⟩)
  refine ⟨shops, hrun, ?_⟩
  obtain ⟨shop, tags, hshop, htags, hid, hlat, hlng, hname, haddr, hphone, hweb, hhours,
    hnotes, hphotos, _, hnophotos⟩ := hrec 0 exampleElement rfl
  have htagsEq : tags = [("amenity", "cafe"), ("name", "Bean There"), ("website", "")] :=
    (Option.some.inj htags).symm
  subst htagsEq
  have h1 : shop.name = "Bean There" := hname.1 "Bean There" (by decide) (by decide)
  have h2 : shop.address = "Address not available" := haddr.2 (Or.inl (by decide))
  have h3 : shop.phone = "Phone number not available" := hphone.2 (Or.inl (by decide))
  have h4 : shop.website = "Website not available" := hweb.2 (Or.inr (by decide))
  have h5 : shop.opening_hours = "Opening hours not available" :=
    hhours.2 (Or.inl (by decide))
  have h6 : shop.photos = [] := hnophotos rfl
  have h7 : shop.notes = [espressoNote] := by
    have : readStored noteJson exampleStored.localStorage (notesKey exampleElement.id) =
        some [espressoNote] := by decide
    rw [hnotes] at this
    exact Option.some.inj this
  have hshopEq : shop =
      { id := 12345, name := "Bean There", lat := 40005000, lng := -73004000
        address := "Address not available", phone := "Phone number not available"
        website := "Website not available"
        opening_hours := "Opening hours not available"
        notes := [espressoNote]
        photos := [] } := by
    cases shop
    simp only at hid hlat hlng h1 h2 h3 h4 h5 h6 h7
    subst hid hlat hlng h1 h2 h3 h4 h5 h6 h7
    rfl
  cases shops with
  | nil => simp at hshop
  | cons first rest =>
    cases rest with
    | nil =>
      simp only [List.getElem?_cons_zero, Option.some.injEq] at hshop
      rw [hshop, hshopEq]
    | cons second more => simp at hlen


/-! ## Release of the camera stream -/

theorem takePicture_released (J : JsonCodec Photo) (now : Nat) (iso imageUrl : String)
    (stream : MediaStream) (s : MapPageState) (hvideo : s.videoMounted = true)
    (hstream : s.stream = some stream) :
    Released stream (takePicture J now iso imageUrl s) := by
  obtain ⟨_, _, _, _, _, _, h7, h8, _, h10⟩ := released_fields stream s
  unfold Released
  simp only [takePicture, hvideo, hstream, Bool.not_true, Bool.false_eq_true, if_false]
  cases s.selectedShop with
  | none => exact ⟨h10, h7, h8⟩
  | some shop =>
    simp only []
    split
    · split
      · exact ⟨h10, h7, h8⟩
      · exact ⟨h10, h7, h8⟩
    · split
      · exact ⟨h10, h7, h8⟩
      · exact ⟨h10, h7, h8⟩

/-- C20: in a state of the capture flow, that is with a stream held and the video
element mounted, as `startCamera` and `updatePhoto` leave it, every exit releases
the camera stream: after `takePicture` and after the cancel action every track
of the held stream has been stopped, no stream is held and the capture UI is
hidden; at teardown of the map page, and whenever the held stream is replaced,
every track of the stream held before is stopped. -/
theorem camera_stream_released (J : JsonCodec Photo) (stream : MediaStream)
    (s : MapPageState) (hstream : s.stream = some stream) (hvideo : s.videoMounted = true) :
    (∀ now iso imageUrl, Released stream (takePicture J now iso imageUrl s)) ∧
    (∃ s1, cancelCamera s = .ok s1 ∧ Released stream s1) ∧
    (∀ t ∈ stream.tracks, t ∈ (unmount s).stoppedTracks) ∧
    (∀ value, value ≠ some stream →
      ∀ t ∈ stream.tracks, t ∈ (setStream value s).stoppedTracks) ∧
    (∀ (s0 : MapPageState) (media : MediaStream),
      (startCamera (.ok media) s0).stream = some media ∧
      (startCamera (.ok media) s0).videoMounted = true) ∧
    (∀ (s0 : MapPageState) (photoId : Nat) (media : MediaStream),
      (updatePhoto photoId (.ok media) s0).stream = some media ∧
      (updatePhoto photoId (.ok media) s0).videoMounted = true) := by
  obtain ⟨_, _, _, _, _, _, h7, h8, _, h10⟩ := released_fields stream s
  refine ⟨fun now iso imageUrl =>
      takePicture_released J now iso imageUrl stream s hvideo hstream,
    ?_, ?_, fun value hne => setStream_stops_previous value s stream hstream hne, ?_, ?_⟩
  · simp only [cancelCamera, hstream]
    exact ⟨_, rfl, h10, h7, h8⟩
  · intro t ht
    simp only [unmount, hstream, stopTracks]
    exact List.mem_append_right _ ht
  · intro s0 media
    obtain ⟨h1, h2, _⟩ := startCamera_ok_fields media s0
    exact ⟨h1, h2⟩
  · intro s0 photoId media
    obtain ⟨h1, h2, _⟩ := updatePhoto_ok_fields photoId media s0
    exact ⟨h1, h2⟩

/-- Witness of C20: the capture UI opened with Take Photo on a stream with the
tracks 1 and 2. -/
theorem camera_stream_released_witness :
    (takePicture photoJson 1700000001000 "2023-11-14T22:13:21.000Z" "data:,D"
      exampleCapturing).stream = none ∧
    (takePicture photoJson 1700000001000 "2023-11-14T22:13:21.000Z" "data:,D"
      exampleCapturing).showCamera = false ∧
    (∀ t ∈ [1, 2], t ∈ (takePicture photoJson 1700000001000 "2023-11-14T22:13:21.000Z"
      "data:,D" exampleCapturing).stoppedTracks) ∧
    (∃ s1, cancelCamera exampleCapturing = .ok s1 ∧ Released { tracks := [1, 2] } s1) ∧
    (∀ t ∈ [1, 2], t ∈ (unmount exampleCapturing).stoppedTracks) := by
  have h := camera_stream_released photoJson { tracks := [1, 2] } exampleCapturing rfl rfl
  obtain ⟨htracks, hnone, hhidden⟩ :=
    h.1 1700000001000 "2023-11-14T22:13:21.000Z" "data:,D"
  exact ⟨hnone, hhidden, htracks, h.2.1, h.2.2.1⟩


/-! ## Two notes in one millisecond -/

/-- C21, as amended: two note creations at the same millisecond timestamp collide
in their identifier only, and the second does not overwrite the first. For
every note collection and every timestamp, after both `addNote` calls (the
second on the state the first left) the collection is the old one followed by
both notes: two entries carry that identifier, one with the first note's text
and one with the second note's text. -/
theorem same_millisecond_notes (J : JsonCodec Note) (s : MapPageState)
    (now : Nat) (iso1 iso2 text1 text2 : String) :
    (addNote J now iso2 text2 (addNote J now iso1 text1 s).state).state.notes =
      s.notes ++ [{ id := now, text := text1, date := iso1 },
        { id := now, text := text2, date := iso2 }] ∧
    2 ≤ ((addNote J now iso2 text2 (addNote J now iso1 text1 s).state).state.notes.map
      Note.id).count now ∧
    ¬ ((addNote J now iso2 text2 (addNote J now iso1 text1 s).state).state.notes.map
      Note.id).Nodup ∧
    (∃ note ∈ (addNote J now iso2 text2 (addNote J now iso1 text1 s).state).state.notes,
      note.id = now ∧ note.text = text1) ∧
    (∃ note ∈ (addNote J now iso2 text2 (addNote J now iso1 text1 s).state).state.notes,
      note.id = now ∧ note.text = text2) := by
  rw [(addNote_state J now iso2 text2 _).1, (addNote_state J now iso1 text1 s).1]
  have hcount : 2 ≤ ((s.notes ++ [({ id := now, text := text1, date := iso1 } : Note)] ++
      [({ id := now, text := text2, date := iso2 } : Note)]).map Note.id).count now := by
    simp [List.count_append]
  refine ⟨by simp, hcount, ?_, ?_, ?_⟩
  · intro hnodup
    have := List.nodup_iff_count_le_one.mp hnodup now
    omega
  · exact ⟨{ id := now, text := text1, date := iso1 }, by simp, rfl, rfl⟩
  · exact ⟨{ id := now, text := text2, date := iso2 }, by simp, rfl, rfl⟩

/-- Witness of C21 as amended: two notes added to the shop 12345 at 1700000000000. -/
theorem same_millisecond_notes_witness :
    (addNote noteJson 1700000000000 "2023-11-14T22:13:20.000Z" "Friendly staff"
        (addNote noteJson 1700000000000 "2023-11-14T22:13:20.000Z" "Great espresso"
          (exampleSelected "")).state).state.notes =
      [ { id := 1700000000000, text := "Great espresso", date := "2023-11-14T22:13:20.000Z" },
        { id := 1700000000000, text := "Friendly staff",
          date := "2023-11-14T22:13:20.000Z" } ] :=
  (same_millisecond_notes noteJson (exampleSelected "") 1700000000000
    "2023-11-14T22:13:20.000Z" "2023-11-14T22:13:20.000Z" "Great espresso"
    "Friendly staff").1

/-- Counterexample to C21 as stated: two `addNote` calls at the timestamp
1700000000000 on the empty collection of the shop 12345 leave two entries with
that identifier, the first note's text among them. More generally there is no
note collection and no timestamp for which the second of two `addNote` calls at
that timestamp leaves only one entry with the identifier and removes the first
note's text: the first note is still in the collection after the second call. -/
theorem same_millisecond_no_overwrite :
    ((addNote noteJson 1700000000000 "2023-11-14T22:13:20.000Z" "Friendly staff"
        (addNote noteJson 1700000000000 "2023-11-14T22:13:20.000Z" "Great espresso"
          (exampleSelected "")).state).state.notes.map fun note => (note.id, note.text)) =
      [(1700000000000, "Great espresso"), (1700000000000, "Friendly staff")] ∧
    ¬ ∃ (J : JsonCodec Note) (s : MapPageState) (now : Nat) (iso1 iso2 text1 text2 : String),
      ((addNote J now iso2 text2 (addNote J now iso1 text1 s).state).state.notes.filter
          fun note => note.id = now).length = 1 ∧
      (∃ note ∈ (addNote J now iso2 text2 (addNote J now iso1 text1 s).state).state.notes,
        note.id = now ∧ note.text = text2) ∧
      ∀ note ∈ (addNote J now iso2 text2 (addNote J now iso1 text1 s).state).state.notes,
        note.text ≠ text1 := by
  refine ⟨by decide, ?_⟩
  rintro ⟨J, s, now, iso1, iso2, text1, text2, _, _, hgone⟩
  rw [(addNote_state J now iso2 text2 _).1, (addNote_state J now iso1 text1 s).1] at hgone
  exact hgone { id := now, text := text1, date := iso1 } (by simp) rfl

/-! ## Malformed stored JSON -/

theorem shopOfElement_malformed (JN : JsonCodec Note) (JP : JsonCodec Photo) (ls : Storage)
    (element : Element)
    (hbad : (∃ v, ls.getItem (notesKey element.id) = some v ∧ v ≠ "" ∧ JN.parse v = none) ∨
      (∃ v, ls.getItem (photosKey element.id) = some v ∧ v ≠ "" ∧ JP.parse v = none)) :
    ∃ e, shopOfElement JN JP ls element = .error e := by
  unfold shopOfElement
  cases element.tags with
  | none => exact ⟨_, rfl⟩
  | some tags =>
    simp only []
    rcases hbad with ⟨v, hv, hne, hparse⟩ | ⟨v, hv, hne, hparse⟩
    · have : readStored JN ls (notesKey element.id) = none := by
        simp only [readStored, hv, orDefault, if_neg hne, hparse]
      rw [this]
      exact ⟨_, rfl⟩
    · have hp : readStored JP ls (photosKey element.id) = none := by
        simp only [readStored, hv, orDefault, if_neg hne, hparse]
      cases readStored JN ls (notesKey element.id) with
      | none => exact ⟨_, rfl⟩
      | some notes =>
        simp only [hp]
        exact ⟨_, rfl⟩

/-- C22, as amended: stored JSON is not guarded per shop. For every map-data
response with at least one element whose stored notes value or stored photos
value is a non-empty string that is not valid JSON, `fetchCoffeeShops` builds no
shop record at all, not even for the elements whose stored values are valid:
the shop list stays as it was, the error message 'Error fetching coffee shops'
is set and the loading flag is cleared. -/
theorem malformed_store_fails_fetch (JN : JsonCodec Note) (JP : JsonCodec Photo)
    (lat lng : Coord) (ok : Bool) (elements : List Element) (s : MapPageState)
    (element : Element) (hmem : element ∈ elements)
    (hbad :
      (∃ v, s.localStorage.getItem (notesKey element.id) = some v ∧ v ≠ "" ∧
        JN.parse v = none) ∨
      (∃ v, s.localStorage.getItem (photosKey element.id) = some v ∧ v ≠ "" ∧
        JP.parse v = none)) :
    (∀ shops, fetchCoffeeShopsTry JN JP s.localStorage
      (.resolved ok (.value (some elements))) ≠ .ok shops) ∧
    ∃ s1, fetchCoffeeShops JN JP lat lng (.resolved ok (.value (some elements))) s = .ok s1 ∧
      s1 = { s with error := some "Error fetching coffee shops", loading := false } ∧
      s1.coffeeShops = s.coffeeShops ∧ (s.coffeeShops = [] → s1.coffeeShops = []) ∧
      s1.error = some "Error fetching coffee shops" ∧ s1.loading = false := by
  have htry : ∃ e, fetchCoffeeShopsTry JN JP s.localStorage
      (.resolved ok (.value (some elements))) = .error e := by
    cases ok with
    | false => exact ⟨_, rfl⟩
    | true =>
      obtain ⟨e, he⟩ := mapOrThrow_error_of_exists (shopOfElement JN JP s.localStorage)
        elements ⟨element, hmem, shopOfElement_malformed JN JP s.localStorage element hbad⟩
      exact ⟨e, by simp only [fetchCoffeeShopsTry, Bool.not_true, Bool.false_eq_true,
        if_false, he]⟩
  obtain ⟨e, he⟩ := htry
  refine ⟨fun shops h => ?_, ?_⟩
  · rw [he] at h; cases h
  · simp only [fetchCoffeeShops, he]
    exact ⟨_, rfl, rfl, rfl, fun h => h, rfl, rfl⟩

/-- Witness of C22 as amended: a response with a café whose stored values are
valid and the café 12345, whose notes key holds text that is not JSON. -/
theorem malformed_store_fails_fetch_witness :
    (∀ shops, fetchCoffeeShopsTry noteJson photoJson exampleMalformed.localStorage
      (.resolved true (.value (some [nearCafe, exampleElement]))) ≠ .ok shops) ∧
    ∃ s1, fetchCoffeeShops noteJson photoJson 40000000 (-73000000)
        (.resolved true (.value (some [nearCafe, exampleElement]))) exampleMalformed = .ok s1 ∧
      s1 = { exampleMalformed with
        error := some "Error fetching coffee shops", loading := false } ∧
      s1.coffeeShops = exampleMalformed.coffeeShops ∧
      (exampleMalformed.coffeeShops = [] → s1.coffeeShops = []) ∧
      s1.error = some "Error fetching coffee shops" ∧ s1.loading = false :=
  malformed_store_fails_fetch noteJson photoJson 40000000 (-73000000) true
    [nearCafe, exampleElement] exampleMalformed exampleElement (by decide)
    (Or.inl ⟨"not json", rfl, by decide, by decide⟩)

/-- Counterexample to C22 as stated: the notes key of the café 12345 holds the empty
string, which is not valid JSON, yet `fetchCoffeeShops` builds the shop record,
with no notes, and sets no error message: the read falls back to `'[]'` for an
empty stored string. -/
theorem empty_string_store_is_read :
    exampleEmptyString.localStorage.getItem (notesKey exampleElement.id) = some "" ∧
    noteJson.parse "" = none ∧
    (fetchCoffeeShops noteJson photoJson 40000000 (-73000000)
        (.resolved true (.value (some [exampleElement]))) exampleEmptyString).map
          (fun s1 => (s1.coffeeShops, s1.error, s1.loading)) =
      .ok ([{ id := 12345, name := "Bean There", lat := 40005000, lng := -73004000
              address := "Address not available", phone := "Phone number not available"
              website := "Website not available"
              opening_hours := "Opening hours not available"
              notes := [], photos := [] }], none, false) := by
  refine ⟨by decide, by decide, by decide⟩


/-! ## Truncation before the sort -/

theorem sortInsert_perm {α : Type} (cmp : α → α → Int) (x : α) (l : List α) :
    (sortInsert cmp x l).Perm (x :: l) := by
  induction l with
  | nil => exact List.Perm.refl _
  | cons y ys ih =>
    unfold sortInsert
    by_cases h : cmp x y ≤ 0
    · rw [if_pos h]
    · rw [if_neg h]
      exact ((List.Perm.cons y ih).trans (List.Perm.swap x y ys))

theorem sort_perm {α : Type} (cmp : α → α → Int) (l : List α) : (sort cmp l).Perm l := by
  induction l with
  | nil => exact List.Perm.refl _
  | cons x xs ih => exact (sortInsert_perm cmp x _).trans (List.Perm.cons x ih)

theorem forall₂_mem_right {α β : Type} (R : α → β → Prop) (l : List α) (bs : List β)
    (h : List.Forall₂ R l bs) : ∀ b ∈ bs, ∃ a ∈ l, R a b := by
  induction h with
  | nil => intro b hb; cases hb
  | cons hab _ ih =>
    intro b hb
    rcases List.mem_cons.mp hb with rfl | hb
    · exact ⟨_, List.mem_cons_self _ _, hab⟩
    · obtain ⟨a, ha, hr⟩ := ih b hb
      exact ⟨a, List.mem_cons_of_mem _ ha, hr⟩

/-- C23: for every map-data response with element list `elements`, whenever
`fetchNearbyCoffeeShops` stores a shop list (and it stores one whenever the first
five elements carry tags), that list has length `min 5 elements.length` and is a
permutation of the records built, in response order, from the first five
elements; every stored shop is built from one of those elements. With six cafés
of which the sixth is the closest, the stored list holds the first five, by
distance, and not the sixth. -/
theorem nearby_truncated_before_sort
    (calculateDistance : Coord → Coord → Coord → Coord → Nat) (lat lon : Coord) (ok : Bool)
    (elements : List Element) (s : LandingPageState) :
    (∀ shops, fetchNearbyCoffeeShopsTry calculateDistance lat lon
        (.resolved ok (.value (some elements))) = .ok shops →
      fetchNearbyCoffeeShops calculateDistance lat lon
          (.resolved ok (.value (some elements))) s =
        .ok { s with nearbyShops := shops, loading := false } ∧
      shops.length = min 5 elements.length ∧
      ∃ built, mapOrThrow (nearbyShopOfElement calculateDistance lat lon)
            (elements.take (min 5 elements.length)) = .ok built ∧
        List.Forall₂ (fun element shop =>
          nearbyShopOfElement calculateDistance lat lon element = .ok shop)
          (elements.take (min 5 elements.length)) built ∧
        shops.Perm built ∧
        ∀ shop ∈ shops, ∃ element ∈ elements.take 5,
          nearbyShopOfElement calculateDistance lat lon element = .ok shop) ∧
    ((∀ element ∈ elements.take 5, element.tags ≠ none) →
      ∃ shops, fetchNearbyCoffeeShopsTry calculateDistance lat lon
        (.resolved ok (.value (some elements))) = .ok shops) ∧
    (fetchNearbyCoffeeShops latitudeDistance 40000000 (-73000000)
        (.resolved true (.value (some sixCafes))) {}).map
          (fun s1 => s1.nearbyShops.map fun shop => (shop.id, shop.distance)) =
      .ok [(4, 5), (2, 7), (1, 9), (3, 12), (5, 20)] := by
  have htake : elements.take (min 5 elements.length) = elements.take 5 := by
    rcases Nat.le_total 5 elements.length with h | h
    · rw [Nat.min_eq_left h]
    · rw [Nat.min_eq_right h, List.take_of_length_le h, List.take_of_length_le (le_refl _)]
  refine ⟨?_, ?_, by decide⟩
  · intro shops htry
    rw [htake]
    simp only [fetchNearbyCoffeeShopsTry] at htry
    cases hmap : mapOrThrow (nearbyShopOfElement calculateDistance lat lon)
        (elements.take 5) with
    | error e => rw [hmap] at htry; cases htry
    | ok built =>
      rw [hmap] at htry
      simp only [Except.ok.injEq] at htry
      have hall := mapOrThrow_ok_forall₂ _ _ _ hmap
      have hperm : shops.Perm built := by rw [← htry]; exact sort_perm _ _
      refine ⟨?_, ?_, built, rfl, hall, hperm, ?_⟩
      · simp only [fetchNearbyCoffeeShops, fetchNearbyCoffeeShopsTry, hmap, htry]
      · rw [hperm.length_eq, ← hall.length_eq, List.length_take]
      · intro shop hshop
        exact forall₂_mem_right _ _ _ hall shop (hperm.subset hshop)
  · intro htags
    obtain ⟨built, hbuilt⟩ := mapOrThrow_ok_of_forall
      (nearbyShopOfElement calculateDistance lat lon) (elements.take 5) (by
        intro element hmem
        cases h : element.tags with
        | none => exact absurd h (htags element hmem)
        | some tags =>
          simp only [nearbyShopOfElement, h]
          exact ⟨_, rfl⟩)
    simp only [fetchNearbyCoffeeShopsTry, hbuilt]
    exact ⟨_, rfl⟩

/-! ## Cancelling a retake -/

/-- The path the edit of a photo takes for every identifier but zero: with a shop
selected, for every photo collection and every non-zero identifier `p` of a
photo in it, `updatePhoto p` followed by the cancel action leaves
`editingPhotoId` at `p`; after `startCamera` and `takePicture` on that state
the photo collection has the same length as before, each entry with
identifier `p` carries the newly captured image and every other entry is
unchanged: the capture replaces photo `p` and appends no photo. -/
theorem cancel_keeps_edit_target (J : JsonCodec Photo) (shop : ShopRecord) (s : MapPageState)
    (p : Nat) (first second : MediaStream) (now : Nat) (iso imageUrl : String)
    (hsel : s.selectedShop = some shop) (hp : p ≠ 0)
    (hmem : ∃ photo ∈ s.photos, photo.id = p) :
    ∃ s2, cancelCamera (updatePhoto p (.ok first) s) = .ok s2 ∧
      s2.editingPhotoId = some p ∧ s2.photos = s.photos ∧ s2.showCamera = false ∧
      (takePicture J now iso imageUrl (startCamera (.ok second) s2)).photos.length =
        s.photos.length ∧
      (takePicture J now iso imageUrl (startCamera (.ok second) s2)).photos =
        s.photos.map (fun photo =>
          if photo.id = p then { photo with url := imageUrl, edited := some iso }
          else photo) ∧
      (∃ photo ∈ (takePicture J now iso imageUrl (startCamera (.ok second) s2)).photos,
        photo.id = p ∧ photo.url = imageUrl) ∧
      (∀ photo ∈ (takePicture J now iso imageUrl (startCamera (.ok second) s2)).photos,
        photo.id = p → photo.url = imageUrl) ∧
      (∀ photo ∈ (takePicture J now iso imageUrl (startCamera (.ok second) s2)).photos,
        photo.id ≠ p → photo ∈ s.photos) := by
  obtain ⟨u1, _, _, u4, _, u6, u7, _, _⟩ := updatePhoto_ok_fields p first s
  obtain ⟨_, _, r3, r4, r5, _, _, r8, _, _⟩ :=
    released_fields first (updatePhoto p (.ok first) s)
  refine ⟨setShowCamera false (setStream none (stopTracks first (updatePhoto p (.ok first) s))),
    by simp only [cancelCamera, u1], by rw [r5, u7], by rw [r3, u4], r8, ?_⟩
  generalize setShowCamera false
    (setStream none (stopTracks first (updatePhoto p (.ok first) s))) = s2 at r3 r4 r5
  obtain ⟨c1, c2, _, c4, _, c6, c7, _, _⟩ := startCamera_ok_fields second s2
  have hsel3 : (startCamera (.ok second) s2).selectedShop = some shop := by
    rw [c6, r4, u6, hsel]
  have hedit : (startCamera (.ok second) s2).editingPhotoId = some p := by rw [c7, r5, u7]
  have hphotos : (startCamera (.ok second) s2).photos = s.photos := by rw [c4, r3, u4]
  obtain ⟨t1, _, _⟩ := takePicture_taken J now iso imageUrl shop second _ c2 c1 hsel3
  have htruthy : truthy (some p) = true := by simp [truthy, hp]
  rw [hedit, htruthy, if_pos rfl, hphotos] at t1
  have hmap : (takePicture J now iso imageUrl (startCamera (.ok second) s2)).photos =
      s.photos.map (fun photo =>
        if photo.id = p then { photo with url := imageUrl, edited := some iso }
        else photo) := by
    rw [t1]
    apply List.map_congr_left
    intro photo _
    by_cases h : photo.id = p
    · rw [if_pos h, if_pos (by rw [h])]
    · rw [if_neg h, if_neg (fun h' => h (Option.some.inj h'))]
  refine ⟨by rw [hmap, List.length_map], hmap, ?_, ?_, ?_⟩
  · obtain ⟨photo, hin, hid⟩ := hmem
    rw [hmap]
    refine ⟨{ photo with url := imageUrl, edited := some iso }, ?_, hid, rfl⟩
    exact List.mem_map.mpr ⟨photo, hin, by rw [if_pos hid]⟩
  · intro photo hin hid
    rw [hmap] at hin
    obtain ⟨old, _, hold⟩ := List.mem_map.mp hin
    by_cases h : old.id = p
    · rw [if_pos h] at hold; rw [← hold]
    · rw [if_neg h] at hold; rw [← hold] at hid; exact absurd hid h
  · intro photo hin hid
    rw [hmap] at hin
    obtain ⟨old, hold_in, hold⟩ := List.mem_map.mp hin
    by_cases h : old.id = p
    · rw [if_pos h] at hold; rw [← hold] at hid; exact absurd h hid
    · rw [if_neg h] at hold; rw [← hold]; exact hold_in

/-- The photo 1700000000000 of the shop 12345 is retaken after a cancelled
retake: it is replaced. -/
theorem cancel_keeps_edit_target_witness :
    ∃ s2, cancelCamera (updatePhoto 1700000000000 (.ok ⟨[1]⟩) exampleRetake) = .ok s2 ∧
      s2.editingPhotoId = some 1700000000000 ∧
      (takePicture photoJson 1700000005000 "2023-11-14T22:13:25.000Z" "data:image/jpeg;base64,BBBB"
          (startCamera (.ok ⟨[2]⟩) s2)).photos =
        [ { id := 1700000000000, url := "data:image/jpeg;base64,BBBB"
            date := "2023-11-14T22:13:20.000Z"
            edited := some "2023-11-14T22:13:25.000Z" } ] :=
  match cancel_keeps_edit_target photoJson exampleShop exampleRetake 1700000000000 ⟨[1]⟩ ⟨[2]⟩
      1700000005000 "2023-11-14T22:13:25.000Z" "data:image/jpeg;base64,BBBB" rfl (by decide)
      ⟨_, List.mem_cons_self _ _, rfl⟩ with
  | ⟨s2, h1, h2, _, _, _, h6, _⟩ => ⟨s2, h1, h2, h6⟩

/-- C24, the code at the failing input: the photo collection of the selected shop
holds one photo with identifier 0. After `updatePhoto 0`, the cancel action,
`startCamera` and `takePicture`, the edit target is still 0, as the claim says,
but the test `if (editingPhotoId)` takes 0 for no target: the collection has
two entries and the entry with identifier 0 keeps its old image, where the
same steps on the photo 1700000000000 replace its image and leave one entry. -/
theorem retake_of_photo_zero_appends :
    exampleEpochPhoto.photos.map (fun photo => (photo.id, photo.url)) =
      [(0, "data:image/jpeg;base64,AAAA")] ∧
    (cancelCamera (updatePhoto 0 (.ok ⟨[1]⟩) exampleEpochPhoto)).state.editingPhotoId =
      some 0 ∧
    ((takePicture photoJson 1700000005000 "2023-11-14T22:13:25.000Z"
        "data:image/jpeg;base64,BBBB"
        (startCamera (.ok ⟨[2]⟩)
          (cancelCamera (updatePhoto 0 (.ok ⟨[1]⟩) exampleEpochPhoto)).state)).photos.map
        fun photo => (photo.id, photo.url)) =
      [(0, "data:image/jpeg;base64,AAAA"), (1700000005000, "data:image/jpeg;base64,BBBB")] ∧
    ((takePicture photoJson 1700000005000 "2023-11-14T22:13:25.000Z"
        "data:image/jpeg;base64,BBBB"
        (startCamera (.ok ⟨[2]⟩)
          (cancelCamera (updatePhoto 1700000000000 (.ok ⟨[1]⟩)
            exampleRetake)).state)).photos.map
        fun photo => (photo.id, photo.url)) =
      [(1700000000000, "data:image/jpeg;base64,BBBB")] := by
  refine ⟨by decide, by decide, by decide, by decide⟩


/-! ## The shop records are a snapshot -/

theorem panelOp_apply_coffeeShops (JN : JsonCodec Note) (JP : JsonCodec Photo) (op : PanelOp)
    (s : MapPageState) : (op.apply JN JP s).coffeeShops = s.coffeeShops := by
  cases op with
  | addNote now iso text => exact (addNote_state JN now iso text s).2.2.2.2
  | updateNote iso noteId newText => exact (updateNote_state JN iso noteId newText s).2.2.2.2
  | deleteNote noteId => exact (deleteNote_state JN noteId s).2.2.2.2
  | deletePhoto photoId => exact (deletePhoto_state JP photoId s).2.2.2.2
  | takePicture now iso imageUrl => exact (takePicture_frame JP now iso imageUrl s).1
  | startCamera media =>
    cases media with
    | error e => rfl
    | ok stream => exact (startCamera_ok_fields stream s).2.2.2.2.2.2.2.2
  | updatePhoto photoId media =>
    cases media with
    | error e => rfl
    | ok stream => exact (updatePhoto_ok_fields photoId stream s).2.2.2.2.2.2.2.2
  | cancelCamera =>
    simp only [PanelOp.apply, cancelCamera]
    cases hst : s.stream with
    | none => rfl
    | some stream => exact (released_fields stream s).2.2.2.2.2.1

theorem applyPanelOps_coffeeShops (JN : JsonCodec Note) (JP : JsonCodec Photo)
    (ops : List PanelOp) :
    ∀ s : MapPageState, (applyPanelOps JN JP ops s).coffeeShops = s.coffeeShops := by
  induction ops with
  | nil => intro s; rfl
  | cons op ops ih =>
    intro s
    show (applyPanelOps JN JP ops (op.apply JN JP s)).coffeeShops = s.coffeeShops
    rw [ih, panelOp_apply_coffeeShops]

theorem shopOfElement_stored (JN : JsonCodec Note) (JP : JsonCodec Photo) (ls : Storage)
    (element : Element) (shop : ShopRecord)
    (h : shopOfElement JN JP ls element = .ok shop) :
    readStored JN ls (notesKey element.id) = some shop.notes ∧
    readStored JP ls (photosKey element.id) = some shop.photos := by
  unfold shopOfElement at h
  cases htag : element.tags with
  | none => rw [htag] at h; cases h
  | some tags =>
    rw [htag] at h
    cases hn : readStored JN ls (notesKey element.id) with
    | none => simp only [hn] at h; cases h
    | some notes =>
      cases hp : readStored JP ls (photosKey element.id) with
      | none => simp only [hn, hp] at h; cases h
      | some photos =>
        simp only [hn, hp, Except.ok.injEq] at h
        subst h
        exact ⟨rfl, rfl⟩

/-- C25: `addNote`, `updateNote`, `deleteNote`, `deletePhoto` and `takePicture`
(and the camera actions around it) leave the list of shop records unchanged.
After any sequence of these operations `coffeeShops` is what it was; when the
records were built by `fetchCoffeeShops` from elements over a storage, after any
sequence of operations each record's notes and photos fields are still the
sequences read from that storage. For the selected shop 12345, listed with one
stored note, `addNote` leaves the record's notes at length one while the
in-memory collection and the stored sequence have length two. -/
theorem shop_records_unchanged (JN : JsonCodec Note) (JP : JsonCodec Photo)
    (ops : List PanelOp) (s : MapPageState) :
    (applyPanelOps JN JP ops s).coffeeShops = s.coffeeShops ∧
    (∀ (ls : Storage) (ok : Bool) (elements : List Element) (shops : List ShopRecord),
      fetchCoffeeShopsTry JN JP ls (.resolved ok (.value (some elements))) = .ok shops →
      s.coffeeShops = shops →
        List.Forall₂ (fun element shop =>
          readStored JN ls (notesKey element.id) = some shop.notes ∧
          readStored JP ls (photosKey element.id) = some shop.photos)
          elements (applyPanelOps JN JP ops s).coffeeShops) ∧
    (exampleListed.coffeeShops.map (fun shop => (shop.id, shop.notes.length)) =
        [(12345, 1)] ∧
      (readStored noteJson exampleListed.localStorage (notesKey 12345)).map List.length =
        some 1 ∧
      ((applyPanelOps noteJson photoJson
          [.addNote 1700000005000 "2023-11-14T22:13:25.000Z" "Friendly staff"]
          exampleListed).coffeeShops.map fun shop => (shop.id, shop.notes.length)) =
        [(12345, 1)] ∧
      (applyPanelOps noteJson photoJson
          [.addNote 1700000005000 "2023-11-14T22:13:25.000Z" "Friendly staff"]
          exampleListed).notes.length = 2 ∧
      (readStored noteJson (applyPanelOps noteJson photoJson
          [.addNote 1700000005000 "2023-11-14T22:13:25.000Z" "Friendly staff"]
          exampleListed).localStorage (notesKey 12345)).map List.length = some 2) := by
  have hstored : (applyPanelOps noteJson photoJson
      [.addNote 1700000005000 "2023-11-14T22:13:25.000Z" "Friendly staff"]
      exampleListed).localStorage =
      exampleListed.localStorage.insert (notesKey 12345)
        (noteJson.stringify (applyPanelOps noteJson photoJson
          [.addNote 1700000005000 "2023-11-14T22:13:25.000Z" "Friendly staff"]
          exampleListed).notes) := rfl
  refine ⟨applyPanelOps_coffeeShops JN JP ops s, ?_,
    by decide, by decide, by decide, by decide,
    by rw [hstored, readStored_insert noteJson noteJson_lawful]; rfl⟩
  intro ls ok elements shops htry hshops
  rw [applyPanelOps_coffeeShops, hshops]
  cases ok with
  | false => simp [fetchCoffeeShopsTry] at htry
  | true =>
    simp only [fetchCoffeeShopsTry, Bool.not_true, Bool.false_eq_true, if_false] at htry
    have hall := mapOrThrow_ok_forall₂ _ _ _ htry
    exact hall.imp fun element shop h => shopOfElement_stored JN JP ls element shop h

/-! ## The slideshow index -/

theorem nextPhoto_index (s : MapPageState) :
    (nextPhoto s).slideshow.currentIndex =
      (s.slideshow.currentIndex + 1) % s.photos.length := by
  show (Int.tmod ((s.slideshow.currentIndex : Int) + 1) s.photos.length).toNat = _
  have h : ((s.slideshow.currentIndex : Int) + 1) =
      ((s.slideshow.currentIndex + 1 : Nat) : Int) := by push_cast; rfl
  rw [h, ← Int.ofNat_tmod, Int.toNat_ofNat]

theorem previousPhoto_index (s : MapPageState) (h : 1 ≤ s.photos.length) :
    (previousPhoto s).slideshow.currentIndex =
      (s.slideshow.currentIndex + s.photos.length - 1) % s.photos.length := by
  show (Int.tmod ((s.slideshow.currentIndex : Int) - 1 + s.photos.length)
    s.photos.length).toNat = _
  have h : ((s.slideshow.currentIndex : Int) - 1 + s.photos.length) =
      ((s.slideshow.currentIndex + s.photos.length - 1 : Nat) : Int) := by omega
  rw [h, ← Int.ofNat_tmod, Int.toNat_ofNat]

theorem nextPhoto_iterate (k : Nat) :
    ∀ s : MapPageState, (nextPhoto^[k] s).photos = s.photos ∧
      (nextPhoto^[k] s).slideshow.currentIndex % s.photos.length =
        (s.slideshow.currentIndex + k) % s.photos.length := by
  induction k with
  | zero => intro s; exact ⟨rfl, rfl⟩
  | succ k ih =>
    intro s
    rw [Function.iterate_succ_apply']
    obtain ⟨hphotos, hindex⟩ := ih s
    refine ⟨hphotos, ?_⟩
    rw [nextPhoto_index, hphotos, Nat.mod_mod, Nat.add_mod, hindex, ← Nat.add_mod]
    rfl

/-- C26: for every photo count `n` of at least one and every slideshow index `i`
below `n`, `nextPhoto` and `previousPhoto` each yield an index below `n`, so that
the displayed photo exists; `previousPhoto` after `nextPhoto` and `nextPhoto`
after `previousPhoto` both return `i`; `nextPhoto` from `n - 1` yields 0 and
`previousPhoto` from 0 yields `n - 1`; and `n` successive `nextPhoto` steps
return to `i`. Neither function changes the photo collection. -/
theorem slideshow_index_cycles (s : MapPageState) (n i : Nat) (hn : s.photos.length = n)
    (hpos : 1 ≤ n) (hi : s.slideshow.currentIndex = i) (hlt : i < n) :
    (nextPhoto s).slideshow.currentIndex < n ∧
    (previousPhoto s).slideshow.currentIndex < n ∧
    (∃ photo, (nextPhoto s).photos[(nextPhoto s).slideshow.currentIndex]? = some photo) ∧
    (∃ photo,
      (previousPhoto s).photos[(previousPhoto s).slideshow.currentIndex]? = some photo) ∧
    (previousPhoto (nextPhoto s)).slideshow.currentIndex = i ∧
    (nextPhoto (previousPhoto s)).slideshow.currentIndex = i ∧
    (i = n - 1 → (nextPhoto s).slideshow.currentIndex = 0) ∧
    (i = 0 → (previousPhoto s).slideshow.currentIndex = n - 1) ∧
    (nextPhoto^[n] s).slideshow.currentIndex = i ∧
    (nextPhoto s).photos = s.photos ∧ (previousPhoto s).photos = s.photos := by
  have hnext : (nextPhoto s).slideshow.currentIndex = (i + 1) % n := by
    rw [nextPhoto_index, hn, hi]
  have hprev : (previousPhoto s).slideshow.currentIndex = (i + n - 1) % n := by
    rw [previousPhoto_index s (by omega), hn, hi]
  have hnextLt : (i + 1) % n < n := Nat.mod_lt _ (by omega)
  have hprevLt : (i + n - 1) % n < n := Nat.mod_lt _ (by omega)
  have hnextVal : (i + 1) % n = if i + 1 = n then 0 else i + 1 := by
    by_cases h : i + 1 = n
    · rw [if_pos h, h, Nat.mod_self]
    · rw [if_neg h, Nat.mod_eq_of_lt (by omega)]
  have hprevVal : (i + n - 1) % n = if i = 0 then n - 1 else i - 1 := by
    by_cases h : i = 0
    · rw [if_pos h, h, Nat.zero_add, Nat.mod_eq_of_lt (by omega)]
    · rw [if_neg h]
      have : i + n - 1 = (i - 1) + n := by omega
      rw [this, Nat.add_mod_right, Nat.mod_eq_of_lt (by omega)]
  have hnextPhotos : (nextPhoto s).photos = s.photos := rfl
  have hprevPhotos : (previousPhoto s).photos = s.photos := rfl
  refine ⟨by rw [hnext]; exact hnextLt, by rw [hprev]; exact hprevLt, ?_, ?_, ?_, ?_, ?_, ?_,
    ?_, hnextPhotos, hprevPhotos⟩
  · rw [hnextPhotos, hnext]
    exact ⟨s.photos.get ⟨(i + 1) % n, by rw [hn]; exact hnextLt⟩,
      List.getElem?_eq_getElem _⟩
  · rw [hprevPhotos, hprev]
    exact ⟨s.photos.get ⟨(i + n - 1) % n, by rw [hn]; exact hprevLt⟩,
      List.getElem?_eq_getElem _⟩
  · rw [previousPhoto_index _ (by rw [hnextPhotos]; omega), hnextPhotos, hn, hnext, hnextVal]
    by_cases h : i + 1 = n
    · rw [if_pos h, Nat.zero_add, Nat.mod_eq_of_lt (by omega)]; omega
    · rw [if_neg h]
      have : i + 1 + n - 1 = i + n := by omega
      rw [this, Nat.add_mod_right, Nat.mod_eq_of_lt hlt]
  · rw [nextPhoto_index, hprevPhotos, hn, hprev, hprevVal]
    by_cases h : i = 0
    · rw [if_pos h, h]
      have : n - 1 + 1 = n := by omega
      rw [this, Nat.mod_self]
    · rw [if_neg h]
      have : i - 1 + 1 = i := by omega
      rw [this, Nat.mod_eq_of_lt hlt]
  · intro h
    rw [hnext, hnextVal, if_pos (by omega)]
  · intro h
    rw [hprev, hprevVal, if_pos h]
  · obtain ⟨hphotos, hindex⟩ := nextPhoto_iterate n s
    rw [hn, hi, Nat.add_mod_right, Nat.mod_eq_of_lt hlt] at hindex
    have hbound : (nextPhoto^[n] s).slideshow.currentIndex < n := by
      cases n with
      | zero => omega
      | succ m =>
        rw [Function.iterate_succ_apply', nextPhoto_index, (nextPhoto_iterate m s).1, hn]
        exact Nat.mod_lt _ (by omega)
    rw [Nat.mod_eq_of_lt hbound] at hindex
    exact hindex

/-- Witness of C26: three photos, the slideshow showing the last one. -/
theorem slideshow_index_cycles_witness :
    (nextPhoto exampleSlideshow).slideshow.currentIndex = 0 ∧
    (previousPhoto exampleSlideshow).slideshow.currentIndex = 1 ∧
    (previousPhoto (nextPhoto exampleSlideshow)).slideshow.currentIndex = 2 ∧
    (nextPhoto (nextPhoto (nextPhoto exampleSlideshow))).slideshow.currentIndex = 2 :=
  match slideshow_index_cycles exampleSlideshow 3 2 rfl (by decide) rfl (by decide) with
  | ⟨_, _, _, _, h5, _, h7, _, h9, _⟩ => ⟨h7 rfl, by decide, h5, h9⟩

end CoffeeFinder

